import Mathlib

/-!
seats-aero-cli: the API client's page fetches and pagination aggregators.

A shallow embedding of `internal/api` (types.go, search.go, availability.go).

Conventions of the embedding:

* Go `int` and `int64` values are `Int`.  The only arithmetic the aggregators do is
  `params.Skip += len(resp.Data)`; `Skip` starts at 0 and grows in step with
  `len(allResults)`, a slice length, so it never leaves the 64-bit range and no wrap-around
  is modelled.
* A Go `error` is represented by its message text.
* A Go `map[string]string` is a key-unique association list (`QueryParams`).
* A method that talks to the network is a function of an explicit world state `σ`:
  it takes the state and returns its Go result together with the next state.
* The `for` loops of the aggregators carry a fuel argument that bounds the number of page
  requests; a run that exhausts it has `result = none`.
* The aggregators take the page-fetch method they call (`c.Search`, `c.GetAvailability`) as a
  parameter, and the page-fetch operations take the transport (`c.get`).  Page sequences are
  given as scripts of outcomes; every run against any server is a run against a script
  (`SearchAll_scripted_outcomes`, `GetAvailabilityAll_scripted_outcomes`).
-/

namespace SeatsAero

/-- Go `error`, represented by its message text. -/
abbrev Error := String

/-- Go `time.Time`: an instant, counted in nanoseconds since the Unix epoch, and the offset of
the time's zone east of UTC at that instant, in seconds. The monotonic clock reading and the
name of the zone are not modelled. -/
structure Time where
  unixNano : Int
  offset : Int
deriving DecidableEq, Repr

namespace strings

/-- Go `strings.Join(elems, sep)`. -/
def Join (elems : List String) (sep : String) : String :=
  sep.intercalate elems

end strings

namespace strconv

/-- Go `strconv.FormatInt(i, 10)`: the base-10 text of `i`, with a leading `-` when negative. -/
def FormatInt (i : Int) : String :=
  match i with
  | Int.ofNat n => Nat.repr n
  | Int.negSucc n => "-" ++ Nat.repr (n + 1)

/-- Go `strconv.Itoa(i)`, which is `FormatInt(int64(i), 10)`. -/
def Itoa (i : Int) : String :=
  FormatInt i

end strconv

namespace api

/-! ## types.go -/

/-- Go `api.Route`. -/
structure Route where
  ID : String
  OriginAirport : String
  DestinationAirport : String
  NumDaysOut : Int
  Distance : Int
  Source : String
deriving DecidableEq, Repr

/-- Go `api.Availability`. -/
structure Availability where
  ID : String
  RouteID : String
  Route : Route
  Date : String
  ParsedDate : Time
  YAvailable : Bool
  YMileageCost : String
  YRemainingSeats : Int
  YAirlines : String
  YDirect : Bool
  WAvailable : Bool
  WMileageCost : String
  WRemainingSeats : Int
  WAirlines : String
  WDirect : Bool
  JAvailable : Bool
  JMileageCost : String
  JRemainingSeats : Int
  JAirlines : String
  JDirect : Bool
  FAvailable : Bool
  FMileageCost : String
  FRemainingSeats : Int
  FAirlines : String
  FDirect : Bool
  Source : String
  CreatedAt : Time
  UpdatedAt : Time
deriving DecidableEq, Repr

/-- Go `api.SearchResponse`. -/
structure SearchResponse where
  Data : List Availability
  Count : Int
  Cursor : Int
  HasMore : Bool
deriving DecidableEq, Repr

/-- Go `api.AvailabilityResponse`. -/
structure AvailabilityResponse where
  Data : List Availability
  Count : Int
  Cursor : Int
  HasMore : Bool
deriving DecidableEq, Repr

/-- Go `api.SearchParams`. -/
structure SearchParams where
  OriginAirports : List String
  DestinationAirports : List String
  StartDate : String
  EndDate : String
  Cabin : String
  Sources : List String
  DirectOnly : Bool
  Take : Int
  Skip : Int
  Cursor : Int
deriving DecidableEq, Repr

/-- Go `api.AvailabilityParams`. -/
structure AvailabilityParams where
  Source : String
  Cabin : String
  OriginRegion : String
  DestRegion : String
  StartDate : String
  EndDate : String
  Take : Int
  Skip : Int
  Cursor : Int
deriving DecidableEq, Repr

/-! ## Query parameter maps -/

/-- Go `map[string]string`: an association list in which every key occurs at most once. -/
abbrev QueryParams := List (String × String)

namespace QueryParams

/-- Go `m[key] = value`: replaces the entry of `key` if there is one, adds it otherwise. -/
def set (m : QueryParams) (key value : String) : QueryParams :=
  m.filter (fun e => e.1 != key) ++ [(key, value)]

/-- Go `v, ok := m[key]`. -/
def get? (m : QueryParams) (key : String) : Option String :=
  List.lookup key m

end QueryParams

/-- The transport as a page-fetch operation sees it: `c.get(endpoint, params, &response)` either
fails or fills `response`, and moves the world on. -/
abbrev Getter (σ R : Type) := String → QueryParams → σ → Except Error R × σ

/-- A page-fetch operation as an aggregator sees it (`c.Search`, `c.GetAvailability`). -/
abbrev Fetch (σ P R : Type) := P → σ → Except Error R × σ

/-- The outcome of an aggregation run: the parameter records passed to the page-fetch operation,
in request order, and the Go return pair `(allResults, err)`; `result = none` when the run was
cut off by the fuel bound. -/
structure Run (P : Type) where
  requests : List P
  result : Option (List Availability × Option Error)

/-! ## search.go -/

/-- The `queryParams` map that `Search` builds from its parameters (search.go, lines 11-55). -/
def Search.queryParams (params : SearchParams) : QueryParams :=
  let queryParams : QueryParams := []
  let queryParams :=
    if params.OriginAirports.length > 0 then
      queryParams.set "origin_airport" (strings.Join params.OriginAirports ",")
    else queryParams
  let queryParams :=
    if params.DestinationAirports.length > 0 then
      queryParams.set "destination_airport" (strings.Join params.DestinationAirports ",")
    else queryParams
  let queryParams :=
    if params.StartDate != "" then queryParams.set "start_date" params.StartDate else queryParams
  let queryParams :=
    if params.EndDate != "" then queryParams.set "end_date" params.EndDate else queryParams
  let queryParams :=
    if params.Cabin != "" then queryParams.set "cabin" params.Cabin else queryParams
  let queryParams :=
    if params.Sources.length > 0 then
      queryParams.set "source" (strings.Join params.Sources ",")
    else queryParams
  let queryParams :=
    if params.DirectOnly then queryParams.set "direct" "true" else queryParams
  let queryParams :=
    if params.Take > 0 then queryParams.set "take" (strconv.Itoa params.Take) else queryParams
  let queryParams :=
    if params.Skip > 0 then queryParams.set "skip" (strconv.Itoa params.Skip) else queryParams
  let queryParams :=
    if params.Cursor > 0 then
      queryParams.set "cursor" (strconv.FormatInt params.Cursor)
    else queryParams
  queryParams

/-- Go `(*Client).Search`; `get` is the client's `c.get`. -/
def Search {σ : Type} (get : Getter σ SearchResponse) : Fetch σ SearchParams SearchResponse :=
  fun params w =>
    match get "/search" (Search.queryParams params) w with
    | (.error err, w') => (.error ("search failed: " ++ err), w')
    | (.ok response, w') => (.ok response, w')

/-- The `for` loop of `SearchAll` (search.go, lines 72-88); `search` is the client's `c.Search`. -/
def SearchAll.loop {σ : Type} (search : Fetch σ SearchParams SearchResponse) :
    Nat → SearchParams → List Availability → σ → Run SearchParams
  | 0, _, _, _ => ⟨[], none⟩
  | fuel + 1, params, allResults, w =>
    match search params w with
    | (.error err, _) => ⟨[params], some ([], some err)⟩
    | (.ok resp, w') =>
      let allResults := allResults ++ resp.Data
      if !resp.HasMore || resp.Data.length == 0 then
        ⟨[params], some (allResults, none)⟩
      else
        let params' := { params with Skip := params.Skip + resp.Data.length }
        let params' := if params'.Cursor == 0 then { params' with Cursor := resp.Cursor } else params'
        let rest := SearchAll.loop search fuel params' allResults w'
        ⟨params :: rest.requests, rest.result⟩

/-- Go `(*Client).SearchAll`; `search` is the client's `c.Search`. -/
def SearchAll {σ : Type} (search : Fetch σ SearchParams SearchResponse)
    (fuel : Nat) (params : SearchParams) (w : σ) : Run SearchParams :=
  let params := { params with Take := 100 }
  let params := { params with Skip := 0 }
  SearchAll.loop search fuel params [] w

/-! ## availability.go -/

/-- The `queryParams` map that `GetAvailability` builds from its parameters
(availability.go, lines 10-47). -/
def GetAvailability.queryParams (params : AvailabilityParams) : QueryParams :=
  let queryParams : QueryParams := []
  let queryParams :=
    if params.Source != "" then queryParams.set "source" params.Source else queryParams
  let queryParams :=
    if params.Cabin != "" then queryParams.set "cabin" params.Cabin else queryParams
  let queryParams :=
    if params.OriginRegion != "" then
      queryParams.set "origin_region" params.OriginRegion
    else queryParams
  let queryParams :=
    if params.DestRegion != "" then
      queryParams.set "destination_region" params.DestRegion
    else queryParams
  let queryParams :=
    if params.StartDate != "" then queryParams.set "start_date" params.StartDate else queryParams
  let queryParams :=
    if params.EndDate != "" then queryParams.set "end_date" params.EndDate else queryParams
  let queryParams :=
    if params.Take > 0 then queryParams.set "take" (strconv.Itoa params.Take) else queryParams
  let queryParams :=
    if params.Skip > 0 then queryParams.set "skip" (strconv.Itoa params.Skip) else queryParams
  let queryParams :=
    if params.Cursor > 0 then
      queryParams.set "cursor" (strconv.FormatInt params.Cursor)
    else queryParams
  queryParams

/-- Go `(*Client).GetAvailability`; `get` is the client's `c.get`. -/
def GetAvailability {σ : Type} (get : Getter σ AvailabilityResponse) :
    Fetch σ AvailabilityParams AvailabilityResponse :=
  fun params w =>
    match get "/availability" (GetAvailability.queryParams params) w with
    | (.error err, w') => (.error ("get availability failed: " ++ err), w')
    | (.ok response, w') => (.ok response, w')

/-- The `for` loop of `GetAvailabilityAll` (availability.go, lines 64-80); `getAvailability` is
the client's `c.GetAvailability`. -/
def GetAvailabilityAll.loop {σ : Type}
    (getAvailability : Fetch σ AvailabilityParams AvailabilityResponse) :
    Nat → AvailabilityParams → List Availability → σ → Run AvailabilityParams
  | 0, _, _, _ => ⟨[], none⟩
  | fuel + 1, params, allResults, w =>
    match getAvailability params w with
    | (.error err, _) => ⟨[params], some ([], some err)⟩
    | (.ok resp, w') =>
      let allResults := allResults ++ resp.Data
      if !resp.HasMore || resp.Data.length == 0 then
        ⟨[params], some (allResults, none)⟩
      else
        let params' := { params with Skip := params.Skip + resp.Data.length }
        let params' := if params'.Cursor == 0 then { params' with Cursor := resp.Cursor } else params'
        let rest := GetAvailabilityAll.loop getAvailability fuel params' allResults w'
        ⟨params :: rest.requests, rest.result⟩

/-- Go `(*Client).GetAvailabilityAll`; `getAvailability` is the client's `c.GetAvailability`. -/
def GetAvailabilityAll {σ : Type}
    (getAvailability : Fetch σ AvailabilityParams AvailabilityResponse)
    (fuel : Nat) (params : AvailabilityParams) (w : σ) : Run AvailabilityParams :=
  let params := { params with Take := 100 }
  let params := { params with Skip := 0 }
  GetAvailabilityAll.loop getAvailability fuel params [] w

/-! ## A scripted server

The page outcomes of a run, given in advance: the world is the stream of outcomes still to
come, and each fetch consumes the first one, whatever the request. -/

/-- The stream of page outcomes still to come. -/
abbrev Script (R : Type) := Nat → Except Error R

/-- The stream without its first outcome. -/
def Script.tail {R : Type} (pages : Script R) : Script R :=
  fun i => pages (i + 1)

/-- A page-fetch operation that answers the n-th request with the n-th outcome of the script. -/
def scripted {P R : Type} : Fetch (Script R) P R :=
  fun _ pages => (pages 0, pages.tail)

/-- The page outcomes a run of the loop of `SearchAll` meets, in order, against any server. -/
def SearchAll.outcomes {σ : Type} (search : Fetch σ SearchParams SearchResponse) :
    Nat → SearchParams → σ → List (Except Error SearchResponse)
  | 0, _, _ => []
  | fuel + 1, params, w =>
    match search params w with
    | (.error err, _) => [.error err]
    | (.ok resp, w') =>
      if !resp.HasMore || resp.Data.length == 0 then
        [.ok resp]
      else
        let params' := { params with Skip := params.Skip + resp.Data.length }
        let params' := if params'.Cursor == 0 then { params' with Cursor := resp.Cursor } else params'
        .ok resp :: SearchAll.outcomes search fuel params' w'

/-- The page outcomes a run of the loop of `GetAvailabilityAll` meets, in order, against any
server. -/
def GetAvailabilityAll.outcomes {σ : Type}
    (getAvailability : Fetch σ AvailabilityParams AvailabilityResponse) :
    Nat → AvailabilityParams → σ → List (Except Error AvailabilityResponse)
  | 0, _, _ => []
  | fuel + 1, params, w =>
    match getAvailability params w with
    | (.error err, _) => [.error err]
    | (.ok resp, w') =>
      if !resp.HasMore || resp.Data.length == 0 then
        [.ok resp]
      else
        let params' := { params with Skip := params.Skip + resp.Data.length }
        let params' := if params'.Cursor == 0 then { params' with Cursor := resp.Cursor } else params'
        .ok resp :: GetAvailabilityAll.outcomes getAvailability fuel params' w'

/-! ## The aggregation algorithm on pagination state alone

Both aggregators touch only the `Take`, `Skip` and `Cursor` fields of their parameter record and
read only `Data`, `HasMore` and `Cursor` of a page.  `Aggregator` is the algorithm of the
specification (section 4.3) written once over these fields; the two Go loops are compared with
it below. -/

/-- The pagination fields of a parameter record. -/
structure Paging where
  Take : Int
  Skip : Int
  Cursor : Int
deriving DecidableEq, Repr

/-- What an aggregator reads of a page result. -/
structure Page where
  Data : List Availability
  HasMore : Bool
  Cursor : Int
deriving DecidableEq, Repr

/-- The pagination fields of a `SearchParams`. -/
def SearchParams.paging (params : SearchParams) : Paging :=
  ⟨params.Take, params.Skip, params.Cursor⟩

/-- The pagination fields of an `AvailabilityParams`. -/
def AvailabilityParams.paging (params : AvailabilityParams) : Paging :=
  ⟨params.Take, params.Skip, params.Cursor⟩

/-- The records, has-more flag and cursor of a `SearchResponse`. -/
def SearchResponse.page (resp : SearchResponse) : Page :=
  ⟨resp.Data, resp.HasMore, resp.Cursor⟩

/-- The records, has-more flag and cursor of an `AvailabilityResponse`. -/
def AvailabilityResponse.page (resp : AvailabilityResponse) : Page :=
  ⟨resp.Data, resp.HasMore, resp.Cursor⟩

/-- The page outcomes of a script of search responses. -/
def searchPages (pages : Script SearchResponse) : Script Page :=
  fun i => (pages i).map SearchResponse.page

/-- The page outcomes of a script of availability responses. -/
def availabilityPages (pages : Script AvailabilityResponse) : Script Page :=
  fun i => (pages i).map AvailabilityResponse.page

/-- Step 2 of the specification's algorithm: fetch, abort on failure, append, stop on
`has_more = false` or an empty page, otherwise advance the offset by the number of records
received and adopt the page's cursor if none is adopted yet. -/
def Aggregator.loop : Nat → Paging → List Availability → Script Page → Run Paging
  | 0, _, _, _ => ⟨[], none⟩
  | fuel + 1, pg, acc, pages =>
    match pages 0 with
    | .error err => ⟨[pg], some ([], some err)⟩
    | .ok page =>
      if page.HasMore = false ∨ page.Data.length = 0 then
        ⟨[pg], some (acc ++ page.Data, none)⟩
      else
        let cursor := if pg.Cursor = 0 then page.Cursor else pg.Cursor
        let rest := Aggregator.loop fuel ⟨pg.Take, pg.Skip + page.Data.length, cursor⟩
          (acc ++ page.Data) pages.tail
        ⟨pg :: rest.requests, rest.result⟩

/-- The specification's algorithm: page size 100, offset 0, the caller's cursor. -/
def Aggregator (fuel : Nat) (cursor : Int) (pages : Script Page) : Run Paging :=
  Aggregator.loop fuel ⟨100, 0, cursor⟩ [] pages

/-- The records of the i-th page of a script; none for a failed fetch. -/
def Script.records (pages : Script Page) (i : Nat) : List Availability :=
  match pages i with
  | .ok page => page.Data
  | .error _ => []

/-- The offset the n-th request of a run must carry: the number of records of the pages before
it. -/
def Script.offset (pages : Script Page) (n : Nat) : Int :=
  (((List.range n).map (fun i => (pages.records i).length)).sum : Nat)

/-! ## Sample data -/

/-- A script that plays the outcomes of a list and then repeats a final outcome. -/
def Script.ofList {R : Type} (outcomes : List (Except Error R)) (final : Except Error R) :
    Script R :=
  fun i => outcomes.getD i final

/-- A route from San Francisco to Tokyo Narita. -/
def sampleRoute : Route :=
  { ID := "route-1", OriginAirport := "SFO", DestinationAirport := "NRT", NumDaysOut := 60,
    Distance := 5124, Source := "united" }

/-- An availability record with the given ID. -/
def sampleAvailability (id : String) : Availability :=
  { ID := id, RouteID := "route-1", Route := sampleRoute, Date := "2025-03-01",
    ParsedDate := ⟨0, 0⟩,
    YAvailable := true, YMileageCost := "35000", YRemainingSeats := 4, YAirlines := "UA",
    YDirect := true,
    WAvailable := false, WMileageCost := "0", WRemainingSeats := 0, WAirlines := "",
    WDirect := false,
    JAvailable := true, JMileageCost := "80000", JRemainingSeats := 2, JAirlines := "UA, NH",
    JDirect := true,
    FAvailable := false, FMileageCost := "0", FRemainingSeats := 0, FAirlines := "",
    FDirect := false,
    Source := "united", CreatedAt := ⟨0, 0⟩, UpdatedAt := ⟨0, 0⟩ }

/-- The records numbered `start`, ..., `start + count - 1`, each with its number as ID. -/
def sampleRecords (start count : Nat) : List Availability :=
  (List.range count).map (fun i => sampleAvailability (Nat.repr (start + i)))

/-- A search request from SFO to NRT in business class, with stale pagination fields. -/
def sampleSearchParams : SearchParams :=
  { OriginAirports := ["SFO"], DestinationAirports := ["NRT"], StartDate := "2025-03-01",
    EndDate := "", Cabin := "business", Sources := [], DirectOnly := false,
    Take := 500, Skip := -3, Cursor := 0 }

/-- A bulk availability request for one program, with stale pagination fields. -/
def sampleAvailabilityParams : AvailabilityParams :=
  { Source := "united", Cabin := "J", OriginRegion := "North America", DestRegion := "Asia",
    StartDate := "", EndDate := "", Take := 500, Skip := -3, Cursor := 0 }

/-- A search page holding the given records. -/
def searchPage (data : List Availability) (hasMore : Bool) (cursor : Int) : SearchResponse :=
  { Data := data, Count := data.length, Cursor := cursor, HasMore := hasMore }

/-- A bulk availability page holding the given records. -/
def availabilityPage (data : List Availability) (hasMore : Bool) (cursor : Int) :
    AvailabilityResponse :=
  { Data := data, Count := data.length, Cursor := cursor, HasMore := hasMore }

/-- The specification's end-to-end scenario: 60 records, then the last 40. -/
def sixtyForty : Nat → SearchResponse :=
  fun i => if i = 0 then searchPage (sampleRecords 0 60) true 5
    else searchPage (sampleRecords 60 40) false 9

/-- The script of the end-to-end scenario. -/
def sixtyFortyPages : Script SearchResponse :=
  fun i => .ok (sixtyForty i)

/-- A failed second fetch: one page that asks for more, then a failure, then a page never
fetched. -/
def failingSearchPages : Script SearchResponse :=
  Script.ofList [.ok (searchPage (sampleRecords 0 2) true 5), .error "search failed: boom"]
    (.ok (searchPage (sampleRecords 2 1) false 0))

/-- The bulk availability counterpart of `failingSearchPages`. -/
def failingAvailabilityPages : Script AvailabilityResponse :=
  Script.ofList [.ok (availabilityPage (sampleRecords 0 2) true 5),
    .error "get availability failed: boom"]
    (.ok (availabilityPage (sampleRecords 2 1) false 0))

/-- Pages of 100 and 37 records that both ask for more, with cursors 5 and 9, then a last
page of 3 records. -/
def unevenSearchPages : Script SearchResponse :=
  Script.ofList [.ok (searchPage (sampleRecords 0 100) true 5),
    .ok (searchPage (sampleRecords 100 37) true 9)]
    (.ok (searchPage (sampleRecords 137 3) false 11))

/-- The bulk availability counterpart of `unevenSearchPages`. -/
def unevenAvailabilityPages : Script AvailabilityResponse :=
  Script.ofList [.ok (availabilityPage (sampleRecords 0 100) true 5),
    .ok (availabilityPage (sampleRecords 100 37) true 9)]
    (.ok (availabilityPage (sampleRecords 137 3) false 11))

/-- A server that answers every request with an empty page and `hasMore = true`. -/
def emptySearchPages : Script SearchResponse :=
  fun _ => .ok (searchPage [] true 0)

/-- A full page of 100 records, then empty pages, all with `hasMore = true`. -/
def fullThenEmptySearchPages : Script SearchResponse :=
  Script.ofList [.ok (searchPage (sampleRecords 0 100) true 0)] (.ok (searchPage [] true 0))

/-- The sample search request with a cursor of the caller's own. -/
def cursorSearchParams : SearchParams :=
  { sampleSearchParams with Cursor := 7 }

/-- The sample bulk availability request with a cursor of the caller's own. -/
def cursorAvailabilityParams : AvailabilityParams :=
  { sampleAvailabilityParams with Cursor := 7 }

/-- A search request without cabin filter and with direct-only off. -/
def anyCabinSearchParams : SearchParams :=
  { sampleSearchParams with Cabin := "", DirectOnly := false }

/-- A search request for direct flights only. -/
def directSearchParams : SearchParams :=
  { sampleSearchParams with DirectOnly := true }


/-! ## types.go, continued -/

/-- Go `api.AvailabilitySegment`. -/
structure AvailabilitySegment where
  ID : String
  RouteID : String
  AvailabilityID : String
  AvailabilityTripID : String
  FlightNumber : String
  Distance : Int
  FareClass : String
  AircraftName : String
  AircraftCode : String
  OriginAirport : String
  DestinationAirport : String
  DepartsAt : Time
  ArrivesAt : Time
  Source : String
  Order : Int
deriving DecidableEq, Repr

/-- Go `api.Trip`. -/
structure Trip where
  ID : String
  RouteID : String
  AvailabilityID : String
  AvailabilitySegments : List AvailabilitySegment
  TotalDuration : Int
  Stops : Int
  Carriers : String
  RemainingSeats : Int
  MileageCost : Int
  TotalTaxes : Int
  TaxesCurrency : String
  TaxesCurrencySymbol : String
  FlightNumbers : String
  DepartsAt : Time
  ArrivesAt : Time
  Cabin : String
  Source : String
  CreatedAt : Time
  UpdatedAt : Time
deriving DecidableEq, Repr

/-- Go `api.TripsResponse`. -/
structure TripsResponse where
  Data : List Trip
  Count : Int
deriving DecidableEq, Repr

/-- Go `api.RoutesResponse`. -/
structure RoutesResponse where
  Data : List Route
  Count : Int
deriving DecidableEq, Repr

/-- Go `api.RoutesParams`. -/
structure RoutesParams where
  Source : String
  Origin : String
deriving DecidableEq, Repr

/-! ## routes.go, trips.go -/

/-- The `queryParams` map that `GetRoutes` builds from its parameters (routes.go, lines 9-17). -/
def GetRoutes.queryParams (params : RoutesParams) : QueryParams :=
  let queryParams : QueryParams := []
  let queryParams :=
    if params.Source != "" then queryParams.set "source" params.Source else queryParams
  let queryParams :=
    if params.Origin != "" then queryParams.set "origin" params.Origin else queryParams
  queryParams

/-- Go `(*Client).GetRoutes`; `get` is the client's `c.get`. -/
def GetRoutes {σ : Type} (get : Getter σ RoutesResponse) : Fetch σ RoutesParams RoutesResponse :=
  fun params w =>
    match get "/routes" (GetRoutes.queryParams params) w with
    | (.error err, w') => (.error ("get routes failed: " ++ err), w')
    | (.ok response, w') => (.ok response, w')

/-- Go `(*Client).GetTrips`; `get` is the client's `c.get`, called with a nil map. -/
def GetTrips {σ : Type} (get : Getter σ TripsResponse) : Fetch σ String TripsResponse :=
  fun availabilityID w =>
    let endpoint := "/trips/" ++ availabilityID
    match get endpoint [] w with
    | (.error err, w') => (.error ("get trips failed: " ++ err), w')
    | (.ok response, w') => (.ok response, w')

/-! ## client.go

The standard library the client calls (`net/http`, `net/url`, `io`) is a parameter: `Net σ`
gives what `http.NewRequest`, `URL.Query`, `Values.Encode` and `httpClient.Do` followed by
`io.ReadAll` return. -/

/-- Go `url.Values`, a `map[string][]string`: every key occurs at most once. -/
abbrev Values := List (String × List String)

/-- Go `Values.Add(key, value)`: appends the value to the list of the key. -/
def Values.Add (v : Values) (key value : String) : Values :=
  if v.any (fun e => e.1 == key) then
    v.map (fun e => if e.1 == key then (e.1, e.2 ++ [value]) else e)
  else
    v ++ [(key, [value])]

/-- The key/value pairs a `url.Values` holds, as `Encode` writes them out. -/
def Values.pairs (v : Values) : List (String × String) :=
  v.flatMap (fun e => e.2.map (fun value => (e.1, value)))

/-- Go `http.Header`, restricted to `Set`. -/
abbrev Header := List (String × String)

/-- Go `Header.Set(key, value)`. -/
def Header.Set (h : Header) (key value : String) : Header :=
  h.filter (fun e => e.1 != key) ++ [(key, value)]

/-- Go `http.Request`, as far as `doRequest` touches it: the method, the URL without its query,
`URL.RawQuery` and the header. -/
structure Request where
  Method : String
  URL : String
  RawQuery : String
  Header : Header
deriving DecidableEq, Repr

/-- Go `http.Response` after `io.ReadAll(resp.Body)`: the status code and the body read, or the
read failure. -/
structure Response where
  StatusCode : Int
  Body : Except Error String

/-- The standard library calls of `doRequest`. -/
structure Net (σ : Type) where
  /-- Go `http.NewRequest(method, url, nil)`. -/
  NewRequest : String → String → Except Error Request
  /-- Go `req.URL.Query()`: the values of a raw query. -/
  Query : String → Values
  /-- Go `Values.Encode()`. -/
  Encode : Values → String
  /-- Go `c.httpClient.Do(req)`, with the body read by `io.ReadAll`. -/
  Do : Request → σ → Except Error Response × σ

/-- Go `BaseURL`. -/
def BaseURL : String := "https://seats.aero/partnerapi"

/-- Go `api.Client`; its `httpClient` is the `Net` the methods take. Timeouts are not modelled. -/
structure Client where
  apiKey : String
  baseURL : String
deriving DecidableEq, Repr

/-- Go `NewClient`. -/
def NewClient (apiKey : String) : Client :=
  { apiKey := apiKey, baseURL := BaseURL }

/-- Go `(*Client).WithBaseURL`. -/
def Client.WithBaseURL (c : Client) (url : String) : Client :=
  { c with baseURL := url }

/-- The loop of `doRequest` over the parameter map (client.go, lines 65-69): every pair with a
non-empty value is added to the query values. -/
def doRequest.query (q : Values) (params : QueryParams) : Values :=
  params.foldl (fun q e => if e.2 != "" then q.Add e.1 e.2 else q) q

/-- The request `doRequest` hands to `httpClient.Do` (client.go, lines 58-71), given the request
`http.NewRequest` built. -/
def doRequest.request {σ : Type} (net : Net σ) (c : Client) (req : Request)
    (params : QueryParams) : Request :=
  let req := { req with Header := req.Header.Set "Partner-Authorization" c.apiKey }
  let req := { req with Header := req.Header.Set "Accept" "application/json" }
  if params.length > 0 then
    let q := net.Query req.RawQuery
    let q := doRequest.query q params
    { req with RawQuery := net.Encode q }
  else
    req

/-- Go `(*Client).doRequest`. -/
def doRequest {σ : Type} (net : Net σ) (c : Client) (method endpoint : String)
    (params : QueryParams) (w : σ) : Except Error String × σ :=
  let url := c.baseURL ++ endpoint
  match net.NewRequest method url with
  | .error err => (.error ("failed to create request: " ++ err), w)
  | .ok req =>
    let req := doRequest.request net c req params
    match net.Do req w with
    | (.error err, w') => (.error ("request failed: " ++ err), w')
    | (.ok resp, w') =>
      match resp.Body with
      | .error err => (.error ("failed to read response body: " ++ err), w')
      | .ok body =>
        if resp.StatusCode != 200 then
          (.error ("API error (status " ++ strconv.Itoa resp.StatusCode ++ "): " ++ body), w')
        else
          (.ok body, w')

/-- Go `(*Client).get`; `unmarshal` is `json.Unmarshal` into the result type. -/
def Client.get {σ R : Type} (net : Net σ) (unmarshal : String → Except Error R) (c : Client) :
    Getter σ R :=
  fun endpoint params w =>
    match doRequest net c "GET" endpoint params w with
    | (.error err, w') => (.error err, w')
    | (.ok body, w') =>
      match unmarshal body with
      | .error err => (.error ("failed to parse response: " ++ err), w')
      | .ok result => (.ok result, w')

/-- Go `api.APIError`. -/
structure APIError where
  StatusCode : Int
  Message : String
deriving DecidableEq, Repr

/-- Go `(*APIError).Error`. -/
def APIError.Error (e : APIError) : String :=
  "API error (status " ++ strconv.Itoa e.StatusCode ++ "): " ++ e.Message


/-- A search over two origins, two destinations and two programs. -/
def multiSearchParams : SearchParams :=
  { OriginAirports := ["SFO", "LAX"], DestinationAirports := ["NRT", "HND"],
    StartDate := "2024-06-01", EndDate := "2024-06-15", Cabin := "business",
    Sources := ["united", "aeroplan"], DirectOnly := false, Take := 0, Skip := 0, Cursor := 0 }

/-- A bulk availability request with only a program and a cabin. -/
def sparseAvailabilityParams : AvailabilityParams :=
  { Source := "aeroplan", Cabin := "J,F", OriginRegion := "", DestRegion := "",
    StartDate := "", EndDate := "", Take := 0, Skip := 0, Cursor := 0 }


/-- A search whose only origin is the empty text. -/
def blankOriginSearchParams : SearchParams :=
  { sampleSearchParams with OriginAirports := [""] }

/-- A transport library for examples: URLs are taken as they are, a raw query is a list of
`key=value` texts joined by `&`, and the server is not reached. -/
def sampleNet : Net Unit :=
  { NewRequest := fun method url => .ok { Method := method, URL := url, RawQuery := "", Header := [] }
    Query := fun _ => []
    Encode := fun v => "&".intercalate ((Values.pairs v).map (fun e => e.1 ++ "=" ++ e.2))
    Do := fun _ w => (.error "offline", w) }

end api

namespace unicode

/-- Go `unicode.IsSpace`: the characters with the Unicode White Space property. -/
def IsSpace (c : Char) : Bool :=
  let n := c.toNat
  (0x09 ≤ n && n ≤ 0x0D) || n == 0x20 || n == 0x85 || n == 0xA0 || n == 0x1680
    || (0x2000 ≤ n && n ≤ 0x200A) || n == 0x2028 || n == 0x2029 || n == 0x202F
    || n == 0x205F || n == 0x3000

/-- A run of one direction of Go `unicode.CaseRanges`: the code points `Lo`, `Lo + Step`, ...
up to `Hi` map to `To`, `To + Step`, ...; `Step` is 1, or 2 where the upper-case and the
lower-case letters of a script alternate. -/
structure CaseRange where
  Lo : Nat
  Hi : Nat
  Step : Nat
  To : Nat
deriving DecidableEq, Repr

/-- The code point is one of the run. -/
def CaseRange.covers (r : CaseRange) (n : Nat) : Bool :=
  decide (r.Lo ≤ n) && decide (n ≤ r.Hi) && ((n - r.Lo) % r.Step == 0)

/-- The image of a code point under one direction of the case tables (Go `unicode.To`): a
code point of no run maps to itself. -/
def caseMap (table : List CaseRange) (n : Nat) : Nat :=
  match table.find? (fun r => r.covers n) with
  | some r => r.To + (n - r.Lo)
  | none => n

/-- The upper-case mappings of Go `unicode.CaseRanges` outside ASCII: the simple upper-case
mappings of the Unicode Character Database, version 15.0.0. -/
def upperRanges : List CaseRange :=
  [ CaseRange.mk 0xB5 0xB5 1 0x39C, CaseRange.mk 0xE0 0xF6 1 0xC0, CaseRange.mk 0xF8 0xFE 1 0xD8,
    CaseRange.mk 0xFF 0xFF 1 0x178, CaseRange.mk 0x101 0x12F 2 0x100,
    CaseRange.mk 0x131 0x131 1 0x49, CaseRange.mk 0x133 0x137 2 0x132,
    CaseRange.mk 0x13A 0x148 2 0x139, CaseRange.mk 0x14B 0x177 2 0x14A,
    CaseRange.mk 0x17A 0x17E 2 0x179, CaseRange.mk 0x17F 0x17F 1 0x53,
    CaseRange.mk 0x180 0x180 1 0x243, CaseRange.mk 0x183 0x185 2 0x182,
    CaseRange.mk 0x188 0x188 1 0x187, CaseRange.mk 0x18C 0x18C 1 0x18B,
    CaseRange.mk 0x192 0x192 1 0x191, CaseRange.mk 0x195 0x195 1 0x1F6,
    CaseRange.mk 0x199 0x199 1 0x198, CaseRange.mk 0x19A 0x19A 1 0x23D,
    CaseRange.mk 0x19E 0x19E 1 0x220, CaseRange.mk 0x1A1 0x1A5 2 0x1A0,
    CaseRange.mk 0x1A8 0x1A8 1 0x1A7, CaseRange.mk 0x1AD 0x1AD 1 0x1AC,
    CaseRange.mk 0x1B0 0x1B0 1 0x1AF, CaseRange.mk 0x1B4 0x1B6 2 0x1B3,
    CaseRange.mk 0x1B9 0x1B9 1 0x1B8, CaseRange.mk 0x1BD 0x1BD 1 0x1BC,
    CaseRange.mk 0x1BF 0x1BF 1 0x1F7, CaseRange.mk 0x1C5 0x1C5 1 0x1C4,
    CaseRange.mk 0x1C6 0x1C6 1 0x1C4, CaseRange.mk 0x1C8 0x1C8 1 0x1C7,
    CaseRange.mk 0x1C9 0x1C9 1 0x1C7, CaseRange.mk 0x1CB 0x1CB 1 0x1CA,
    CaseRange.mk 0x1CC 0x1CC 1 0x1CA, CaseRange.mk 0x1CE 0x1DC 2 0x1CD,
    CaseRange.mk 0x1DD 0x1DD 1 0x18E, CaseRange.mk 0x1DF 0x1EF 2 0x1DE,
    CaseRange.mk 0x1F2 0x1F2 1 0x1F1, CaseRange.mk 0x1F3 0x1F3 1 0x1F1,
    CaseRange.mk 0x1F5 0x1F5 1 0x1F4, CaseRange.mk 0x1F9 0x21F 2 0x1F8,
    CaseRange.mk 0x223 0x233 2 0x222, CaseRange.mk 0x23C 0x23C 1 0x23B,
    CaseRange.mk 0x23F 0x240 1 0x2C7E, CaseRange.mk 0x242 0x242 1 0x241,
    CaseRange.mk 0x247 0x24F 2 0x246, CaseRange.mk 0x250 0x250 1 0x2C6F,
    CaseRange.mk 0x251 0x251 1 0x2C6D, CaseRange.mk 0x252 0x252 1 0x2C70,
    CaseRange.mk 0x253 0x253 1 0x181, CaseRange.mk 0x254 0x254 1 0x186,
    CaseRange.mk 0x256 0x257 1 0x189, CaseRange.mk 0x259 0x259 1 0x18F,
    CaseRange.mk 0x25B 0x25B 1 0x190, CaseRange.mk 0x25C 0x25C 1 0xA7AB,
    CaseRange.mk 0x260 0x260 1 0x193, CaseRange.mk 0x261 0x261 1 0xA7AC,
    CaseRange.mk 0x263 0x263 1 0x194, CaseRange.mk 0x265 0x265 1 0xA78D,
    CaseRange.mk 0x266 0x266 1 0xA7AA, CaseRange.mk 0x268 0x268 1 0x197,
    CaseRange.mk 0x269 0x269 1 0x196, CaseRange.mk 0x26A 0x26A 1 0xA7AE,
    CaseRange.mk 0x26B 0x26B 1 0x2C62, CaseRange.mk 0x26C 0x26C 1 0xA7AD,
    CaseRange.mk 0x26F 0x26F 1 0x19C, CaseRange.mk 0x271 0x271 1 0x2C6E,
    CaseRange.mk 0x272 0x272 1 0x19D, CaseRange.mk 0x275 0x275 1 0x19F,
    CaseRange.mk 0x27D 0x27D 1 0x2C64, CaseRange.mk 0x280 0x280 1 0x1A6,
    CaseRange.mk 0x282 0x282 1 0xA7C5, CaseRange.mk 0x283 0x283 1 0x1A9,
    CaseRange.mk 0x287 0x287 1 0xA7B1, CaseRange.mk 0x288 0x288 1 0x1AE,
    CaseRange.mk 0x289 0x289 1 0x244, CaseRange.mk 0x28A 0x28B 1 0x1B1,
    CaseRange.mk 0x28C 0x28C 1 0x245, CaseRange.mk 0x292 0x292 1 0x1B7,
    CaseRange.mk 0x29D 0x29D 1 0xA7B2, CaseRange.mk 0x29E 0x29E 1 0xA7B0,
    CaseRange.mk 0x345 0x345 1 0x399, CaseRange.mk 0x371 0x373 2 0x370,
    CaseRange.mk 0x377 0x377 1 0x376, CaseRange.mk 0x37B 0x37D 1 0x3FD,
    CaseRange.mk 0x3AC 0x3AC 1 0x386, CaseRange.mk 0x3AD 0x3AF 1 0x388,
    CaseRange.mk 0x3B1 0x3C1 1 0x391, CaseRange.mk 0x3C2 0x3C2 1 0x3A3,
    CaseRange.mk 0x3C3 0x3CB 1 0x3A3, CaseRange.mk 0x3CC 0x3CC 1 0x38C,
    CaseRange.mk 0x3CD 0x3CE 1 0x38E, CaseRange.mk 0x3D0 0x3D0 1 0x392,
    CaseRange.mk 0x3D1 0x3D1 1 0x398, CaseRange.mk 0x3D5 0x3D5 1 0x3A6,
    CaseRange.mk 0x3D6 0x3D6 1 0x3A0, CaseRange.mk 0x3D7 0x3D7 1 0x3CF,
    CaseRange.mk 0x3D9 0x3EF 2 0x3D8, CaseRange.mk 0x3F0 0x3F0 1 0x39A,
    CaseRange.mk 0x3F1 0x3F1 1 0x3A1, CaseRange.mk 0x3F2 0x3F2 1 0x3F9,
    CaseRange.mk 0x3F3 0x3F3 1 0x37F, CaseRange.mk 0x3F5 0x3F5 1 0x395,
    CaseRange.mk 0x3F8 0x3F8 1 0x3F7, CaseRange.mk 0x3FB 0x3FB 1 0x3FA,
    CaseRange.mk 0x430 0x44F 1 0x410, CaseRange.mk 0x450 0x45F 1 0x400,
    CaseRange.mk 0x461 0x481 2 0x460, CaseRange.mk 0x48B 0x4BF 2 0x48A,
    CaseRange.mk 0x4C2 0x4CE 2 0x4C1, CaseRange.mk 0x4CF 0x4CF 1 0x4C0,
    CaseRange.mk 0x4D1 0x52F 2 0x4D0, CaseRange.mk 0x561 0x586 1 0x531,
    CaseRange.mk 0x10D0 0x10FA 1 0x1C90, CaseRange.mk 0x10FD 0x10FF 1 0x1CBD,
    CaseRange.mk 0x13F8 0x13FD 1 0x13F0, CaseRange.mk 0x1C80 0x1C80 1 0x412,
    CaseRange.mk 0x1C81 0x1C81 1 0x414, CaseRange.mk 0x1C82 0x1C82 1 0x41E,
    CaseRange.mk 0x1C83 0x1C84 1 0x421, CaseRange.mk 0x1C85 0x1C85 1 0x422,
    CaseRange.mk 0x1C86 0x1C86 1 0x42A, CaseRange.mk 0x1C87 0x1C87 1 0x462,
    CaseRange.mk 0x1C88 0x1C88 1 0xA64A, CaseRange.mk 0x1D79 0x1D79 1 0xA77D,
    CaseRange.mk 0x1D7D 0x1D7D 1 0x2C63, CaseRange.mk 0x1D8E 0x1D8E 1 0xA7C6,
    CaseRange.mk 0x1E01 0x1E95 2 0x1E00, CaseRange.mk 0x1E9B 0x1E9B 1 0x1E60,
    CaseRange.mk 0x1EA1 0x1EFF 2 0x1EA0, CaseRange.mk 0x1F00 0x1F07 1 0x1F08,
    CaseRange.mk 0x1F10 0x1F15 1 0x1F18, CaseRange.mk 0x1F20 0x1F27 1 0x1F28,
    CaseRange.mk 0x1F30 0x1F37 1 0x1F38, CaseRange.mk 0x1F40 0x1F45 1 0x1F48,
    CaseRange.mk 0x1F51 0x1F57 2 0x1F59, CaseRange.mk 0x1F60 0x1F67 1 0x1F68,
    CaseRange.mk 0x1F70 0x1F71 1 0x1FBA, CaseRange.mk 0x1F72 0x1F75 1 0x1FC8,
    CaseRange.mk 0x1F76 0x1F77 1 0x1FDA, CaseRange.mk 0x1F78 0x1F79 1 0x1FF8,
    CaseRange.mk 0x1F7A 0x1F7B 1 0x1FEA, CaseRange.mk 0x1F7C 0x1F7D 1 0x1FFA,
    CaseRange.mk 0x1F80 0x1F87 1 0x1F88, CaseRange.mk 0x1F90 0x1F97 1 0x1F98,
    CaseRange.mk 0x1FA0 0x1FA7 1 0x1FA8, CaseRange.mk 0x1FB0 0x1FB1 1 0x1FB8,
    CaseRange.mk 0x1FB3 0x1FB3 1 0x1FBC, CaseRange.mk 0x1FBE 0x1FBE 1 0x399,
    CaseRange.mk 0x1FC3 0x1FC3 1 0x1FCC, CaseRange.mk 0x1FD0 0x1FD1 1 0x1FD8,
    CaseRange.mk 0x1FE0 0x1FE1 1 0x1FE8, CaseRange.mk 0x1FE5 0x1FE5 1 0x1FEC,
    CaseRange.mk 0x1FF3 0x1FF3 1 0x1FFC, CaseRange.mk 0x214E 0x214E 1 0x2132,
    CaseRange.mk 0x2170 0x217F 1 0x2160, CaseRange.mk 0x2184 0x2184 1 0x2183,
    CaseRange.mk 0x24D0 0x24E9 1 0x24B6, CaseRange.mk 0x2C30 0x2C5F 1 0x2C00,
    CaseRange.mk 0x2C61 0x2C61 1 0x2C60, CaseRange.mk 0x2C65 0x2C65 1 0x23A,
    CaseRange.mk 0x2C66 0x2C66 1 0x23E, CaseRange.mk 0x2C68 0x2C6C 2 0x2C67,
    CaseRange.mk 0x2C73 0x2C73 1 0x2C72, CaseRange.mk 0x2C76 0x2C76 1 0x2C75,
    CaseRange.mk 0x2C81 0x2CE3 2 0x2C80, CaseRange.mk 0x2CEC 0x2CEE 2 0x2CEB,
    CaseRange.mk 0x2CF3 0x2CF3 1 0x2CF2, CaseRange.mk 0x2D00 0x2D25 1 0x10A0,
    CaseRange.mk 0x2D27 0x2D27 1 0x10C7, CaseRange.mk 0x2D2D 0x2D2D 1 0x10CD,
    CaseRange.mk 0xA641 0xA66D 2 0xA640, CaseRange.mk 0xA681 0xA69B 2 0xA680,
    CaseRange.mk 0xA723 0xA72F 2 0xA722, CaseRange.mk 0xA733 0xA76F 2 0xA732,
    CaseRange.mk 0xA77A 0xA77C 2 0xA779, CaseRange.mk 0xA77F 0xA787 2 0xA77E,
    CaseRange.mk 0xA78C 0xA78C 1 0xA78B, CaseRange.mk 0xA791 0xA793 2 0xA790,
    CaseRange.mk 0xA794 0xA794 1 0xA7C4, CaseRange.mk 0xA797 0xA7A9 2 0xA796,
    CaseRange.mk 0xA7B5 0xA7C3 2 0xA7B4, CaseRange.mk 0xA7C8 0xA7CA 2 0xA7C7,
    CaseRange.mk 0xA7D1 0xA7D1 1 0xA7D0, CaseRange.mk 0xA7D7 0xA7D9 2 0xA7D6,
    CaseRange.mk 0xA7F6 0xA7F6 1 0xA7F5, CaseRange.mk 0xAB53 0xAB53 1 0xA7B3,
    CaseRange.mk 0xAB70 0xABBF 1 0x13A0, CaseRange.mk 0xFF41 0xFF5A 1 0xFF21,
    CaseRange.mk 0x10428 0x1044F 1 0x10400, CaseRange.mk 0x104D8 0x104FB 1 0x104B0,
    CaseRange.mk 0x10597 0x105BB 2 0x10570, CaseRange.mk 0x10598 0x105A0 2 0x10571,
    CaseRange.mk 0x105A4 0x105B0 2 0x1057D, CaseRange.mk 0x105B4 0x105B8 2 0x1058D,
    CaseRange.mk 0x105BC 0x105BC 1 0x10595, CaseRange.mk 0x10CC0 0x10CF2 1 0x10C80,
    CaseRange.mk 0x118C0 0x118DF 1 0x118A0, CaseRange.mk 0x16E60 0x16E7F 1 0x16E40,
    CaseRange.mk 0x1E922 0x1E943 1 0x1E900 ]

/-- The lower-case mappings of Go `unicode.CaseRanges` outside ASCII: the simple lower-case
mappings of the Unicode Character Database, version 15.0.0. -/
def lowerRanges : List CaseRange :=
  [ CaseRange.mk 0xC0 0xD6 1 0xE0, CaseRange.mk 0xD8 0xDE 1 0xF8,
    CaseRange.mk 0x100 0x12E 2 0x101, CaseRange.mk 0x130 0x130 1 0x69,
    CaseRange.mk 0x132 0x136 2 0x133, CaseRange.mk 0x139 0x147 2 0x13A,
    CaseRange.mk 0x14A 0x176 2 0x14B, CaseRange.mk 0x178 0x178 1 0xFF,
    CaseRange.mk 0x179 0x17D 2 0x17A, CaseRange.mk 0x181 0x181 1 0x253,
    CaseRange.mk 0x182 0x184 2 0x183, CaseRange.mk 0x186 0x186 1 0x254,
    CaseRange.mk 0x187 0x187 1 0x188, CaseRange.mk 0x189 0x18A 1 0x256,
    CaseRange.mk 0x18B 0x18B 1 0x18C, CaseRange.mk 0x18E 0x18E 1 0x1DD,
    CaseRange.mk 0x18F 0x18F 1 0x259, CaseRange.mk 0x190 0x190 1 0x25B,
    CaseRange.mk 0x191 0x191 1 0x192, CaseRange.mk 0x193 0x193 1 0x260,
    CaseRange.mk 0x194 0x194 1 0x263, CaseRange.mk 0x196 0x196 1 0x269,
    CaseRange.mk 0x197 0x197 1 0x268, CaseRange.mk 0x198 0x198 1 0x199,
    CaseRange.mk 0x19C 0x19C 1 0x26F, CaseRange.mk 0x19D 0x19D 1 0x272,
    CaseRange.mk 0x19F 0x19F 1 0x275, CaseRange.mk 0x1A0 0x1A4 2 0x1A1,
    CaseRange.mk 0x1A6 0x1A6 1 0x280, CaseRange.mk 0x1A7 0x1A7 1 0x1A8,
    CaseRange.mk 0x1A9 0x1A9 1 0x283, CaseRange.mk 0x1AC 0x1AC 1 0x1AD,
    CaseRange.mk 0x1AE 0x1AE 1 0x288, CaseRange.mk 0x1AF 0x1AF 1 0x1B0,
    CaseRange.mk 0x1B1 0x1B2 1 0x28A, CaseRange.mk 0x1B3 0x1B5 2 0x1B4,
    CaseRange.mk 0x1B7 0x1B7 1 0x292, CaseRange.mk 0x1B8 0x1B8 1 0x1B9,
    CaseRange.mk 0x1BC 0x1BC 1 0x1BD, CaseRange.mk 0x1C4 0x1C4 1 0x1C6,
    CaseRange.mk 0x1C5 0x1C5 1 0x1C6, CaseRange.mk 0x1C7 0x1C7 1 0x1C9,
    CaseRange.mk 0x1C8 0x1C8 1 0x1C9, CaseRange.mk 0x1CA 0x1CA 1 0x1CC,
    CaseRange.mk 0x1CB 0x1DB 2 0x1CC, CaseRange.mk 0x1DE 0x1EE 2 0x1DF,
    CaseRange.mk 0x1F1 0x1F1 1 0x1F3, CaseRange.mk 0x1F2 0x1F4 2 0x1F3,
    CaseRange.mk 0x1F6 0x1F6 1 0x195, CaseRange.mk 0x1F7 0x1F7 1 0x1BF,
    CaseRange.mk 0x1F8 0x21E 2 0x1F9, CaseRange.mk 0x220 0x220 1 0x19E,
    CaseRange.mk 0x222 0x232 2 0x223, CaseRange.mk 0x23A 0x23A 1 0x2C65,
    CaseRange.mk 0x23B 0x23B 1 0x23C, CaseRange.mk 0x23D 0x23D 1 0x19A,
    CaseRange.mk 0x23E 0x23E 1 0x2C66, CaseRange.mk 0x241 0x241 1 0x242,
    CaseRange.mk 0x243 0x243 1 0x180, CaseRange.mk 0x244 0x244 1 0x289,
    CaseRange.mk 0x245 0x245 1 0x28C, CaseRange.mk 0x246 0x24E 2 0x247,
    CaseRange.mk 0x370 0x372 2 0x371, CaseRange.mk 0x376 0x376 1 0x377,
    CaseRange.mk 0x37F 0x37F 1 0x3F3, CaseRange.mk 0x386 0x386 1 0x3AC,
    CaseRange.mk 0x388 0x38A 1 0x3AD, CaseRange.mk 0x38C 0x38C 1 0x3CC,
    CaseRange.mk 0x38E 0x38F 1 0x3CD, CaseRange.mk 0x391 0x3A1 1 0x3B1,
    CaseRange.mk 0x3A3 0x3AB 1 0x3C3, CaseRange.mk 0x3CF 0x3CF 1 0x3D7,
    CaseRange.mk 0x3D8 0x3EE 2 0x3D9, CaseRange.mk 0x3F4 0x3F4 1 0x3B8,
    CaseRange.mk 0x3F7 0x3F7 1 0x3F8, CaseRange.mk 0x3F9 0x3F9 1 0x3F2,
    CaseRange.mk 0x3FA 0x3FA 1 0x3FB, CaseRange.mk 0x3FD 0x3FF 1 0x37B,
    CaseRange.mk 0x400 0x40F 1 0x450, CaseRange.mk 0x410 0x42F 1 0x430,
    CaseRange.mk 0x460 0x480 2 0x461, CaseRange.mk 0x48A 0x4BE 2 0x48B,
    CaseRange.mk 0x4C0 0x4C0 1 0x4CF, CaseRange.mk 0x4C1 0x4CD 2 0x4C2,
    CaseRange.mk 0x4D0 0x52E 2 0x4D1, CaseRange.mk 0x531 0x556 1 0x561,
    CaseRange.mk 0x10A0 0x10C5 1 0x2D00, CaseRange.mk 0x10C7 0x10C7 1 0x2D27,
    CaseRange.mk 0x10CD 0x10CD 1 0x2D2D, CaseRange.mk 0x13A0 0x13EF 1 0xAB70,
    CaseRange.mk 0x13F0 0x13F5 1 0x13F8, CaseRange.mk 0x1C90 0x1CBA 1 0x10D0,
    CaseRange.mk 0x1CBD 0x1CBF 1 0x10FD, CaseRange.mk 0x1E00 0x1E94 2 0x1E01,
    CaseRange.mk 0x1E9E 0x1E9E 1 0xDF, CaseRange.mk 0x1EA0 0x1EFE 2 0x1EA1,
    CaseRange.mk 0x1F08 0x1F0F 1 0x1F00, CaseRange.mk 0x1F18 0x1F1D 1 0x1F10,
    CaseRange.mk 0x1F28 0x1F2F 1 0x1F20, CaseRange.mk 0x1F38 0x1F3F 1 0x1F30,
    CaseRange.mk 0x1F48 0x1F4D 1 0x1F40, CaseRange.mk 0x1F59 0x1F5F 2 0x1F51,
    CaseRange.mk 0x1F68 0x1F6F 1 0x1F60, CaseRange.mk 0x1F88 0x1F8F 1 0x1F80,
    CaseRange.mk 0x1F98 0x1F9F 1 0x1F90, CaseRange.mk 0x1FA8 0x1FAF 1 0x1FA0,
    CaseRange.mk 0x1FB8 0x1FB9 1 0x1FB0, CaseRange.mk 0x1FBA 0x1FBB 1 0x1F70,
    CaseRange.mk 0x1FBC 0x1FBC 1 0x1FB3, CaseRange.mk 0x1FC8 0x1FCB 1 0x1F72,
    CaseRange.mk 0x1FCC 0x1FCC 1 0x1FC3, CaseRange.mk 0x1FD8 0x1FD9 1 0x1FD0,
    CaseRange.mk 0x1FDA 0x1FDB 1 0x1F76, CaseRange.mk 0x1FE8 0x1FE9 1 0x1FE0,
    CaseRange.mk 0x1FEA 0x1FEB 1 0x1F7A, CaseRange.mk 0x1FEC 0x1FEC 1 0x1FE5,
    CaseRange.mk 0x1FF8 0x1FF9 1 0x1F78, CaseRange.mk 0x1FFA 0x1FFB 1 0x1F7C,
    CaseRange.mk 0x1FFC 0x1FFC 1 0x1FF3, CaseRange.mk 0x2126 0x2126 1 0x3C9,
    CaseRange.mk 0x212A 0x212A 1 0x6B, CaseRange.mk 0x212B 0x212B 1 0xE5,
    CaseRange.mk 0x2132 0x2132 1 0x214E, CaseRange.mk 0x2160 0x216F 1 0x2170,
    CaseRange.mk 0x2183 0x2183 1 0x2184, CaseRange.mk 0x24B6 0x24CF 1 0x24D0,
    CaseRange.mk 0x2C00 0x2C2F 1 0x2C30, CaseRange.mk 0x2C60 0x2C60 1 0x2C61,
    CaseRange.mk 0x2C62 0x2C62 1 0x26B, CaseRange.mk 0x2C63 0x2C63 1 0x1D7D,
    CaseRange.mk 0x2C64 0x2C64 1 0x27D, CaseRange.mk 0x2C67 0x2C6B 2 0x2C68,
    CaseRange.mk 0x2C6D 0x2C6D 1 0x251, CaseRange.mk 0x2C6E 0x2C6E 1 0x271,
    CaseRange.mk 0x2C6F 0x2C6F 1 0x250, CaseRange.mk 0x2C70 0x2C70 1 0x252,
    CaseRange.mk 0x2C72 0x2C72 1 0x2C73, CaseRange.mk 0x2C75 0x2C75 1 0x2C76,
    CaseRange.mk 0x2C7E 0x2C7F 1 0x23F, CaseRange.mk 0x2C80 0x2CE2 2 0x2C81,
    CaseRange.mk 0x2CEB 0x2CED 2 0x2CEC, CaseRange.mk 0x2CF2 0x2CF2 1 0x2CF3,
    CaseRange.mk 0xA640 0xA66C 2 0xA641, CaseRange.mk 0xA680 0xA69A 2 0xA681,
    CaseRange.mk 0xA722 0xA72E 2 0xA723, CaseRange.mk 0xA732 0xA76E 2 0xA733,
    CaseRange.mk 0xA779 0xA77B 2 0xA77A, CaseRange.mk 0xA77D 0xA77D 1 0x1D79,
    CaseRange.mk 0xA77E 0xA786 2 0xA77F, CaseRange.mk 0xA78B 0xA78B 1 0xA78C,
    CaseRange.mk 0xA78D 0xA78D 1 0x265, CaseRange.mk 0xA790 0xA792 2 0xA791,
    CaseRange.mk 0xA796 0xA7A8 2 0xA797, CaseRange.mk 0xA7AA 0xA7AA 1 0x266,
    CaseRange.mk 0xA7AB 0xA7AB 1 0x25C, CaseRange.mk 0xA7AC 0xA7AC 1 0x261,
    CaseRange.mk 0xA7AD 0xA7AD 1 0x26C, CaseRange.mk 0xA7AE 0xA7AE 1 0x26A,
    CaseRange.mk 0xA7B0 0xA7B0 1 0x29E, CaseRange.mk 0xA7B1 0xA7B1 1 0x287,
    CaseRange.mk 0xA7B2 0xA7B2 1 0x29D, CaseRange.mk 0xA7B3 0xA7B3 1 0xAB53,
    CaseRange.mk 0xA7B4 0xA7C2 2 0xA7B5, CaseRange.mk 0xA7C4 0xA7C4 1 0xA794,
    CaseRange.mk 0xA7C5 0xA7C5 1 0x282, CaseRange.mk 0xA7C6 0xA7C6 1 0x1D8E,
    CaseRange.mk 0xA7C7 0xA7C9 2 0xA7C8, CaseRange.mk 0xA7D0 0xA7D0 1 0xA7D1,
    CaseRange.mk 0xA7D6 0xA7D8 2 0xA7D7, CaseRange.mk 0xA7F5 0xA7F5 1 0xA7F6,
    CaseRange.mk 0xFF21 0xFF3A 1 0xFF41, CaseRange.mk 0x10400 0x10427 1 0x10428,
    CaseRange.mk 0x104B0 0x104D3 1 0x104D8, CaseRange.mk 0x10570 0x10594 2 0x10597,
    CaseRange.mk 0x10571 0x10579 2 0x10598, CaseRange.mk 0x1057D 0x10589 2 0x105A4,
    CaseRange.mk 0x1058D 0x10591 2 0x105B4, CaseRange.mk 0x10595 0x10595 1 0x105BC,
    CaseRange.mk 0x10C80 0x10CB2 1 0x10CC0, CaseRange.mk 0x118A0 0x118BF 1 0x118C0,
    CaseRange.mk 0x16E40 0x16E5F 1 0x16E60, CaseRange.mk 0x1E900 0x1E921 1 0x1E922 ]

/-- Go `unicode.ToUpper` on a code point: the letters a-z directly, the case tables outside
ASCII. -/
def upperRune (n : Nat) : Nat :=
  if n < 0x80 then (if 0x61 ≤ n ∧ n ≤ 0x7A then n - 0x20 else n)
  else caseMap upperRanges n

/-- Go `unicode.ToLower` on a code point: the letters A-Z directly, the case tables outside
ASCII. -/
def lowerRune (n : Nat) : Nat :=
  if n < 0x80 then (if 0x41 ≤ n ∧ n ≤ 0x5A then n + 0x20 else n)
  else caseMap lowerRanges n

/-- Go `unicode.ToUpper`. -/
def ToUpper (c : Char) : Char :=
  Char.ofNat (upperRune c.toNat)

/-- Go `unicode.ToLower`. -/
def ToLower (c : Char) : Char :=
  Char.ofNat (lowerRune c.toNat)

/-- Neither the code points of the run nor their images lie between `a` and `b`. -/
def CaseRange.misses (r : CaseRange) (a b : Nat) : Bool :=
  (decide (r.To + (r.Hi - r.Lo) < a) || decide (b < r.To))
    && (decide (r.Hi < a) || decide (b < r.Lo))

/-- No image of the first run is a code point of the second: the images end before the second
run starts, or start after it ends, or fall between its code points. -/
def CaseRange.noHit (r r' : CaseRange) : Bool :=
  decide (r.To + (r.Hi - r.Lo) < r'.Lo) || decide (r'.Hi < r.To)
    || (r'.Step == 2 && (r.Step == 2 || r.Lo == r.Hi) && (r.To + r'.Lo) % 2 == 1)

/-- A run lies outside ASCII, its images are code points of characters, and neither the run
nor its images meet white space or the comma. -/
def CaseRange.wellFormed (r : CaseRange) : Bool :=
  decide (0 < r.Step) && decide (0x80 ≤ r.Lo) && decide (r.Lo ≤ r.Hi)
    && (decide (r.To + (r.Hi - r.Lo) < 0xD800)
      || (decide (0xDFFF < r.To) && decide (r.To + (r.Hi - r.Lo) < 0x110000)))
    && r.misses 0x09 0x0D && r.misses 0x20 0x20 && r.misses 0x2C 0x2C && r.misses 0x85 0x85
    && r.misses 0xA0 0xA0 && r.misses 0x1680 0x1680 && r.misses 0x2000 0x200A
    && r.misses 0x2028 0x2029 && r.misses 0x202F 0x202F && r.misses 0x205F 0x205F
    && r.misses 0x3000 0x3000

end unicode

namespace strings

/-- Go `strings.ToUpper`. -/
def ToUpper (s : String) : String :=
  String.mk (s.data.map unicode.ToUpper)

/-- Go `strings.ToLower`. -/
def ToLower (s : String) : String :=
  String.mk (s.data.map unicode.ToLower)

/-- Go `strings.TrimSpace`: the text without its leading and trailing white space. -/
def TrimSpace (s : String) : String :=
  String.mk ((s.data.dropWhile unicode.IsSpace).reverse.dropWhile unicode.IsSpace).reverse

/-- The pieces of a text between the occurrences of a separator character. -/
def Split.pieces (sep : Char) : List Char → List (List Char)
  | [] => [[]]
  | c :: cs =>
    if c = sep then [] :: Split.pieces sep cs
    else
      match Split.pieces sep cs with
      | [] => [[c]]
      | piece :: rest => (c :: piece) :: rest

/-- Go `strings.Split(s, sep)` for a separator of one character. -/
def Split (s : String) (sep : Char) : List String :=
  (Split.pieces sep s.data).map String.mk

end strings

namespace config

/-- Go `config.Config`. -/
structure Config where
  APIKey : String
  DefaultSources : List String
  DefaultCabins : List String
  PreferredAirports : List String
deriving DecidableEq, Repr

/-- The process environment as `os.Getenv` reads it: an unset variable reads as the empty
text. -/
abbrev Environ := String → String

/-- Go `(*Config).GetAPIKey`. -/
def Config.GetAPIKey (c : Config) (getenv : Environ) : String :=
  let envKey := getenv "SEATS_AERO_API_KEY"
  if envKey != "" then envKey else c.APIKey

/-- Go `(*Config).Validate`. -/
def Config.Validate (c : Config) (getenv : Environ) : Option Error :=
  if c.GetAPIKey getenv == "" then
    some ("API key not configured. Set SEATS_AERO_API_KEY environment variable or add "
      ++ "api_key to config file")
  else
    none

end config

namespace cli

open api config

/-- Where a command sends its records: `export.ToJSON`, `export.ToCSV` or the table printer. -/
inductive Format where
  | json
  | csv
  | table
deriving DecidableEq, Repr

/-- The last step of a command: the records it hands to the writer of the chosen format (whose
own error, if any, the command returns). -/
structure Rendered (α : Type) where
  format : Format
  data : List α
deriving DecidableEq, Repr

/-- The `switch strings.ToLower(output)` at the end of each command. -/
def render {α : Type} (output : String) (data : List α) : Rendered α :=
  match strings.ToLower output with
  | "json" => { format := .json, data := data }
  | "csv" => { format := .csv, data := data }
  | _ => { format := .table, data := data }

/-- Go `parseCSV` (cli/search.go). -/
def parseCSV (s : String) : List String :=
  if s == "" then []
  else
    let parts := strings.Split s ','
    (parts.map (fun p => strings.TrimSpace (strings.ToUpper p))).filter (fun p => p != "")

/-- Go `cabinCodeToName` (cli/search.go). -/
def cabinCodeToName (code : String) : String :=
  let code := strings.TrimSpace code
  if code == "" then ""
  else
    match strings.ToUpper code with
    | "Y" | "ECONOMY" => "economy"
    | "W" | "PREMIUM" => "premium"
    | "J" | "BUSINESS" => "business"
    | "F" | "FIRST" => "first"
    | _ => strings.ToLower code

/-- The flags of the search command (the package variables `searchFrom`, ...). -/
structure SearchFlags where
  searchFrom : String
  searchTo : String
  searchStartDate : String
  searchEndDate : String
  searchCabin : String
  searchSource : String
  searchDirect : Bool
  searchOutput : String
deriving DecidableEq, Repr

/-- The flags of the availability command. -/
structure AvailabilityFlags where
  availSource : String
  availCabin : String
  availOriginRegion : String
  availDestRegion : String
  availStartDate : String
  availEndDate : String
  availOutput : String
deriving DecidableEq, Repr

/-- The flags of the routes command. -/
structure RoutesFlags where
  routesSource : String
  routesOrigin : String
  routesOutput : String
deriving DecidableEq, Repr

/-- The parameter record `runSearch` builds from its flags (cli/search.go, lines 66-74). -/
def runSearch.params (flags : SearchFlags) : SearchParams :=
  { OriginAirports := parseCSV flags.searchFrom
    DestinationAirports := parseCSV flags.searchTo
    StartDate := flags.searchStartDate
    EndDate := flags.searchEndDate
    Cabin := cabinCodeToName (strings.ToUpper flags.searchCabin)
    Sources := parseCSV flags.searchSource
    DirectOnly := flags.searchDirect
    Take := 0
    Skip := 0
    Cursor := 0 }

/-- Go `runSearch`; `cfg` is what `GetConfig()` returns (nil when no configuration was loaded)
and `get` is the `c.get` of the client made for the API key. -/
def runSearch {σ : Type} (get : Client → Getter σ SearchResponse) (getenv : Environ)
    (cfg : Option Config) (flags : SearchFlags) (w : σ) :
    Except Error (Rendered Availability) × σ :=
  match cfg with
  | none => (.error "configuration not loaded", w)
  | some cfg =>
    match cfg.Validate getenv with
    | some err => (.error err, w)
    | none =>
      let client := NewClient (cfg.GetAPIKey getenv)
      let params := runSearch.params flags
      match Search (get client) params w with
      | (.error err, w') => (.error ("search failed: " ++ err), w')
      | (.ok resp, w') => (.ok (render flags.searchOutput resp.Data), w')

/-- The parameter record `runAvailability` builds from its flags (cli/availability.go,
lines 64-71). -/
def runAvailability.params (flags : AvailabilityFlags) : AvailabilityParams :=
  { Source := strings.ToLower flags.availSource
    Cabin := strings.ToUpper flags.availCabin
    OriginRegion := flags.availOriginRegion
    DestRegion := flags.availDestRegion
    StartDate := flags.availStartDate
    EndDate := flags.availEndDate
    Take := 0
    Skip := 0
    Cursor := 0 }

/-- Go `runAvailability`. -/
def runAvailability {σ : Type} (get : Client → Getter σ AvailabilityResponse) (getenv : Environ)
    (cfg : Option Config) (flags : AvailabilityFlags) (w : σ) :
    Except Error (Rendered Availability) × σ :=
  match cfg with
  | none => (.error "configuration not loaded", w)
  | some cfg =>
    match cfg.Validate getenv with
    | some err => (.error err, w)
    | none =>
      let client := NewClient (cfg.GetAPIKey getenv)
      let params := runAvailability.params flags
      match GetAvailability (get client) params w with
      | (.error err, w') => (.error ("get availability failed: " ++ err), w')
      | (.ok resp, w') => (.ok (render flags.availOutput resp.Data), w')

/-- Go `runRoutes`. -/
def runRoutes {σ : Type} (get : Client → Getter σ RoutesResponse) (getenv : Environ)
    (cfg : Option Config) (flags : RoutesFlags) (w : σ) :
    Except Error (Rendered Route) × σ :=
  match cfg with
  | none => (.error "configuration not loaded", w)
  | some cfg =>
    match cfg.Validate getenv with
    | some err => (.error err, w)
    | none =>
      let client := NewClient (cfg.GetAPIKey getenv)
      let params : RoutesParams :=
        { Source := strings.ToLower flags.routesSource
          Origin := strings.ToUpper flags.routesOrigin }
      match GetRoutes (get client) params w with
      | (.error err, w') => (.error ("get routes failed: " ++ err), w')
      | (.ok resp, w') => (.ok (render flags.routesOutput resp.Data), w')

/-- Go `runTrips`; `availabilityID` is `args[0]` and `tripsOutput` the output flag. -/
def runTrips {σ : Type} (get : Client → Getter σ TripsResponse) (getenv : Environ)
    (cfg : Option Config) (availabilityID : String) (tripsOutput : String) (w : σ) :
    Except Error (Rendered Trip) × σ :=
  match cfg with
  | none => (.error "configuration not loaded", w)
  | some cfg =>
    match cfg.Validate getenv with
    | some err => (.error err, w)
    | none =>
      let client := NewClient (cfg.GetAPIKey getenv)
      match GetTrips (get client) availabilityID w with
      | (.error err, w') => (.error ("get trips failed: " ++ err), w')
      | (.ok resp, w') => (.ok (render tripsOutput resp.Data), w')

end cli

namespace api

/-- A transport that answers the n-th request with the n-th outcome of the script. -/
def scriptedGet {R : Type} : Getter (Script R) R :=
  fun _ _ pages => (pages 0, pages.tail)

/-- A transport whose every request fails with the given text. -/
def failingGet {R : Type} (err : Error) : Getter Unit R :=
  fun _ _ w => (.error err, w)

end api

namespace cli

open api config

/-- A configuration with an API key. -/
def sampleConfig : Config :=
  { APIKey := "pro_test_key", DefaultSources := [], DefaultCabins := ["J", "F"],
    PreferredAirports := [] }

/-- An environment without variables. -/
def emptyEnviron : Environ :=
  fun _ => ""

/-- The flags of `seats search --from SFO --to NRT --cabin J`. -/
def sampleSearchFlags : SearchFlags :=
  { searchFrom := "SFO", searchTo := "NRT", searchStartDate := "", searchEndDate := "",
    searchCabin := "J", searchSource := "", searchDirect := false, searchOutput := "table" }

/-- The flags of `seats availability --source aeroplan --output csv`. -/
def sampleAvailabilityFlags : AvailabilityFlags :=
  { availSource := "aeroplan", availCabin := "", availOriginRegion := "",
    availDestRegion := "", availStartDate := "", availEndDate := "", availOutput := "csv" }

/-- The flags of `seats routes --source united`. -/
def sampleRoutesFlags : RoutesFlags :=
  { routesSource := "united", routesOrigin := "", routesOutput := "table" }

end cli

namespace api

/-- A transport library whose server answers every request with the given status and body. -/
def answeringNet (status : Int) (body : String) : Net Unit :=
  { sampleNet with Do := fun _ w => (.ok { StatusCode := status, Body := .ok body }, w) }

/-- A decoder that accepts no body. -/
def rejectAll {R : Type} : String → Except Error R :=
  fun _ => .error "unexpected end of JSON input"


/-- A server whose first page, of three records, is the last one. -/
def onePageSearch : Script SearchResponse :=
  fun _ => .ok (searchPage (sampleRecords 0 3) false 0)

end api

/-- The zero value of Go `time.Time`: January 1, year 1, 00:00 UTC. -/
def Time.zero : Time :=
  ⟨-62135596800000000000, 0⟩

/-- The clock reading of a time in its own zone, in nanoseconds since the Unix epoch: the
instant shifted by the offset. -/
def Time.wall (t : Time) : Int :=
  t.unixNano + t.offset * 1000000000

/-- The zone of a time as Go writes it in RFC 3339, in minutes east of UTC: the offset in
seconds divided by 60, rounding toward zero (`zone := offset / 60`). -/
def Time.zoneMinutes (t : Time) : Int :=
  Int.tdiv t.offset 60

/-- The time that the RFC 3339 text Go writes for a time denotes: the text holds the clock
reading in the time's own zone and the zone in hours and minutes, so a reader gets the zone
without its seconds and takes the clock reading in that zone. -/
def Time.rfc3339 (t : Time) : Time :=
  { unixNano := t.wall - t.zoneMinutes * 60 * 1000000000, offset := t.zoneMinutes * 60 }

namespace json

/-! ## encoding/json

A JSON document is represented by its value; the text form (white space, indentation, escapes)
is not modelled, and numbers are integers. A string that holds an RFC 3339 timestamp, which is
how Go writes a `time.Time`, is represented by the time it denotes (`Value.time`); any other
string is a `Value.string`. -/

/-- A JSON value. -/
inductive Value where
  | null
  | bool (b : Bool)
  | number (n : Int)
  | string (s : String)
  | time (t : Time)
  | array (items : List Value)
  | object (fields : List (String × Value))

/-- Simple case folding, on the characters that fold to an ASCII character: a letter in either
case, the Kelvin sign (U+212A) for k and long s (U+017F) for s. -/
def foldRune (c : Char) : Char :=
  if c.toNat = 0x212A then 'K'
  else if c.toNat = 0x17F then 'S'
  else c.toUpper

/-- The match of an object key against the JSON name of a struct field, for the ASCII names of
this repository: equal after case folding (Go `foldName`). An exact match is such a match, and
no two names of one struct fold to the same text, so a key selects at most one field. -/
def equalFold (key name : String) : Bool :=
  key.data.map foldRune == name.data.map foldRune

/-- Decoding a value into a Go `string` field that holds `old`: `null` leaves it. -/
def decodeString (old : String) : Value → Except Error String
  | .null => .ok old
  | .string s => .ok s
  | _ => .error "json: cannot unmarshal value into Go value of type string"

/-- Decoding a value into a Go `int` field that holds `old`. -/
def decodeInt (old : Int) : Value → Except Error Int
  | .null => .ok old
  | .number n =>
    if -9223372036854775808 ≤ n ∧ n ≤ 9223372036854775807 then .ok n
    else .error "json: cannot unmarshal number into Go value of type int"
  | _ => .error "json: cannot unmarshal value into Go value of type int"

/-- Decoding a value into a Go `bool` field that holds `old`. -/
def decodeBool (old : Bool) : Value → Except Error Bool
  | .null => .ok old
  | .bool b => .ok b
  | _ => .error "json: cannot unmarshal value into Go value of type bool"

/-- Decoding a value into a Go `time.Time` field that holds `old` (`Time.UnmarshalJSON`). -/
def decodeTime (old : Time) : Value → Except Error Time
  | .null => .ok old
  | .time t => .ok t
  | _ => .error "parsing time: cannot parse value as an RFC 3339 timestamp"

/-- Go `Time.MarshalJSON` (Go 1.20 and later): it fails when the year of the time, in the
time's own zone, is outside 0..9999, and when the zone is 24 hours or more from UTC; otherwise
it writes the RFC 3339 text. -/
def marshalTime (t : Time) : Except Error Value :=
  if ¬ (-62167219200000000000 ≤ t.wall ∧ t.wall < 253402300800000000000) then
    .error "Time.MarshalJSON: year outside of range [0,9999]"
  else if 24 ≤ t.zoneMinutes.natAbs / 60 then
    .error "Time.MarshalJSON: timezone hour outside of range [0,23]"
  else
    .ok (.time t.rfc3339)

/-- The error `encoding/json` returns when the `MarshalJSON` of a `time.Time` fails. -/
def marshalerError (err : Error) : Error :=
  "json: error calling MarshalJSON for type time.Time: " ++ err

end json

namespace api

open json

/-- The JSON object `encoding/json` writes for a `Route`, by its field tags. -/
def Route.toJSON (r : Route) : Value :=
  .object [
    ("ID", .string r.ID),
    ("OriginAirport", .string r.OriginAirport),
    ("DestinationAirport", .string r.DestinationAirport),
    ("NumDaysOut", .number r.NumDaysOut),
    ("Distance", .number r.Distance),
    ("Source", .string r.Source)]

/-- The zero value of `Route`. -/
def Route.zero : Route :=
  { ID := "", OriginAirport := "", DestinationAirport := "", NumDaysOut := 0, Distance := 0,
    Source := "" }

/-- What `encoding/json` does with one member of a JSON object when it decodes into a
`Route`: the member is decoded into the field whose name the key matches, and skipped when
there is none. -/
def Route.setField (r : Route) (key : String) (v : Value) : Except Error Route :=
  if equalFold key "ID" then
    (decodeString r.ID v).map (fun x => { r with ID := x })
  else if equalFold key "OriginAirport" then
    (decodeString r.OriginAirport v).map (fun x => { r with OriginAirport := x })
  else if equalFold key "DestinationAirport" then
    (decodeString r.DestinationAirport v).map (fun x => { r with DestinationAirport := x })
  else if equalFold key "NumDaysOut" then
    (decodeInt r.NumDaysOut v).map (fun x => { r with NumDaysOut := x })
  else if equalFold key "Distance" then
    (decodeInt r.Distance v).map (fun x => { r with Distance := x })
  else if equalFold key "Source" then
    (decodeString r.Source v).map (fun x => { r with Source := x })
  else
    .ok r

/-- What `encoding/json` decodes a JSON value to, into a `Route` that holds `r`: the members of
an object are decoded one after the other, in the order of the document, and `null` leaves the
value. -/
def Route.decode (r : Route) : Value → Except Error Route
  | .null => .ok r
  | .object fields => fields.foldlM (fun r e => r.setField e.1 e.2) r
  | _ => .error "json: cannot unmarshal value into Go value of type api.Route"

/-- The members of the JSON object `encoding/json` writes for an `Availability`, by its field
tags, given the values written for the two timestamps; `ParsedDate` has the tag `-` and is not
written. -/
def Availability.members (a : Availability) (CreatedAt UpdatedAt : Value) :
    List (String × Value) :=
  [ ("ID", .string a.ID),
    ("RouteID", .string a.RouteID),
    ("Route", a.Route.toJSON),
    ("Date", .string a.Date),
    ("YAvailable", .bool a.YAvailable),
    ("YMileageCost", .string a.YMileageCost),
    ("YRemainingSeats", .number a.YRemainingSeats),
    ("YAirlines", .string a.YAirlines),
    ("YDirect", .bool a.YDirect),
    ("WAvailable", .bool a.WAvailable),
    ("WMileageCost", .string a.WMileageCost),
    ("WRemainingSeats", .number a.WRemainingSeats),
    ("WAirlines", .string a.WAirlines),
    ("WDirect", .bool a.WDirect),
    ("JAvailable", .bool a.JAvailable),
    ("JMileageCost", .string a.JMileageCost),
    ("JRemainingSeats", .number a.JRemainingSeats),
    ("JAirlines", .string a.JAirlines),
    ("JDirect", .bool a.JDirect),
    ("FAvailable", .bool a.FAvailable),
    ("FMileageCost", .string a.FMileageCost),
    ("FRemainingSeats", .number a.FRemainingSeats),
    ("FAirlines", .string a.FAirlines),
    ("FDirect", .bool a.FDirect),
    ("Source", .string a.Source),
    ("CreatedAt", CreatedAt),
    ("UpdatedAt", UpdatedAt) ]

/-- The JSON object `encoding/json` writes for an `Availability`, or the failure of
`Time.MarshalJSON` on one of its timestamps. -/
def Availability.toJSON (a : Availability) : Except Error Value :=
  match marshalTime a.CreatedAt with
  | .error err => .error (marshalerError err)
  | .ok CreatedAt =>
    match marshalTime a.UpdatedAt with
    | .error err => .error (marshalerError err)
    | .ok UpdatedAt => .ok (.object (a.members CreatedAt UpdatedAt))

/-- The zero value of `Availability`. -/
def Availability.zero : Availability :=
  { ID := "", RouteID := "", Route := Route.zero, Date := "", ParsedDate := Time.zero,
    YAvailable := false, YMileageCost := "", YRemainingSeats := 0, YAirlines := "",
    YDirect := false,
    WAvailable := false, WMileageCost := "", WRemainingSeats := 0, WAirlines := "",
    WDirect := false,
    JAvailable := false, JMileageCost := "", JRemainingSeats := 0, JAirlines := "",
    JDirect := false,
    FAvailable := false, FMileageCost := "", FRemainingSeats := 0, FAirlines := "",
    FDirect := false,
    Source := "", CreatedAt := Time.zero, UpdatedAt := Time.zero }

/-- What `encoding/json` does with one member of a JSON object when it decodes into an
`Availability`: the member is decoded into the field whose JSON name the key matches, and
skipped when there is none; no key is read into `ParsedDate`, whose tag is `-`. -/
def Availability.setField (a : Availability) (key : String) (v : Value) :
    Except Error Availability :=
  if equalFold key "ID" then
    (decodeString a.ID v).map (fun x => { a with ID := x })
  else if equalFold key "RouteID" then
    (decodeString a.RouteID v).map (fun x => { a with RouteID := x })
  else if equalFold key "Route" then
    (Route.decode a.Route v).map (fun x => { a with Route := x })
  else if equalFold key "Date" then
    (decodeString a.Date v).map (fun x => { a with Date := x })
  else if equalFold key "YAvailable" then
    (decodeBool a.YAvailable v).map (fun x => { a with YAvailable := x })
  else if equalFold key "YMileageCost" then
    (decodeString a.YMileageCost v).map (fun x => { a with YMileageCost := x })
  else if equalFold key "YRemainingSeats" then
    (decodeInt a.YRemainingSeats v).map (fun x => { a with YRemainingSeats := x })
  else if equalFold key "YAirlines" then
    (decodeString a.YAirlines v).map (fun x => { a with YAirlines := x })
  else if equalFold key "YDirect" then
    (decodeBool a.YDirect v).map (fun x => { a with YDirect := x })
  else if equalFold key "WAvailable" then
    (decodeBool a.WAvailable v).map (fun x => { a with WAvailable := x })
  else if equalFold key "WMileageCost" then
    (decodeString a.WMileageCost v).map (fun x => { a with WMileageCost := x })
  else if equalFold key "WRemainingSeats" then
    (decodeInt a.WRemainingSeats v).map (fun x => { a with WRemainingSeats := x })
  else if equalFold key "WAirlines" then
    (decodeString a.WAirlines v).map (fun x => { a with WAirlines := x })
  else if equalFold key "WDirect" then
    (decodeBool a.WDirect v).map (fun x => { a with WDirect := x })
  else if equalFold key "JAvailable" then
    (decodeBool a.JAvailable v).map (fun x => { a with JAvailable := x })
  else if equalFold key "JMileageCost" then
    (decodeString a.JMileageCost v).map (fun x => { a with JMileageCost := x })
  else if equalFold key "JRemainingSeats" then
    (decodeInt a.JRemainingSeats v).map (fun x => { a with JRemainingSeats := x })
  else if equalFold key "JAirlines" then
    (decodeString a.JAirlines v).map (fun x => { a with JAirlines := x })
  else if equalFold key "JDirect" then
    (decodeBool a.JDirect v).map (fun x => { a with JDirect := x })
  else if equalFold key "FAvailable" then
    (decodeBool a.FAvailable v).map (fun x => { a with FAvailable := x })
  else if equalFold key "FMileageCost" then
    (decodeString a.FMileageCost v).map (fun x => { a with FMileageCost := x })
  else if equalFold key "FRemainingSeats" then
    (decodeInt a.FRemainingSeats v).map (fun x => { a with FRemainingSeats := x })
  else if equalFold key "FAirlines" then
    (decodeString a.FAirlines v).map (fun x => { a with FAirlines := x })
  else if equalFold key "FDirect" then
    (decodeBool a.FDirect v).map (fun x => { a with FDirect := x })
  else if equalFold key "Source" then
    (decodeString a.Source v).map (fun x => { a with Source := x })
  else if equalFold key "CreatedAt" then
    (decodeTime a.CreatedAt v).map (fun x => { a with CreatedAt := x })
  else if equalFold key "UpdatedAt" then
    (decodeTime a.UpdatedAt v).map (fun x => { a with UpdatedAt := x })
  else
    .ok a

/-- What `encoding/json` decodes a JSON value to, into an `Availability` that holds `a`. -/
def Availability.decode (a : Availability) : Value → Except Error Availability
  | .null => .ok a
  | .object fields => fields.foldlM (fun a e => a.setField e.1 e.2) a
  | _ => .error "json: cannot unmarshal value into Go value of type api.Availability"

/-- What `encoding/json` decodes a JSON value to, into a new element of a slice. -/
def Availability.fromJSON (v : Value) : Except Error Availability :=
  Availability.zero.decode v

/-- What `json.Unmarshal` decodes a document to, into an empty `[]api.Availability`. -/
def unmarshalAvailabilities : Value → Except Error (List Availability)
  | .null => .ok []
  | .array items => items.mapM Availability.fromJSON
  | _ => .error "json: cannot unmarshal value into Go value of type []api.Availability"

end api

namespace exporter

open api json

/-- Go `export.ToJSON` (`export` is a reserved word of Lean, hence the namespace
`exporter`): the document `encoder.Encode(data)` writes, or its failure to encode. `pretty`
only sets the indentation, which a JSON value does not record; failures of the writer `w` are
not modelled. -/
def ToJSON (data : List Availability) (pretty : Bool) : Except Error Value :=
  let _indent := if pretty then "  " else ""
  (data.mapM Availability.toJSON).map Value.array

end exporter

/-- A Go `int` or `int64`: an integer of 64 bits. -/
def IsInt64 (n : Int) : Prop :=
  -9223372036854775808 ≤ n ∧ n ≤ 9223372036854775807

instance (n : Int) : Decidable (IsInt64 n) := by
  unfold IsInt64
  infer_instance

/-- What `Time.MarshalJSON` accepts: the year of the time in its own zone is one of 0..9999 and
its zone is less than 24 hours from UTC. -/
def Time.IsMarshalable (t : Time) : Prop :=
  (-62167219200000000000 ≤ t.wall ∧ t.wall < 253402300800000000000)
    ∧ t.zoneMinutes.natAbs / 60 < 24

instance (t : Time) : Decidable t.IsMarshalable := by
  unfold Time.IsMarshalable
  infer_instance

namespace api

/-- The integer fields of an `Availability` are Go integers. -/
def Availability.IsGoValue (a : Availability) : Prop :=
  IsInt64 a.Route.NumDaysOut ∧ IsInt64 a.Route.Distance ∧ IsInt64 a.YRemainingSeats
    ∧ IsInt64 a.WRemainingSeats ∧ IsInt64 a.JRemainingSeats ∧ IsInt64 a.FRemainingSeats

instance (a : Availability) : Decidable a.IsGoValue := by
  unfold Availability.IsGoValue
  infer_instance

/-- An availability record as the client decodes it from the API: `ParsedDate` is the zero
time, and the timestamps are in UTC. -/
def decodedAvailability (id : String) : Availability :=
  { sampleAvailability id with
    ParsedDate := Time.zero, CreatedAt := ⟨1717200000000000000, 0⟩,
    UpdatedAt := ⟨1717286400000000000, 0⟩ }

/-- The same record with `ParsedDate` filled in from `Date`. -/
def parsedAvailability (id : String) : Availability :=
  { decodedAvailability id with ParsedDate := ⟨1740787200000000000, 0⟩ }

/-- The same record with `CreatedAt` in a zone 1 hour, 2 minutes and 3 seconds east of UTC. -/
def oddZoneAvailability (id : String) : Availability :=
  { decodedAvailability id with CreatedAt := ⟨1717200000000000000, 3723⟩ }

end api

namespace strconv

/-- Go `strconv.FormatBool`. -/
def FormatBool (b : Bool) : String :=
  if b then "true" else "false"

end strconv

namespace csv

/-! ## encoding/csv

A CSV file is represented by its records; quoting and line ends are not modelled. -/

/-- Go `(*csv.Writer).Write(record)` on a writer in state `σ`: the error it returns, if any, and
the next state. -/
abbrev Writer (σ : Type) := List String → σ → Option Error × σ

/-- A writer into memory that never fails: the state is the list of records written. -/
def recording : Writer (List (List String)) :=
  fun record records => (none, records ++ [record])

/-- Any writer, with every record handed to `Write` noted down in order, whether or not the
write succeeds. -/
def traced {σ : Type} (write : Writer σ) : Writer (σ × List (List String)) :=
  fun record w => ((write record w.1).1, ((write record w.1).2, w.2 ++ [record]))

end csv

namespace exporter

open api

/-- The `header` of `ToCSV` (csv.go, lines 17-39). -/
def ToCSV.header : List String :=
  [ "ID", "Date", "Origin", "Destination", "Source",
    "Y_Available", "Y_Miles", "Y_Seats", "Y_Direct",
    "W_Available", "W_Miles", "W_Seats", "W_Direct",
    "J_Available", "J_Miles", "J_Seats", "J_Direct",
    "F_Available", "F_Miles", "F_Seats", "F_Direct" ]

/-- The `row` `ToCSV` builds for a record (csv.go, lines 46-68). -/
def ToCSV.row (a : Availability) : List String :=
  [ a.ID, a.Date, a.Route.OriginAirport, a.Route.DestinationAirport, a.Source,
    strconv.FormatBool a.YAvailable, a.YMileageCost, strconv.Itoa a.YRemainingSeats,
    strconv.FormatBool a.YDirect,
    strconv.FormatBool a.WAvailable, a.WMileageCost, strconv.Itoa a.WRemainingSeats,
    strconv.FormatBool a.WDirect,
    strconv.FormatBool a.JAvailable, a.JMileageCost, strconv.Itoa a.JRemainingSeats,
    strconv.FormatBool a.JDirect,
    strconv.FormatBool a.FAvailable, a.FMileageCost, strconv.Itoa a.FRemainingSeats,
    strconv.FormatBool a.FDirect ]

/-- The loop of `ToCSV` over the records (csv.go, lines 45-72): it stops at the first write
that fails. -/
def ToCSV.rows {σ : Type} (write : csv.Writer σ) : List Availability → σ → Option Error × σ
  | [], w => (none, w)
  | a :: rest, w =>
    match write (ToCSV.row a) w with
    | (some err, w') => (some err, w')
    | (none, w') => ToCSV.rows write rest w'

/-- Go `export.ToCSV`; `write` is `writer.Write` of the `csv.Writer` made for `w`. The deferred
`Flush` is part of the writer. -/
def ToCSV {σ : Type} (write : csv.Writer σ) (data : List Availability) (w : σ) :
    Option Error × σ :=
  match write ToCSV.header w with
  | (some err, w') => (some err, w')
  | (none, w') => ToCSV.rows write data w'

end exporter

namespace tui

open api config

/-! ## The terminal UI (tui/app.go, tui/search.go, tui/results.go)

The components of charmbracelet/bubbles are outside the repository: a text input is its value
and focus with its settings, the table is a type parameter, and what their own `Update` and
setters do is given by a `Bubbles` record. An index out of range, a panic in Go, makes `Update`
return `none`. -/

/-- Go `tui.View`. -/
inductive View where
  | ViewSearch
  | ViewResults
  | ViewLoading
  | ViewError
deriving DecidableEq, Repr

/-- Go `textinput.Model` of bubbles, as far as the form uses it. -/
structure TextInput where
  value : String
  focus : Bool
  Placeholder : String
  CharLimit : Int
  Width : Int
  Prompt : String
deriving DecidableEq, Repr

/-- Go `textinput.Model.Value`. -/
def TextInput.Value (t : TextInput) : String :=
  t.value

/-- Go `tui.SearchModel`. -/
structure SearchModel where
  inputs : List TextInput
  focused : Int
  submitted : Bool
  config : Config
deriving DecidableEq, Repr

/-- The messages `Update` tells apart: a key press by its `String()`, a window size, the two
messages of a finished search, and any other message. -/
inductive Msg where
  | KeyMsg (key : String)
  | WindowSizeMsg (Width Height : Int)
  | searchResultMsg (results : List Availability)
  | searchErrorMsg (err : Error)
  | other (tag : String)
deriving DecidableEq, Repr

/-- Go `tea.Cmd`, by what the command does when run: nothing, `tea.Quit`, the closure of
`doSearch` with the client and the form it captured, a command of a bubbles component, or a
batch. -/
inductive Cmd where
  | nil
  | Quit
  | doSearch (client : Client) (search : SearchModel)
  | component (tag : String)
  | Batch (cmds : List Cmd)

/-- A file export started by the results view: `os.Create(filename)` followed by
`export.ToCSV` or `export.ToJSON` of the records, whose failures the view ignores. -/
structure FileExport where
  filename : String
  data : List Availability
deriving DecidableEq, Repr

/-- The behaviour of the bubbles components. -/
structure Bubbles (Table : Type) where
  /-- Go `textinput.New`. -/
  inputNew : TextInput
  /-- Go `textinput.Model.SetValue`. -/
  inputSetValue : TextInput → String → TextInput
  /-- Go `textinput.Model.Update`. -/
  inputUpdate : TextInput → Msg → TextInput × Cmd
  /-- Go `table.Model.Update`. -/
  tableUpdate : Table → Msg → Table × Cmd
  /-- Go `table.Model.SetRows`. -/
  tableSetRows : Table → List (List String) → Table
  /-- Go `table.Model.SetHeight`. -/
  tableSetHeight : Table → Int → Table

/-- Go `numFields`. -/
def numFields : Int := 6

/-- Go `fieldOrigin`. -/
def fieldOrigin : Nat := 0

/-- Go `fieldDestination`. -/
def fieldDestination : Nat := 1

/-- Go `textinput.Model.Focus`: sets the focus and returns the blink command. -/
def TextInput.Focus (t : TextInput) : TextInput × Cmd :=
  ({ t with focus := true }, .component "textinput.Blink")

/-- Go `textinput.Model.Blur`. -/
def TextInput.Blur (t : TextInput) : TextInput :=
  { t with focus := false }

/-- Go `SearchModel.updateFocus`: the inputs share their array with the model returned, so the
changed inputs are part of the result. -/
def SearchModel.updateFocus (m : SearchModel) : SearchModel × Cmd :=
  let updated := m.inputs.enum.map (fun (i, input) =>
    if (i : Int) = m.focused then input.Focus else (input.Blur, Cmd.nil))
  ({ m with inputs := updated.map Prod.fst }, .Batch (updated.map Prod.snd))

/-- Go `SearchModel.Update`. -/
def SearchModel.Update {Table : Type} (b : Bubbles Table) (m : SearchModel) (msg : Msg) :
    Option (SearchModel × Cmd) :=
  let focusedInput : Option (SearchModel × Cmd) :=
    if 0 ≤ m.focused then
      match m.inputs[m.focused.toNat]? with
      | none => none
      | some input =>
        let (input', cmd) := b.inputUpdate input msg
        some ({ m with inputs := m.inputs.set m.focused.toNat input' }, cmd)
    else none
  match msg with
  | .KeyMsg key =>
    if key = "tab" ∨ key = "down" ∨ key = "j" then
      let m := { m with focused := Int.tmod (m.focused + 1) numFields }
      some m.updateFocus
    else if key = "shift+tab" ∨ key = "up" ∨ key = "k" then
      let m := { m with focused := Int.tmod (m.focused - 1 + numFields) numFields }
      some m.updateFocus
    else if key = "enter" then
      if m.focused = numFields - 1 ∨ key = "enter" then
        match m.inputs[fieldOrigin]?, m.inputs[fieldDestination]? with
        | some origin, some destination =>
          if origin.Value ≠ "" ∧ destination.Value ≠ "" then
            some ({ m with submitted := true }, .nil)
          else
            let m := { m with focused := Int.tmod (m.focused + 1) numFields }
            some m.updateFocus
        | some origin, none =>
          if origin.Value ≠ "" then none
          else
            let m := { m with focused := Int.tmod (m.focused + 1) numFields }
            some m.updateFocus
        | none, _ => none
      else
        let m := { m with focused := Int.tmod (m.focused + 1) numFields }
        some m.updateFocus
    else focusedInput
  | _ => focusedInput

/-- Go `formatMiles` (tui/results.go); lengths and cuts are in bytes, as in Go, and a cut is
modelled where it falls between two characters. -/
def formatMiles (miles : String) : String :=
  if miles = "" ∨ miles = "0" then "?"
  else if miles.utf8ByteSize > 3 then miles.extract 0 ⟨miles.utf8ByteSize - 3⟩ ++ "k"
  else miles

/-- Go `formatCabin` (tui/results.go). -/
def formatCabin (available : Bool) (miles : String) (seats : Int) : String :=
  if !available then "-"
  else formatMiles miles ++ " (" ++ strconv.Itoa seats ++ ")"

/-- Go `tui.ResultsModel`. -/
structure ResultsModel (Table : Type) where
  table : Table
  results : List Availability
  exportRequested : Bool
  exportFormat : String
  width : Int
  height : Int

/-- Go `(*ResultsModel).SetResults`. -/
def ResultsModel.SetResults {Table : Type} (b : Bubbles Table) (m : ResultsModel Table)
    (results : List Availability) : ResultsModel Table :=
  let rows := results.map (fun a =>
    [ a.Date, a.Route.OriginAirport, a.Route.DestinationAirport, a.Source,
      formatCabin a.YAvailable a.YMileageCost a.YRemainingSeats,
      formatCabin a.WAvailable a.WMileageCost a.WRemainingSeats,
      formatCabin a.JAvailable a.JMileageCost a.JRemainingSeats,
      formatCabin a.FAvailable a.FMileageCost a.FRemainingSeats ])
  { m with results := results, table := b.tableSetRows m.table rows }

/-- Go `(*ResultsModel).SetSize`. -/
def ResultsModel.SetSize {Table : Type} (b : Bubbles Table) (m : ResultsModel Table)
    (width height : Int) : ResultsModel Table :=
  { m with width := width, height := height, table := b.tableSetHeight m.table (height - 5) }

/-- Go `ResultsModel.doExport`: the file it writes, if any. -/
def ResultsModel.doExport {Table : Type} (m : ResultsModel Table) : List FileExport :=
  if m.results.length = 0 then []
  else if m.exportFormat = "csv" then [{ filename := "seats_results.csv", data := m.results }]
  else [{ filename := "seats_results.json", data := m.results }]

/-- Go `ResultsModel.Update`, with the file exports it starts. -/
def ResultsModel.Update {Table : Type} (b : Bubbles Table) (m : ResultsModel Table)
    (msg : Msg) : ResultsModel Table × Cmd × List FileExport :=
  let tableUpdate : ResultsModel Table × Cmd × List FileExport :=
    let (table, cmd) := b.tableUpdate m.table msg
    ({ m with table := table }, cmd, [])
  match msg with
  | .KeyMsg key =>
    if key = "e" then
      let m := { m with exportFormat := "json", exportRequested := true }
      (m, .nil, m.doExport)
    else if key = "c" then
      let m := { m with exportFormat := "csv", exportRequested := true }
      (m, .nil, m.doExport)
    else tableUpdate
  | _ => tableUpdate

/-- Go `tui.Model`; `err` is nil until a search fails. -/
structure Model (Table : Type) where
  config : Config
  client : Client
  view : View
  search : SearchModel
  results : ResultsModel Table
  err : Option Error
  width : Int
  height : Int
  quitting : Bool

/-- Go `Model.doSearch`: the command captures the model's client and form. -/
def Model.doSearch {Table : Type} (m : Model Table) : Cmd :=
  .doSearch m.client m.search

/-- The second `switch` of `Model.Update` (app.go, lines 101-124): the message goes to the
screen in view. -/
def Model.Update.screen {Table : Type} (b : Bubbles Table) (m : Model Table) (msg : Msg) :
    Option (Model Table × Cmd × List FileExport) :=
  match m.view with
  | .ViewSearch =>
    match m.search.Update b msg with
    | none => none
    | some (search, cmd) =>
      let m := { m with search := search }
      if m.search.submitted then
        let m := { m with search := { m.search with submitted := false } }
        let m := { m with view := .ViewLoading }
        some (m, m.doSearch, [])
      else some (m, cmd, [])
  | .ViewResults =>
    let (results, cmd, exports) := m.results.Update b msg
    let m := { m with results := results }
    let m :=
      if m.results.exportRequested then
        { m with results := { m.results with exportRequested := false } }
      else m
    some (m, cmd, exports)
  | _ => some (m, .nil, [])

/-- Go `Model.Update`. -/
def Model.Update {Table : Type} (b : Bubbles Table) (m : Model Table) (msg : Msg) :
    Option (Model Table × Cmd × List FileExport) :=
  match msg with
  | .KeyMsg key =>
    if key = "ctrl+c" ∨ key = "q" then
      if m.view = .ViewSearch then
        some ({ m with quitting := true }, .Quit, [])
      else
        some ({ m with view := .ViewSearch }, .nil, [])
    else if key = "esc" then
      if m.view ≠ .ViewSearch then
        some ({ m with view := .ViewSearch }, .nil, [])
      else Model.Update.screen b m msg
    else Model.Update.screen b m msg
  | .WindowSizeMsg Width Height =>
    let m := { m with width := Width }
    let m := { m with height := Height }
    let m := { m with results := m.results.SetSize b Width (Height - 10) }
    Model.Update.screen b m msg
  | .searchResultMsg results =>
    let m := { m with results := m.results.SetResults b results }
    some ({ m with view := .ViewResults }, .nil, [])
  | .searchErrorMsg err =>
    let m := { m with err := some err }
    some ({ m with view := .ViewError }, .nil, [])
  | .other _ => Model.Update.screen b m msg

/-- Running `Update` on one message after another, from a model. -/
def Model.run {Table : Type} (b : Bubbles Table) (m : Model Table) :
    List Msg → Option (Model Table)
  | [] => some m
  | msg :: rest =>
    match m.Update b msg with
    | none => none
    | some (m', _, _) => Model.run b m' rest

/-- Components that ignore their messages, with no table; a new text input is empty and
`SetValue` stores the text as it is. -/
def idleBubbles : Bubbles Unit :=
  { inputNew :=
      { value := "", focus := false, Placeholder := "", CharLimit := 0, Width := 0,
        Prompt := "> " }
    inputSetValue := fun t value => { t with value := value }
    inputUpdate := fun t _ => (t, .nil)
    tableUpdate := fun t _ => (t, .nil)
    tableSetRows := fun t _ => t
    tableSetHeight := fun t _ => t }

/-- A text input of the form holding a value. -/
def sampleInput (value : String) (focus : Bool) : TextInput :=
  { value := value, focus := focus, Placeholder := "", CharLimit := 50, Width := 30,
    Prompt := "" }

/-- The form filled in for a search from SFO to NRT, focus on the first field. -/
def filledForm : SearchModel :=
  { inputs := [sampleInput "SFO" true, sampleInput "NRT" false, sampleInput "" false,
      sampleInput "" false, sampleInput "" false, sampleInput "" false],
    focused := 0, submitted := false, config := cli.sampleConfig }

/-- The UI on the search screen with the form filled in. -/
def searchScreen : Model Unit :=
  { config := cli.sampleConfig, client := NewClient "pro_test_key", view := .ViewSearch,
    search := filledForm,
    results :=
      { table := (), results := [], exportRequested := false, exportFormat := "",
        width := 0, height := 0 },
    err := none, width := 80, height := 24, quitting := false }

/-- The UI while the search started from the filled form is in flight. -/
def loadingScreen : Model Unit :=
  { searchScreen with view := .ViewLoading }

end tui

namespace api

/-- Go `ValidSources` (types.go). -/
def ValidSources : List String :=
  [ "eurobonus", "virginatlantic", "aeromexico", "american", "delta", "etihad", "united",
    "emirates", "aeroplan", "alaska", "velocity", "qantas", "connectmiles", "azul", "smiles",
    "flyingblue", "jetblue", "qatar", "turkish", "singapore", "ethiopian", "saudia", "finnair",
    "lufthansa" ]

end api

namespace cli

open api config

/-- Go `formatCabinInfo` (cli/search.go); `none` is the run-time panic of the slice expression
`miles[:len(miles)-3]` when the bound is negative. Lengths and cuts are in bytes, as in Go, and
a cut is modelled where it falls between two characters. -/
def formatCabinInfo (available : Bool) (miles : String) (seats : Int) : Option String :=
  if !available then some "-"
  else if miles = "" ∨ miles = "0" then some ("(" ++ strconv.Itoa seats ++ ")")
  else if miles.utf8ByteSize < 3 then none
  else some (miles.extract 0 ⟨miles.utf8ByteSize - 3⟩ ++ "k")

/-- Go `parseCSVLower` (cli/guided.go). -/
def parseCSVLower (s : String) : List String :=
  if s == "" then []
  else
    let parts := strings.Split s ','
    (parts.map (fun p => strings.TrimSpace (strings.ToLower p))).filter (fun p => p != "")

/-- The parameter record `runGuidedSearch` builds from the texts of its form (cli/guided.go,
lines 197-204). -/
def runGuidedSearch.params (origin destination startDate endDate cabin source : String) :
    SearchParams :=
  { OriginAirports := parseCSV origin
    DestinationAirports := parseCSV destination
    StartDate := strings.TrimSpace startDate
    EndDate := strings.TrimSpace endDate
    Cabin := strings.TrimSpace cabin
    Sources := parseCSVLower source
    DirectOnly := false
    Take := 0
    Skip := 0
    Cursor := 0 }

end cli

namespace exporter

open api

/-- The `header` of `TripsToCSV` (csv.go, lines 83-96). -/
def TripsToCSV.header : List String :=
  [ "ID", "Cabin", "Carriers", "Flight_Numbers", "Stops", "Duration_Min", "Miles", "Taxes",
    "Seats", "Departs", "Arrives", "Source" ]

/-- The `row` `TripsToCSV` builds for a trip (csv.go, lines 103-116); `Format` is
`time.Time.Format`. -/
def TripsToCSV.row (Format : Time → String → String) (t : Trip) : List String :=
  [ t.ID, t.Cabin, t.Carriers, t.FlightNumbers, strconv.Itoa t.Stops,
    strconv.Itoa t.TotalDuration, strconv.Itoa t.MileageCost, strconv.Itoa t.TotalTaxes,
    strconv.Itoa t.RemainingSeats, Format t.DepartsAt "2006-01-02 15:04",
    Format t.ArrivesAt "2006-01-02 15:04", t.Source ]

/-- The loop of `TripsToCSV` over the trips (csv.go, lines 102-120). -/
def TripsToCSV.rows {σ : Type} (Format : Time → String → String) (write : csv.Writer σ) :
    List Trip → σ → Option Error × σ
  | [], w => (none, w)
  | t :: rest, w =>
    match write (TripsToCSV.row Format t) w with
    | (some err, w') => (some err, w')
    | (none, w') => TripsToCSV.rows Format write rest w'

/-- Go `export.TripsToCSV`. -/
def TripsToCSV {σ : Type} (Format : Time → String → String) (write : csv.Writer σ)
    (data : List Trip) (w : σ) : Option Error × σ :=
  match write TripsToCSV.header w with
  | (some err, w') => (some err, w')
  | (none, w') => TripsToCSV.rows Format write data w'

/-- The `header` of `RoutesToCSV` (csv.go, lines 131-137). -/
def RoutesToCSV.header : List String :=
  [ "ID", "Origin", "Destination", "Distance", "Source" ]

/-- The `row` `RoutesToCSV` builds for a route (csv.go, lines 144-150). -/
def RoutesToCSV.row (r : Route) : List String :=
  [ r.ID, r.OriginAirport, r.DestinationAirport, strconv.Itoa r.Distance, r.Source ]

/-- The loop of `RoutesToCSV` over the routes (csv.go, lines 143-154). -/
def RoutesToCSV.rows {σ : Type} (write : csv.Writer σ) : List Route → σ → Option Error × σ
  | [], w => (none, w)
  | r :: rest, w =>
    match write (RoutesToCSV.row r) w with
    | (some err, w') => (some err, w')
    | (none, w') => RoutesToCSV.rows write rest w'

/-- Go `export.RoutesToCSV`. -/
def RoutesToCSV {σ : Type} (write : csv.Writer σ) (data : List Route) (w : σ) :
    Option Error × σ :=
  match write RoutesToCSV.header w with
  | (some err, w') => (some err, w')
  | (none, w') => RoutesToCSV.rows write data w'

end exporter

namespace tui

open api config

/-- Go `fieldStartDate`. -/
def fieldStartDate : Nat := 2

/-- Go `fieldEndDate`. -/
def fieldEndDate : Nat := 3

/-- Go `fieldCabin`. -/
def fieldCabin : Nat := 4

/-- Go `fieldSource`. -/
def fieldSource : Nat := 5

/-- Go `NewSearchModel`. -/
def NewSearchModel {Table : Type} (b : Bubbles Table) (cfg : Config) : SearchModel :=
  let origin : TextInput :=
    { b.inputNew with Placeholder := "SFO, LAX", CharLimit := 50, Width := 30, Prompt := "" }
  let origin := origin.Focus.1
  let destination : TextInput :=
    { b.inputNew with Placeholder := "NRT, HND", CharLimit := 50, Width := 30, Prompt := "" }
  let startDate : TextInput :=
    { b.inputNew with Placeholder := "2024-06-01", CharLimit := 10, Width := 30, Prompt := "" }
  let endDate : TextInput :=
    { b.inputNew with
      Placeholder := "2024-06-15 (optional)", CharLimit := 10, Width := 30, Prompt := "" }
  let cabin : TextInput :=
    { b.inputNew with
      Placeholder := "J, F (optional)", CharLimit := 10, Width := 30, Prompt := "" }
  let source : TextInput :=
    { b.inputNew with
      Placeholder := "aeroplan, united (optional)", CharLimit := 100, Width := 30,
      Prompt := "" }
  let origin :=
    if cfg.PreferredAirports.length > 0 then
      b.inputSetValue origin (strings.Join cfg.PreferredAirports ", ")
    else origin
  let cabin :=
    if cfg.DefaultCabins.length > 0 then
      b.inputSetValue cabin (strings.Join cfg.DefaultCabins ", ")
    else cabin
  let source :=
    if cfg.DefaultSources.length > 0 then
      b.inputSetValue source (strings.Join cfg.DefaultSources ", ")
    else source
  { inputs := [origin, destination, startDate, endDate, cabin, source],
    focused := 0, submitted := false, config := cfg }

/-- Go `parseInputCSV` (tui/search.go). -/
def parseInputCSV (s : String) : List String :=
  if s == "" then []
  else
    let parts := strings.Split s ','
    (parts.map (fun p => strings.TrimSpace (strings.ToUpper p))).filter (fun p => p != "")

/-- Go `parseInputCSVLower` (tui/search.go). -/
def parseInputCSVLower (s : String) : List String :=
  if s == "" then []
  else
    let parts := strings.Split s ','
    (parts.map (fun p => strings.TrimSpace (strings.ToLower p))).filter (fun p => p != "")

/-- Go `SearchModel.GetSearchParams`; `none` when the form has fewer than six inputs. -/
def SearchModel.GetSearchParams (m : SearchModel) : Option SearchParams :=
  match m.inputs[fieldOrigin]?, m.inputs[fieldDestination]?, m.inputs[fieldStartDate]?,
    m.inputs[fieldEndDate]?, m.inputs[fieldCabin]?, m.inputs[fieldSource]? with
  | some origin, some destination, some startDate, some endDate, some cabin, some source =>
    some
      { OriginAirports := parseInputCSV origin.Value
        DestinationAirports := parseInputCSV destination.Value
        StartDate := strings.TrimSpace startDate.Value
        EndDate := strings.TrimSpace endDate.Value
        Cabin := strings.ToUpper (strings.TrimSpace cabin.Value)
        Sources := parseInputCSVLower source.Value
        DirectOnly := false
        Take := 0
        Skip := 0
        Cursor := 0 }
  | _, _, _, _, _, _ => none

/-- The function `doSearch` returns (app.go, lines 172-181), run for the client and the form
the command captured: the message it produces; `get` is the `c.get` of a client. -/
def doSearch.run {σ : Type} (get : Client → Getter σ SearchResponse) (client : Client)
    (search : SearchModel) (w : σ) : Option (Msg × σ) :=
  match search.GetSearchParams with
  | none => none
  | some params =>
    match Search (get client) params w with
    | (.error err, w') => some (.searchErrorMsg err, w')
    | (.ok resp, w') => some (.searchResultMsg resp.Data, w')

/-- Running `SearchModel.Update` on one message after another, from a form. -/
def SearchModel.run {Table : Type} (b : Bubbles Table) (m : SearchModel) :
    List Msg → Option SearchModel
  | [] => some m
  | msg :: rest =>
    match m.Update b msg with
    | none => none
    | some (m', _) => SearchModel.run b m' rest

/-- The form with a single space typed as origin and NRT as destination. -/
def blankOriginForm : SearchModel :=
  { filledForm with
    inputs := [sampleInput " " true, sampleInput "NRT" false, sampleInput "" false,
      sampleInput "" false, sampleInput "" false, sampleInput "united" false] }

end tui

namespace tui

/-- The focus of the form is on one of its six inputs. -/
def SearchModel.InRange (m : SearchModel) : Prop :=
  m.inputs.length = 6 ∧ 0 ≤ m.focused ∧ m.focused < 6

end tui

namespace api

/-! ## Scripts are general

Whatever the server, a run is the run against the script of the page outcomes it meets, so what
is proved below for every script holds against every server. -/

theorem Script.ofList_cons_zero {R : Type} (o : Except Error R) (os : List (Except Error R))
    (final : Except Error R) : Script.ofList (o :: os) final 0 = o := rfl

theorem Script.ofList_cons_tail {R : Type} (o : Except Error R) (os : List (Except Error R))
    (final : Except Error R) : (Script.ofList (o :: os) final).tail = Script.ofList os final := rfl

/-- A run of the loop of `SearchAll` against any server is its run against the script of the
outcomes met. -/
theorem SearchAll_loop_scripted_outcomes {σ : Type}
    (search : Fetch σ SearchParams SearchResponse) (final : Except Error SearchResponse)
    (fuel : Nat) :
    ∀ (params : SearchParams) (acc : List Availability) (w : σ),
      SearchAll.loop search fuel params acc w
        = SearchAll.loop scripted fuel params acc
            (Script.ofList (SearchAll.outcomes search fuel params w) final) := by
  induction fuel with
  | zero => intro params acc w; rfl
  | succ fuel ih =>
    intro params acc w
    unfold SearchAll.loop SearchAll.outcomes
    rcases hs : search params w with ⟨out, w'⟩
    cases out with
    | error e => simp [scripted, Script.ofList_cons_zero]
    | ok resp =>
      by_cases hstop : (!resp.HasMore || resp.Data.length == 0) = true
      · simp only [hstop, if_true, scripted, Script.ofList_cons_zero]
      · simp only [hstop, Bool.false_eq_true, if_false, scripted, Script.ofList_cons_zero,
          Script.ofList_cons_tail]
        rw [ih]

/-- A run of the loop of `GetAvailabilityAll` against any server is its run against the script
of the outcomes met. -/
theorem GetAvailabilityAll_loop_scripted_outcomes {σ : Type}
    (getAvailability : Fetch σ AvailabilityParams AvailabilityResponse)
    (final : Except Error AvailabilityResponse) (fuel : Nat) :
    ∀ (params : AvailabilityParams) (acc : List Availability) (w : σ),
      GetAvailabilityAll.loop getAvailability fuel params acc w
        = GetAvailabilityAll.loop scripted fuel params acc
            (Script.ofList (GetAvailabilityAll.outcomes getAvailability fuel params w) final) := by
  induction fuel with
  | zero => intro params acc w; rfl
  | succ fuel ih =>
    intro params acc w
    unfold GetAvailabilityAll.loop GetAvailabilityAll.outcomes
    rcases hs : getAvailability params w with ⟨out, w'⟩
    cases out with
    | error e => simp [scripted, Script.ofList_cons_zero]
    | ok resp =>
      by_cases hstop : (!resp.HasMore || resp.Data.length == 0) = true
      · simp only [hstop, if_true, scripted, Script.ofList_cons_zero]
      · simp only [hstop, Bool.false_eq_true, if_false, scripted, Script.ofList_cons_zero,
          Script.ofList_cons_tail]
        rw [ih]

/-- A run of `SearchAll` against any server is its run against the script of the outcomes
met. -/
theorem SearchAll_scripted_outcomes {σ : Type} (search : Fetch σ SearchParams SearchResponse)
    (final : Except Error SearchResponse) (fuel : Nat) (params : SearchParams) (w : σ) :
    SearchAll search fuel params w
      = SearchAll scripted fuel params
          (Script.ofList
            (SearchAll.outcomes search fuel { params with Take := 100, Skip := 0 } w) final) :=
  SearchAll_loop_scripted_outcomes search final fuel { params with Take := 100, Skip := 0 } [] w

/-- A run of `GetAvailabilityAll` against any server is its run against the script of the
outcomes met. -/
theorem GetAvailabilityAll_scripted_outcomes {σ : Type}
    (getAvailability : Fetch σ AvailabilityParams AvailabilityResponse)
    (final : Except Error AvailabilityResponse) (fuel : Nat) (params : AvailabilityParams)
    (w : σ) :
    GetAvailabilityAll getAvailability fuel params w
      = GetAvailabilityAll scripted fuel params
          (Script.ofList
            (GetAvailabilityAll.outcomes getAvailability fuel
              { params with Take := 100, Skip := 0 } w) final) :=
  GetAvailabilityAll_loop_scripted_outcomes getAvailability final fuel
    { params with Take := 100, Skip := 0 } [] w

/-! ## The Go loops run the specification's algorithm -/

theorem Script.tail_apply {R : Type} (pages : Script R) (i : Nat) :
    pages.tail i = pages (i + 1) := rfl

theorem searchPages_tail (pages : Script SearchResponse) :
    searchPages pages.tail = (searchPages pages).tail := rfl

theorem availabilityPages_tail (pages : Script AvailabilityResponse) :
    availabilityPages pages.tail = (availabilityPages pages).tail := rfl

/-- On a scripted server the loop of `SearchAll` issues the requests of the specification's
algorithm, with the caller's other fields around them, and returns its result. -/
theorem SearchAll_loop_eq_aggregator (fuel : Nat) :
    ∀ (params : SearchParams) (acc : List Availability) (pages : Script SearchResponse),
      ((SearchAll.loop scripted fuel params acc pages).requests.map SearchParams.paging
          = (Aggregator.loop fuel params.paging acc (searchPages pages)).requests)
      ∧ (SearchAll.loop scripted fuel params acc pages).result
          = (Aggregator.loop fuel params.paging acc (searchPages pages)).result := by
  induction fuel with
  | zero => intro params acc pages; simp [SearchAll.loop, Aggregator.loop]
  | succ fuel ih =>
    intro params acc pages
    cases hp : pages 0 with
    | error e =>
      simp [SearchAll.loop, Aggregator.loop, scripted, searchPages, hp, Except.map]
    | ok resp =>
      by_cases hstop : resp.HasMore = false ∨ resp.Data.length = 0
      · rcases hstop with h | h <;>
          simp [SearchAll.loop, Aggregator.loop, scripted, searchPages, hp, Except.map,
            SearchResponse.page, h]
      · have hm : resp.HasMore = true := by
          cases hh : resp.HasMore <;> simp_all
        have hd : resp.Data ≠ [] := by
          intro hh; apply hstop; right; simp [hh]
        by_cases hc : params.Cursor = 0
        · have := ih { params with Skip := params.Skip + resp.Data.length, Cursor := resp.Cursor }
            (acc ++ resp.Data) pages.tail
          simp [SearchAll.loop, Aggregator.loop, scripted, searchPages, hp, Except.map,
            SearchResponse.page, hm, hd, hc, SearchParams.paging] at this ⊢
          exact this
        · have := ih { params with Skip := params.Skip + resp.Data.length }
            (acc ++ resp.Data) pages.tail
          simp [SearchAll.loop, Aggregator.loop, scripted, searchPages, hp, Except.map,
            SearchResponse.page, hm, hd, hc, SearchParams.paging] at this ⊢
          exact this

/-- On a scripted server the loop of `GetAvailabilityAll` issues the requests of the
specification's algorithm, with the caller's other fields around them, and returns its result. -/
theorem GetAvailabilityAll_loop_eq_aggregator (fuel : Nat) :
    ∀ (params : AvailabilityParams) (acc : List Availability)
      (pages : Script AvailabilityResponse),
      ((GetAvailabilityAll.loop scripted fuel params acc pages).requests.map
          AvailabilityParams.paging
          = (Aggregator.loop fuel params.paging acc (availabilityPages pages)).requests)
      ∧ (GetAvailabilityAll.loop scripted fuel params acc pages).result
          = (Aggregator.loop fuel params.paging acc (availabilityPages pages)).result := by
  induction fuel with
  | zero => intro params acc pages; simp [GetAvailabilityAll.loop, Aggregator.loop]
  | succ fuel ih =>
    intro params acc pages
    cases hp : pages 0 with
    | error e =>
      simp [GetAvailabilityAll.loop, Aggregator.loop, scripted, availabilityPages, hp, Except.map]
    | ok resp =>
      by_cases hstop : resp.HasMore = false ∨ resp.Data.length = 0
      · rcases hstop with h | h <;>
          simp [GetAvailabilityAll.loop, Aggregator.loop, scripted, availabilityPages, hp,
            Except.map, AvailabilityResponse.page, h]
      · have hm : resp.HasMore = true := by
          cases hh : resp.HasMore <;> simp_all
        have hd : resp.Data ≠ [] := by
          intro hh; apply hstop; right; simp [hh]
        by_cases hc : params.Cursor = 0
        · have := ih { params with Skip := params.Skip + resp.Data.length, Cursor := resp.Cursor }
            (acc ++ resp.Data) pages.tail
          simp [GetAvailabilityAll.loop, Aggregator.loop, scripted, availabilityPages, hp,
            Except.map, AvailabilityResponse.page, hm, hd, hc, AvailabilityParams.paging] at this ⊢
          exact this
        · have := ih { params with Skip := params.Skip + resp.Data.length }
            (acc ++ resp.Data) pages.tail
          simp [GetAvailabilityAll.loop, Aggregator.loop, scripted, availabilityPages, hp,
            Except.map, AvailabilityResponse.page, hm, hd, hc, AvailabilityParams.paging] at this ⊢
          exact this

/-- `SearchAll` on a scripted server: its requests and result are those of the specification's
algorithm started with the caller's cursor. -/
theorem SearchAll_eq_aggregator (fuel : Nat) (params : SearchParams)
    (pages : Script SearchResponse) :
    ((SearchAll scripted fuel params pages).requests.map SearchParams.paging
        = (Aggregator fuel params.Cursor (searchPages pages)).requests)
    ∧ (SearchAll scripted fuel params pages).result
        = (Aggregator fuel params.Cursor (searchPages pages)).result :=
  SearchAll_loop_eq_aggregator fuel { params with Take := 100, Skip := 0 } [] pages

/-- `GetAvailabilityAll` on a scripted server: its requests and result are those of the
specification's algorithm started with the caller's cursor. -/
theorem GetAvailabilityAll_eq_aggregator (fuel : Nat) (params : AvailabilityParams)
    (pages : Script AvailabilityResponse) :
    ((GetAvailabilityAll scripted fuel params pages).requests.map AvailabilityParams.paging
        = (Aggregator fuel params.Cursor (availabilityPages pages)).requests)
    ∧ (GetAvailabilityAll scripted fuel params pages).result
        = (Aggregator fuel params.Cursor (availabilityPages pages)).result :=
  GetAvailabilityAll_loop_eq_aggregator fuel { params with Take := 100, Skip := 0 } [] pages

/-! ## Properties of the algorithm -/

theorem Aggregator_loop_error (fuel : Nat) (pg : Paging) (acc : List Availability)
    (pages : Script Page) (e : Error) (h : pages 0 = .error e) :
    Aggregator.loop (fuel + 1) pg acc pages = ⟨[pg], some ([], some e)⟩ := by
  simp [Aggregator.loop, h]

theorem Aggregator_loop_stop (fuel : Nat) (pg : Paging) (acc : List Availability)
    (pages : Script Page) (page : Page) (h : pages 0 = .ok page)
    (hs : page.HasMore = false ∨ page.Data = []) :
    Aggregator.loop (fuel + 1) pg acc pages = ⟨[pg], some (acc ++ page.Data, none)⟩ := by
  rcases hs with hs | hs <;> simp [Aggregator.loop, h, hs]

theorem Aggregator_loop_continue (fuel : Nat) (pg : Paging) (acc : List Availability)
    (pages : Script Page) (page : Page) (h : pages 0 = .ok page)
    (hm : page.HasMore = true) (hd : page.Data ≠ []) :
    Aggregator.loop (fuel + 1) pg acc pages =
      ⟨pg :: (Aggregator.loop fuel
          ⟨pg.Take, pg.Skip + page.Data.length, if pg.Cursor = 0 then page.Cursor else pg.Cursor⟩
          (acc ++ page.Data) pages.tail).requests,
        (Aggregator.loop fuel
          ⟨pg.Take, pg.Skip + page.Data.length, if pg.Cursor = 0 then page.Cursor else pg.Cursor⟩
          (acc ++ page.Data) pages.tail).result⟩ := by
  simp [Aggregator.loop, h, hm, hd]

/-- The first request of a run carries the starting pagination state. -/
theorem Aggregator_loop_head (fuel : Nat) (pg : Paging) (acc : List Availability)
    (pages : Script Page) :
    (Aggregator.loop (fuel + 1) pg acc pages).requests.head? = some pg := by
  unfold Aggregator.loop
  cases pages 0 with
  | error e => simp
  | ok page => dsimp only; split <;> simp

/-- Every request of a run carries the starting page size. -/
theorem Aggregator_loop_take (fuel : Nat) :
    ∀ (pg : Paging) (acc : List Availability) (pages : Script Page),
      ∀ q ∈ (Aggregator.loop fuel pg acc pages).requests, q.Take = pg.Take := by
  induction fuel with
  | zero => intro pg acc pages q hq; simp [Aggregator.loop] at hq
  | succ fuel ih =>
    intro pg acc pages q hq
    unfold Aggregator.loop at hq
    cases hp : pages 0 with
    | error e => simp [hp] at hq; simp [hq]
    | ok page =>
      simp only [hp] at hq
      split at hq
      · simp at hq; simp [hq]
      · simp only [List.mem_cons] at hq
        rcases hq with hq | hq
        · simp [hq]
        · have := ih _ _ _ q hq
          simpa using this

/-- A nonzero cursor is carried by every request of a run. -/
theorem Aggregator_loop_cursor (fuel : Nat) :
    ∀ (pg : Paging) (acc : List Availability) (pages : Script Page), pg.Cursor ≠ 0 →
      ∀ q ∈ (Aggregator.loop fuel pg acc pages).requests, q.Cursor = pg.Cursor := by
  induction fuel with
  | zero => intro pg acc pages _ q hq; simp [Aggregator.loop] at hq
  | succ fuel ih =>
    intro pg acc pages hc q hq
    unfold Aggregator.loop at hq
    cases hp : pages 0 with
    | error e => simp [hp] at hq; simp [hq]
    | ok page =>
      simp only [hp] at hq
      split at hq
      · simp at hq; simp [hq]
      · simp only [List.mem_cons] at hq
        rcases hq with hq | hq
        · simp [hq]
        · have := ih _ _ _ (by simp [hc]) q hq
          simpa [hc] using this

theorem Script.offset_zero (pages : Script Page) : pages.offset 0 = 0 := by
  simp [Script.offset]

theorem Script.offset_succ (pages : Script Page) (n : Nat) :
    pages.offset (n + 1) = (pages.records 0).length + pages.tail.offset n := by
  simp only [Script.offset, List.range_succ_eq_map, List.map_cons, List.map_map, List.sum_cons]
  push_cast
  rfl

theorem List.range_succ_flatMap {α : Type} (f : Nat → List α) (k : Nat) :
    (List.range (k + 1)).flatMap f = f 0 ++ (List.range k).flatMap (fun i => f (i + 1)) := by
  rw [List.range_succ_eq_map, List.flatMap_cons, List.flatMap_map]

/-- A run whose first `k` pages ask for more and whose next page is the first to have
`has_more = false` or no records issues exactly `k + 1` requests and returns the records
gathered so far followed by those of the `k + 1` pages, in order, without failure. -/
theorem Aggregator_loop_terminal (k : Nat) :
    ∀ (fuel : Nat) (pg : Paging) (acc : List Availability) (pages : Script Page)
      (p : Nat → Page),
      (∀ i < k, pages i = .ok (p i) ∧ (p i).HasMore = true ∧ (p i).Data ≠ []) →
      pages k = .ok (p k) → ((p k).HasMore = false ∨ (p k).Data = []) → k < fuel →
      (Aggregator.loop fuel pg acc pages).requests.length = k + 1 ∧
      (Aggregator.loop fuel pg acc pages).result
        = some (acc ++ (List.range (k + 1)).flatMap (fun i => (p i).Data), none) := by
  induction k with
  | zero =>
    intro fuel pg acc pages p _ hk hs hf
    obtain ⟨f, rfl⟩ : ∃ f, fuel = f + 1 := ⟨fuel - 1, by omega⟩
    rw [Aggregator_loop_stop f pg acc pages (p 0) hk hs, List.range_succ_flatMap]
    simp
  | succ k ih =>
    intro fuel pg acc pages p hc hk hs hf
    obtain ⟨f, rfl⟩ : ∃ f, fuel = f + 1 := ⟨fuel - 1, by omega⟩
    obtain ⟨h0, hm, hd⟩ := hc 0 (by omega)
    rw [Aggregator_loop_continue f pg acc pages (p 0) h0 hm hd]
    have := ih f ⟨pg.Take, pg.Skip + (p 0).Data.length,
        if pg.Cursor = 0 then (p 0).Cursor else pg.Cursor⟩ (acc ++ (p 0).Data) pages.tail
      (fun i => p (i + 1)) (fun i hi => hc (i + 1) (by omega)) hk hs (by omega)
    rw [List.range_succ_flatMap]
    simpa [List.append_assoc] using this

/-- A run whose first `n` pages ask for more and whose next fetch fails issues exactly `n + 1`
requests and returns no record together with the failure. -/
theorem Aggregator_loop_failure (n : Nat) :
    ∀ (fuel : Nat) (pg : Paging) (acc : List Availability) (pages : Script Page)
      (p : Nat → Page) (e : Error),
      (∀ i < n, pages i = .ok (p i) ∧ (p i).HasMore = true ∧ (p i).Data ≠ []) →
      pages n = .error e → n < fuel →
      (Aggregator.loop fuel pg acc pages).requests.length = n + 1 ∧
      (Aggregator.loop fuel pg acc pages).result = some ([], some e) := by
  induction n with
  | zero =>
    intro fuel pg acc pages p e _ hk hf
    obtain ⟨f, rfl⟩ : ∃ f, fuel = f + 1 := ⟨fuel - 1, by omega⟩
    rw [Aggregator_loop_error f pg acc pages e hk]
    simp
  | succ n ih =>
    intro fuel pg acc pages p e hc hk hf
    obtain ⟨f, rfl⟩ : ∃ f, fuel = f + 1 := ⟨fuel - 1, by omega⟩
    obtain ⟨h0, hm, hd⟩ := hc 0 (by omega)
    rw [Aggregator_loop_continue f pg acc pages (p 0) h0 hm hd]
    have := ih f ⟨pg.Take, pg.Skip + (p 0).Data.length,
        if pg.Cursor = 0 then (p 0).Cursor else pg.Cursor⟩ (acc ++ (p 0).Data) pages.tail
      (fun i => p (i + 1)) e (fun i hi => hc (i + 1) (by omega)) hk (by omega)
    simpa using this

/-- The offset of the n-th request of a run is the starting offset plus the number of records of
the pages before it. -/
theorem Aggregator_loop_skip (fuel : Nat) :
    ∀ (pg : Paging) (acc : List Availability) (pages : Script Page) (n : Nat) (q : Paging),
      (Aggregator.loop fuel pg acc pages).requests[n]? = some q →
      q.Skip = pg.Skip + pages.offset n := by
  induction fuel with
  | zero => intro pg acc pages n q hq; simp [Aggregator.loop] at hq
  | succ fuel ih =>
    intro pg acc pages n q hq
    cases n with
    | zero =>
      have := Aggregator_loop_head fuel pg acc pages
      rw [List.head?_eq_getElem?, hq] at this
      simp only [Option.some.injEq] at this
      simp [this, Script.offset_zero]
    | succ n =>
      unfold Aggregator.loop at hq
      cases hp : pages 0 with
      | error e => simp [hp] at hq
      | ok page =>
        simp only [hp] at hq
        split at hq
        · simp at hq
        · simp only [List.getElem?_cons_succ] at hq
          have := ih _ _ _ n q hq
          rw [this, Script.offset_succ]
          simp [Script.records, hp, add_assoc]

theorem searchPages_ok (pages : Script SearchResponse) (i : Nat) (r : SearchResponse)
    (h : pages i = .ok r) : searchPages pages i = .ok r.page := by
  simp [searchPages, h, Except.map]

theorem searchPages_error (pages : Script SearchResponse) (i : Nat) (e : Error)
    (h : pages i = .error e) : searchPages pages i = .error e := by
  simp [searchPages, h, Except.map]

theorem availabilityPages_ok (pages : Script AvailabilityResponse) (i : Nat)
    (r : AvailabilityResponse) (h : pages i = .ok r) :
    availabilityPages pages i = .ok r.page := by
  simp [availabilityPages, h, Except.map]

theorem availabilityPages_error (pages : Script AvailabilityResponse) (i : Nat) (e : Error)
    (h : pages i = .error e) : availabilityPages pages i = .error e := by
  simp [availabilityPages, h, Except.map]

/-! ## The aggregators -/

/-- C1: when the pages Search returns are p(0), ..., p(k), all successful, and p(k) is the first
with hasMore = false or with no records, SearchAll returns exactly the records of p(0), ..., p(k)
concatenated in page order and no error, whatever the sizes of the pages; so if the IDs of the
pages are pairwise distinct, no ID occurs twice in the result. -/
theorem SearchAll_returns_every_page_in_order (pages : Script SearchResponse)
    (p : Nat → SearchResponse) (k fuel : Nat) (params : SearchParams)
    (hmore : ∀ i < k, pages i = .ok (p i) ∧ (p i).HasMore = true ∧ (p i).Data ≠ [])
    (hlast : pages k = .ok (p k))
    (hstop : (p k).HasMore = false ∨ (p k).Data = [])
    (hfuel : k < fuel) :
    (SearchAll scripted fuel params pages).result
        = some ((List.range (k + 1)).flatMap (fun i => (p i).Data), none)
    ∧ ((((List.range (k + 1)).flatMap (fun i => (p i).Data)).map (fun a => a.ID)).Nodup →
        ∃ records, (SearchAll scripted fuel params pages).result = some (records, none)
          ∧ (records.map (fun a => a.ID)).Nodup) := by
  have h := Aggregator_loop_terminal k fuel ⟨100, 0, params.Cursor⟩ [] (searchPages pages)
    (fun i => (p i).page)
    (fun i hi => ⟨searchPages_ok pages i _ (hmore i hi).1, (hmore i hi).2.1, (hmore i hi).2.2⟩)
    (searchPages_ok pages k _ hlast) hstop hfuel
  have hres : (SearchAll scripted fuel params pages).result
      = some ((List.range (k + 1)).flatMap (fun i => (p i).Data), none) := by
    rw [(SearchAll_eq_aggregator fuel params pages).2]
    simpa [Aggregator, SearchResponse.page] using h.2
  exact ⟨hres, fun hn => ⟨_, hres, hn⟩⟩

/-- The end-to-end scenario of the specification: pages of 60 and 40 records, hasMore true then
false, give the 100 records in their original order, and no ID twice. -/
theorem SearchAll_returns_every_page_in_order_witness :
    (∀ i < 1, sixtyFortyPages i = .ok (sixtyForty i)
        ∧ (sixtyForty i).HasMore = true ∧ (sixtyForty i).Data ≠ [])
    ∧ sixtyFortyPages 1 = .ok (sixtyForty 1)
    ∧ (sixtyForty 1).HasMore = false
    ∧ (SearchAll scripted 2 sampleSearchParams sixtyFortyPages).result
        = some (sampleRecords 0 60 ++ sampleRecords 60 40, none)
    ∧ (sampleRecords 0 60 ++ sampleRecords 60 40).length = 100
    ∧ ∃ records, (SearchAll scripted 2 sampleSearchParams sixtyFortyPages).result
          = some (records, none)
        ∧ (records.map (fun a => a.ID)).Nodup := by
  have hmore : ∀ i < 1, sixtyFortyPages i = .ok (sixtyForty i)
      ∧ (sixtyForty i).HasMore = true ∧ (sixtyForty i).Data ≠ [] := by
    intro i hi
    obtain rfl : i = 0 := by omega
    exact ⟨rfl, rfl, by decide⟩
  have h := SearchAll_returns_every_page_in_order sixtyFortyPages sixtyForty
    1 2 sampleSearchParams hmore rfl (Or.inl rfl) (by decide)
  refine ⟨hmore, rfl, rfl, ?_, rfl, h.2 (by decide)⟩
  rw [h.1]
  rfl

/-- C2: when the n-th fetch of a run fails (the pages before it all asked for more), SearchAll and
GetAvailabilityAll return no record at all together with exactly that failure, and the failed
request is the last one issued. -/
theorem aggregators_return_nothing_on_failure :
    (∀ (pages : Script SearchResponse) (p : Nat → SearchResponse) (n fuel : Nat)
        (params : SearchParams) (e : Error),
        (∀ i < n, pages i = .ok (p i) ∧ (p i).HasMore = true ∧ (p i).Data ≠ []) →
        pages n = .error e → n < fuel →
        (SearchAll scripted fuel params pages).result = some ([], some e)
          ∧ (SearchAll scripted fuel params pages).requests.length = n + 1)
    ∧ (∀ (pages : Script AvailabilityResponse) (p : Nat → AvailabilityResponse) (n fuel : Nat)
        (params : AvailabilityParams) (e : Error),
        (∀ i < n, pages i = .ok (p i) ∧ (p i).HasMore = true ∧ (p i).Data ≠ []) →
        pages n = .error e → n < fuel →
        (GetAvailabilityAll scripted fuel params pages).result = some ([], some e)
          ∧ (GetAvailabilityAll scripted fuel params pages).requests.length = n + 1) := by
  constructor
  · intro pages p n fuel params e hmore hfail hfuel
    have h := Aggregator_loop_failure n fuel ⟨100, 0, params.Cursor⟩ [] (searchPages pages)
      (fun i => (p i).page) e
      (fun i hi => ⟨searchPages_ok pages i _ (hmore i hi).1, (hmore i hi).2.1, (hmore i hi).2.2⟩)
      (searchPages_error pages n e hfail) hfuel
    have hsim := SearchAll_eq_aggregator fuel params pages
    refine ⟨by rw [hsim.2]; exact h.2, ?_⟩
    have := congrArg List.length hsim.1
    rw [List.length_map] at this
    rw [this]; exact h.1
  · intro pages p n fuel params e hmore hfail hfuel
    have h := Aggregator_loop_failure n fuel ⟨100, 0, params.Cursor⟩ []
      (availabilityPages pages) (fun i => (p i).page) e
      (fun i hi =>
        ⟨availabilityPages_ok pages i _ (hmore i hi).1, (hmore i hi).2.1, (hmore i hi).2.2⟩)
      (availabilityPages_error pages n e hfail) hfuel
    have hsim := GetAvailabilityAll_eq_aggregator fuel params pages
    refine ⟨by rw [hsim.2]; exact h.2, ?_⟩
    have := congrArg List.length hsim.1
    rw [List.length_map] at this
    rw [this]; exact h.1

/-- Page 2 of a 3-page sequence fails: both aggregators return no record and the failure, and
stop after the second request. -/
theorem aggregators_return_nothing_on_failure_witness :
    ((∀ i < 1, failingSearchPages i = .ok (searchPage (sampleRecords 0 2) true 5)
          ∧ (searchPage (sampleRecords 0 2) true 5).HasMore = true
          ∧ (searchPage (sampleRecords 0 2) true 5).Data ≠ [])
      ∧ failingSearchPages 1 = .error "search failed: boom"
      ∧ (SearchAll scripted 3 sampleSearchParams failingSearchPages).result
          = some ([], some "search failed: boom")
      ∧ (SearchAll scripted 3 sampleSearchParams failingSearchPages).requests.length = 2)
    ∧ ((∀ i < 1, failingAvailabilityPages i = .ok (availabilityPage (sampleRecords 0 2) true 5)
          ∧ (availabilityPage (sampleRecords 0 2) true 5).HasMore = true
          ∧ (availabilityPage (sampleRecords 0 2) true 5).Data ≠ [])
      ∧ failingAvailabilityPages 1 = .error "get availability failed: boom"
      ∧ (GetAvailabilityAll scripted 3 sampleAvailabilityParams failingAvailabilityPages).result
          = some ([], some "get availability failed: boom")
      ∧ (GetAvailabilityAll scripted 3 sampleAvailabilityParams
          failingAvailabilityPages).requests.length = 2) := by
  have hS : ∀ i < 1, failingSearchPages i = .ok (searchPage (sampleRecords 0 2) true 5)
      ∧ (searchPage (sampleRecords 0 2) true 5).HasMore = true
      ∧ (searchPage (sampleRecords 0 2) true 5).Data ≠ [] := by
    intro i hi
    obtain rfl : i = 0 := by omega
    exact ⟨rfl, rfl, by decide⟩
  have hA : ∀ i < 1, failingAvailabilityPages i
        = .ok (availabilityPage (sampleRecords 0 2) true 5)
      ∧ (availabilityPage (sampleRecords 0 2) true 5).HasMore = true
      ∧ (availabilityPage (sampleRecords 0 2) true 5).Data ≠ [] := by
    intro i hi
    obtain rfl : i = 0 := by omega
    exact ⟨rfl, rfl, by decide⟩
  exact ⟨⟨hS, rfl, aggregators_return_nothing_on_failure.1 failingSearchPages
      (fun _ => searchPage (sampleRecords 0 2) true 5) 1 3 sampleSearchParams _ hS rfl
      (by decide)⟩,
    ⟨hA, rfl, aggregators_return_nothing_on_failure.2 failingAvailabilityPages
      (fun _ => availabilityPage (sampleRecords 0 2) true 5) 1 3 sampleAvailabilityParams _ hA
      rfl (by decide)⟩⟩

/-- A request of a Go run, seen through its pagination fields, is a request of the algorithm. -/
theorem requests_getElem?_paging {P : Type} (paging : P → Paging) (requests : List P)
    (core : List Paging) (h : requests.map paging = core) (n : Nat) (q : P)
    (hq : requests[n]? = some q) : core[n]? = some (paging q) := by
  rw [← h, List.getElem?_map, hq]
  rfl

/-- C3: in every run of SearchAll and of GetAvailabilityAll the n-th request (counted from 0)
carries as Skip the number of records of the pages before it, 0 for the first request. -/
theorem aggregators_skip_is_records_received :
    (∀ (pages : Script SearchResponse) (params : SearchParams) (fuel n : Nat)
        (q : SearchParams),
        (SearchAll scripted fuel params pages).requests[n]? = some q →
        q.Skip = (searchPages pages).offset n)
    ∧ (∀ (pages : Script AvailabilityResponse) (params : AvailabilityParams) (fuel n : Nat)
        (q : AvailabilityParams),
        (GetAvailabilityAll scripted fuel params pages).requests[n]? = some q →
        q.Skip = (availabilityPages pages).offset n) := by
  constructor
  · intro pages params fuel n q hq
    have h := Aggregator_loop_skip fuel ⟨100, 0, params.Cursor⟩ [] (searchPages pages) n
      q.paging (requests_getElem?_paging _ _ _ (SearchAll_eq_aggregator fuel params pages).1 n q hq)
    simpa [SearchParams.paging] using h
  · intro pages params fuel n q hq
    have h := Aggregator_loop_skip fuel ⟨100, 0, params.Cursor⟩ [] (availabilityPages pages) n
      q.paging (requests_getElem?_paging _ _ _
        (GetAvailabilityAll_eq_aggregator fuel params pages).1 n q hq)
    simpa [AvailabilityParams.paging] using h

/-- After pages of 100 and 37 records that both report hasMore = true, the third request of
either aggregator carries skip = 137, not 200. -/
theorem aggregators_skip_is_records_received_witness :
    ((SearchAll scripted 3 sampleSearchParams unevenSearchPages).requests[2]?
        = some { sampleSearchParams with Take := 100, Skip := 137, Cursor := 5 }
      ∧ (137 : Int) = (searchPages unevenSearchPages).offset 2)
    ∧ ((GetAvailabilityAll scripted 3 sampleAvailabilityParams unevenAvailabilityPages).requests[2]?
        = some { sampleAvailabilityParams with Take := 100, Skip := 137, Cursor := 5 }
      ∧ (137 : Int) = (availabilityPages unevenAvailabilityPages).offset 2) :=
  ⟨⟨rfl, aggregators_skip_is_records_received.1 unevenSearchPages sampleSearchParams 3 2
      { sampleSearchParams with Take := 100, Skip := 137, Cursor := 5 } rfl⟩,
    ⟨rfl, aggregators_skip_is_records_received.2 unevenAvailabilityPages sampleAvailabilityParams
      3 2 { sampleAvailabilityParams with Take := 100, Skip := 137, Cursor := 5 } rfl⟩⟩

/-- A run that starts without a cursor and whose first page returns a nonzero cursor carries
that cursor on every later request. -/
theorem Aggregator_loop_first_cursor (fuel : Nat) (pg : Paging) (acc : List Availability)
    (pages : Script Page) (page : Page) (hc : pg.Cursor = 0) (h0 : pages 0 = .ok page)
    (hne : page.Cursor ≠ 0) (n : Nat) (q : Paging) (hn : 1 ≤ n)
    (hq : (Aggregator.loop fuel pg acc pages).requests[n]? = some q) :
    q.Cursor = page.Cursor := by
  obtain ⟨m, rfl⟩ : ∃ m, n = m + 1 := ⟨n - 1, by omega⟩
  cases fuel with
  | zero => simp [Aggregator.loop] at hq
  | succ fuel =>
    unfold Aggregator.loop at hq
    simp only [h0] at hq
    split at hq
    · simp at hq
    · simp only [List.getElem?_cons_succ, hc, if_true] at hq
      exact Aggregator_loop_cursor fuel ⟨pg.Take, pg.Skip + page.Data.length, page.Cursor⟩ _ _
        hne q (List.getElem?_mem hq)

/-- C4: in a run of SearchAll or GetAvailabilityAll started with Cursor = 0 whose first page
returns a nonzero cursor, every later request carries that cursor, whatever cursors the later
pages return. -/
theorem aggregators_keep_first_cursor :
    (∀ (pages : Script SearchResponse) (params : SearchParams) (fuel : Nat)
        (first : SearchResponse) (n : Nat) (q : SearchParams),
        params.Cursor = 0 → pages 0 = .ok first → first.Cursor ≠ 0 → 1 ≤ n →
        (SearchAll scripted fuel params pages).requests[n]? = some q →
        q.Cursor = first.Cursor)
    ∧ (∀ (pages : Script AvailabilityResponse) (params : AvailabilityParams) (fuel : Nat)
        (first : AvailabilityResponse) (n : Nat) (q : AvailabilityParams),
        params.Cursor = 0 → pages 0 = .ok first → first.Cursor ≠ 0 → 1 ≤ n →
        (GetAvailabilityAll scripted fuel params pages).requests[n]? = some q →
        q.Cursor = first.Cursor) := by
  constructor
  · intro pages params fuel first n q hc h0 hne hn hq
    exact Aggregator_loop_first_cursor fuel ⟨100, 0, params.Cursor⟩ [] (searchPages pages)
      first.page hc (searchPages_ok pages 0 first h0) hne n q.paging hn
      (requests_getElem?_paging _ _ _ (SearchAll_eq_aggregator fuel params pages).1 n q hq)
  · intro pages params fuel first n q hc h0 hne hn hq
    exact Aggregator_loop_first_cursor fuel ⟨100, 0, params.Cursor⟩ []
      (availabilityPages pages) first.page hc (availabilityPages_ok pages 0 first h0) hne n
      q.paging hn
      (requests_getElem?_paging _ _ _ (GetAvailabilityAll_eq_aggregator fuel params pages).1 n q
        hq)

/-- Page 1 returns cursor 5 and page 2 returns cursor 9: the third request of either aggregator
carries cursor 5. -/
theorem aggregators_keep_first_cursor_witness :
    (sampleSearchParams.Cursor = 0
      ∧ unevenSearchPages 0 = .ok (searchPage (sampleRecords 0 100) true 5)
      ∧ unevenSearchPages 1 = .ok (searchPage (sampleRecords 100 37) true 9)
      ∧ (SearchAll scripted 3 sampleSearchParams unevenSearchPages).requests[2]?
          = some { sampleSearchParams with Take := 100, Skip := 137, Cursor := 5 }
      ∧ (5 : Int) = (searchPage (sampleRecords 0 100) true 5).Cursor)
    ∧ (sampleAvailabilityParams.Cursor = 0
      ∧ unevenAvailabilityPages 0 = .ok (availabilityPage (sampleRecords 0 100) true 5)
      ∧ unevenAvailabilityPages 1 = .ok (availabilityPage (sampleRecords 100 37) true 9)
      ∧ (GetAvailabilityAll scripted 3 sampleAvailabilityParams
            unevenAvailabilityPages).requests[2]?
          = some { sampleAvailabilityParams with Take := 100, Skip := 137, Cursor := 5 }
      ∧ (5 : Int) = (availabilityPage (sampleRecords 0 100) true 5).Cursor) :=
  ⟨⟨rfl, rfl, rfl, rfl, aggregators_keep_first_cursor.1 unevenSearchPages sampleSearchParams 3
      (searchPage (sampleRecords 0 100) true 5) 2
      { sampleSearchParams with Take := 100, Skip := 137, Cursor := 5 } rfl rfl (by decide)
      (by decide) rfl⟩,
    ⟨rfl, rfl, rfl, rfl, aggregators_keep_first_cursor.2 unevenAvailabilityPages
      sampleAvailabilityParams 3 (availabilityPage (sampleRecords 0 100) true 5) 2
      { sampleAvailabilityParams with Take := 100, Skip := 137, Cursor := 5 } rfl rfl (by decide)
      (by decide) rfl⟩⟩

/-- C5: the loop of either aggregator stops exactly at the first page whose hasMore is false or
that has no records: when the pages before position k (counted from 0) all ask for more and page
k is such a page, the run ends after exactly k + 1 requests, without failure, with the records
of those k + 1 pages. -/
theorem aggregators_stop_at_first_terminal_page :
    (∀ (pages : Script SearchResponse) (p : Nat → SearchResponse) (k fuel : Nat)
        (params : SearchParams),
        (∀ i < k, pages i = .ok (p i) ∧ (p i).HasMore = true ∧ (p i).Data ≠ []) →
        pages k = .ok (p k) → ((p k).HasMore = false ∨ (p k).Data = []) → k < fuel →
        (SearchAll scripted fuel params pages).requests.length = k + 1
          ∧ (SearchAll scripted fuel params pages).result
              = some ((List.range (k + 1)).flatMap (fun i => (p i).Data), none))
    ∧ (∀ (pages : Script AvailabilityResponse) (p : Nat → AvailabilityResponse) (k fuel : Nat)
        (params : AvailabilityParams),
        (∀ i < k, pages i = .ok (p i) ∧ (p i).HasMore = true ∧ (p i).Data ≠ []) →
        pages k = .ok (p k) → ((p k).HasMore = false ∨ (p k).Data = []) → k < fuel →
        (GetAvailabilityAll scripted fuel params pages).requests.length = k + 1
          ∧ (GetAvailabilityAll scripted fuel params pages).result
              = some ((List.range (k + 1)).flatMap (fun i => (p i).Data), none)) := by
  constructor
  · intro pages p k fuel params hmore hlast hstop hfuel
    have h := Aggregator_loop_terminal k fuel ⟨100, 0, params.Cursor⟩ [] (searchPages pages)
      (fun i => (p i).page)
      (fun i hi => ⟨searchPages_ok pages i _ (hmore i hi).1, (hmore i hi).2.1, (hmore i hi).2.2⟩)
      (searchPages_ok pages k _ hlast) hstop hfuel
    have hsim := SearchAll_eq_aggregator fuel params pages
    have hlen := congrArg List.length hsim.1
    rw [List.length_map] at hlen
    refine ⟨by rw [hlen]; exact h.1, ?_⟩
    rw [hsim.2]
    simpa [Aggregator, SearchResponse.page] using h.2
  · intro pages p k fuel params hmore hlast hstop hfuel
    have h := Aggregator_loop_terminal k fuel ⟨100, 0, params.Cursor⟩ []
      (availabilityPages pages) (fun i => (p i).page)
      (fun i hi =>
        ⟨availabilityPages_ok pages i _ (hmore i hi).1, (hmore i hi).2.1, (hmore i hi).2.2⟩)
      (availabilityPages_ok pages k _ hlast) hstop hfuel
    have hsim := GetAvailabilityAll_eq_aggregator fuel params pages
    have hlen := congrArg List.length hsim.1
    rw [List.length_map] at hlen
    refine ⟨by rw [hlen]; exact h.1, ?_⟩
    rw [hsim.2]
    simpa [Aggregator, AvailabilityResponse.page] using h.2

/-- A first page that is empty with hasMore = true ends the run after one request with no
record and no failure; a page of 100 records followed by an empty page, both with
hasMore = true, ends it after two requests with exactly the 100 records. -/
theorem aggregators_stop_at_first_terminal_page_witness :
    (emptySearchPages 0 = .ok (searchPage [] true 0)
      ∧ (searchPage [] true 0).Data = []
      ∧ (SearchAll scripted 50 sampleSearchParams emptySearchPages).requests.length = 1
      ∧ (SearchAll scripted 50 sampleSearchParams emptySearchPages).result = some ([], none))
    ∧ ((∀ i < 1, fullThenEmptySearchPages i
            = .ok ((fun j => if j = 0 then searchPage (sampleRecords 0 100) true 0
                else searchPage [] true 0) i)
          ∧ ((fun j => if j = 0 then searchPage (sampleRecords 0 100) true 0
                else searchPage [] true 0) i).HasMore = true
          ∧ ((fun j => if j = 0 then searchPage (sampleRecords 0 100) true 0
                else searchPage [] true 0) i).Data ≠ [])
      ∧ fullThenEmptySearchPages 1 = .ok (searchPage [] true 0)
      ∧ (SearchAll scripted 50 sampleSearchParams fullThenEmptySearchPages).requests.length = 2
      ∧ (SearchAll scripted 50 sampleSearchParams fullThenEmptySearchPages).result
          = some (sampleRecords 0 100, none)) := by
  have hmore : ∀ i < 1, fullThenEmptySearchPages i
        = .ok ((fun j => if j = 0 then searchPage (sampleRecords 0 100) true 0
            else searchPage [] true 0) i)
      ∧ ((fun j => if j = 0 then searchPage (sampleRecords 0 100) true 0
            else searchPage [] true 0) i).HasMore = true
      ∧ ((fun j => if j = 0 then searchPage (sampleRecords 0 100) true 0
            else searchPage [] true 0) i).Data ≠ [] := by
    intro i hi
    obtain rfl : i = 0 := by omega
    exact ⟨rfl, rfl, by decide⟩
  have h0 := aggregators_stop_at_first_terminal_page.1 emptySearchPages
    (fun _ => searchPage [] true 0) 0 50 sampleSearchParams (fun i hi => absurd hi (by omega))
    rfl (Or.inr rfl) (by decide)
  have h1 := aggregators_stop_at_first_terminal_page.1 fullThenEmptySearchPages
    (fun j => if j = 0 then searchPage (sampleRecords 0 100) true 0 else searchPage [] true 0)
    1 50 sampleSearchParams hmore rfl (Or.inr rfl) (by decide)
  refine ⟨⟨rfl, rfl, h0.1, ?_⟩, ⟨hmore, rfl, h1.1, ?_⟩⟩
  · rw [h0.2]; rfl
  · rw [h1.2]; rfl

/-- Whatever the page-fetch operation answers, every request of the loop of `SearchAll` keeps the
page size and the filter fields of the record the loop was started with. -/
theorem SearchAll_loop_frame {σ : Type} (search : Fetch σ SearchParams SearchResponse)
    (fuel : Nat) :
    ∀ (params : SearchParams) (acc : List Availability) (w : σ),
      ∀ q ∈ (SearchAll.loop search fuel params acc w).requests,
        q.Take = params.Take ∧ q.OriginAirports = params.OriginAirports
          ∧ q.DestinationAirports = params.DestinationAirports
          ∧ q.StartDate = params.StartDate ∧ q.EndDate = params.EndDate
          ∧ q.Cabin = params.Cabin ∧ q.Sources = params.Sources
          ∧ q.DirectOnly = params.DirectOnly := by
  induction fuel with
  | zero => intro params acc w q hq; simp [SearchAll.loop] at hq
  | succ fuel ih =>
    intro params acc w q hq
    unfold SearchAll.loop at hq
    rcases hs : search params w with ⟨out, w'⟩
    cases out with
    | error e => simp [hs] at hq; simp [hq]
    | ok resp =>
      simp only [hs] at hq
      split at hq
      · simp at hq; simp [hq]
      · simp only [List.mem_cons] at hq
        rcases hq with hq | hq
        · simp [hq]
        · have := ih _ _ _ q hq
          split at this <;> simpa using this

/-- The first request of the loop of `SearchAll` is the record the loop was started with. -/
theorem SearchAll_loop_head {σ : Type} (search : Fetch σ SearchParams SearchResponse)
    (fuel : Nat) (params : SearchParams) (acc : List Availability) (w : σ) :
    (SearchAll.loop search (fuel + 1) params acc w).requests.head? = some params := by
  unfold SearchAll.loop
  rcases hs : search params w with ⟨out, w'⟩
  cases out with
  | error e => simp
  | ok resp => dsimp only; split <;> simp

/-- Whatever the page-fetch operation answers, every request of the loop of `GetAvailabilityAll`
keeps the page size and the filter fields of the record the loop was started with. -/
theorem GetAvailabilityAll_loop_frame {σ : Type}
    (getAvailability : Fetch σ AvailabilityParams AvailabilityResponse) (fuel : Nat) :
    ∀ (params : AvailabilityParams) (acc : List Availability) (w : σ),
      ∀ q ∈ (GetAvailabilityAll.loop getAvailability fuel params acc w).requests,
        q.Take = params.Take ∧ q.Source = params.Source ∧ q.Cabin = params.Cabin
          ∧ q.OriginRegion = params.OriginRegion ∧ q.DestRegion = params.DestRegion
          ∧ q.StartDate = params.StartDate ∧ q.EndDate = params.EndDate := by
  induction fuel with
  | zero => intro params acc w q hq; simp [GetAvailabilityAll.loop] at hq
  | succ fuel ih =>
    intro params acc w q hq
    unfold GetAvailabilityAll.loop at hq
    rcases hs : getAvailability params w with ⟨out, w'⟩
    cases out with
    | error e => simp [hs] at hq; simp [hq]
    | ok resp =>
      simp only [hs] at hq
      split at hq
      · simp at hq; simp [hq]
      · simp only [List.mem_cons] at hq
        rcases hq with hq | hq
        · simp [hq]
        · have := ih _ _ _ q hq
          split at this <;> simpa using this

/-- The first request of the loop of `GetAvailabilityAll` is the record the loop was started
with. -/
theorem GetAvailabilityAll_loop_head {σ : Type}
    (getAvailability : Fetch σ AvailabilityParams AvailabilityResponse)
    (fuel : Nat) (params : AvailabilityParams) (acc : List Availability) (w : σ) :
    (GetAvailabilityAll.loop getAvailability (fuel + 1) params acc w).requests.head?
      = some params := by
  unfold GetAvailabilityAll.loop
  rcases hs : getAvailability params w with ⟨out, w'⟩
  cases out with
  | error e => simp
  | ok resp => dsimp only; split <;> simp

/-- C6: for every caller-supplied parameter record and every server, the first request of
SearchAll / GetAvailabilityAll is the caller's record with Take = 100 and Skip = 0, and every
request of the run has Take = 100 and the caller's filter fields (airports, dates, cabin,
sources, direct-only; respectively source, cabin, regions, dates). -/
theorem aggregators_override_take_and_skip_only :
    (∀ (σ : Type) (search : Fetch σ SearchParams SearchResponse) (fuel : Nat)
        (params : SearchParams) (w : σ),
        (SearchAll search (fuel + 1) params w).requests.head?
            = some { params with Take := 100, Skip := 0 }
        ∧ ∀ q ∈ (SearchAll search fuel params w).requests,
            q.Take = 100 ∧ q.OriginAirports = params.OriginAirports
              ∧ q.DestinationAirports = params.DestinationAirports
              ∧ q.StartDate = params.StartDate ∧ q.EndDate = params.EndDate
              ∧ q.Cabin = params.Cabin ∧ q.Sources = params.Sources
              ∧ q.DirectOnly = params.DirectOnly)
    ∧ (∀ (σ : Type) (getAvailability : Fetch σ AvailabilityParams AvailabilityResponse)
        (fuel : Nat) (params : AvailabilityParams) (w : σ),
        (GetAvailabilityAll getAvailability (fuel + 1) params w).requests.head?
            = some { params with Take := 100, Skip := 0 }
        ∧ ∀ q ∈ (GetAvailabilityAll getAvailability fuel params w).requests,
            q.Take = 100 ∧ q.Source = params.Source ∧ q.Cabin = params.Cabin
              ∧ q.OriginRegion = params.OriginRegion ∧ q.DestRegion = params.DestRegion
              ∧ q.StartDate = params.StartDate ∧ q.EndDate = params.EndDate) := by
  constructor
  · intro σ search fuel params w
    exact ⟨SearchAll_loop_head search fuel _ [] w,
      fun q hq => SearchAll_loop_frame search fuel { params with Take := 100, Skip := 0 } [] w q hq⟩
  · intro σ getAvailability fuel params w
    exact ⟨GetAvailabilityAll_loop_head getAvailability fuel _ [] w,
      fun q hq => GetAvailabilityAll_loop_frame getAvailability fuel
        { params with Take := 100, Skip := 0 } [] w q hq⟩

/-- A caller who passes Take = 500 and Skip = -3: the first request has Take = 100 and Skip = 0,
and the third request of the run still has Take = 100 and the caller's filters. -/
theorem aggregators_override_take_and_skip_only_witness :
    ((SearchAll scripted 3 sampleSearchParams unevenSearchPages).requests.head?
        = some { sampleSearchParams with Take := 100, Skip := 0 }
      ∧ { sampleSearchParams with Take := 100, Skip := 137, Cursor := 5 }
          ∈ (SearchAll scripted 3 sampleSearchParams unevenSearchPages).requests
      ∧ sampleSearchParams.Take = 500 ∧ sampleSearchParams.Skip = -3)
    ∧ ((GetAvailabilityAll scripted 3 sampleAvailabilityParams
          unevenAvailabilityPages).requests.head?
        = some { sampleAvailabilityParams with Take := 100, Skip := 0 }
      ∧ { sampleAvailabilityParams with Take := 100, Skip := 137, Cursor := 5 }
          ∈ (GetAvailabilityAll scripted 3 sampleAvailabilityParams
              unevenAvailabilityPages).requests
      ∧ sampleAvailabilityParams.Take = 500 ∧ sampleAvailabilityParams.Skip = -3) := by
  have hS : (SearchAll scripted 3 sampleSearchParams unevenSearchPages).requests
      = [{ sampleSearchParams with Take := 100, Skip := 0, Cursor := 0 },
          { sampleSearchParams with Take := 100, Skip := 100, Cursor := 5 },
          { sampleSearchParams with Take := 100, Skip := 137, Cursor := 5 }] := rfl
  have hA : (GetAvailabilityAll scripted 3 sampleAvailabilityParams
        unevenAvailabilityPages).requests
      = [{ sampleAvailabilityParams with Take := 100, Skip := 0, Cursor := 0 },
          { sampleAvailabilityParams with Take := 100, Skip := 100, Cursor := 5 },
          { sampleAvailabilityParams with Take := 100, Skip := 137, Cursor := 5 }] := rfl
  have hmS : { sampleSearchParams with Take := 100, Skip := 137, Cursor := 5 }
      ∈ (SearchAll scripted 3 sampleSearchParams unevenSearchPages).requests := by
    rw [hS]; simp
  have hmA : { sampleAvailabilityParams with Take := 100, Skip := 137, Cursor := 5 }
      ∈ (GetAvailabilityAll scripted 3 sampleAvailabilityParams
          unevenAvailabilityPages).requests := by
    rw [hA]; simp
  have kS := aggregators_override_take_and_skip_only.1 _ scripted 2 sampleSearchParams
    unevenSearchPages
  have kA := aggregators_override_take_and_skip_only.2 _ scripted 2 sampleAvailabilityParams
    unevenAvailabilityPages
  exact ⟨⟨kS.1, hmS, rfl, rfl⟩, ⟨kA.1, hmA, rfl, rfl⟩⟩

/-- Whatever the page-fetch operation answers, a nonzero cursor is carried unchanged by every
request of the loop of `SearchAll`. -/
theorem SearchAll_loop_cursor {σ : Type} (search : Fetch σ SearchParams SearchResponse)
    (fuel : Nat) :
    ∀ (params : SearchParams) (acc : List Availability) (w : σ), params.Cursor ≠ 0 →
      ∀ q ∈ (SearchAll.loop search fuel params acc w).requests, q.Cursor = params.Cursor := by
  induction fuel with
  | zero => intro params acc w _ q hq; simp [SearchAll.loop] at hq
  | succ fuel ih =>
    intro params acc w hc q hq
    unfold SearchAll.loop at hq
    rcases hs : search params w with ⟨out, w'⟩
    cases out with
    | error e => simp [hs] at hq; simp [hq]
    | ok resp =>
      simp only [hs] at hq
      split at hq
      · simp at hq; simp [hq]
      · simp only [List.mem_cons] at hq
        rcases hq with hq | hq
        · simp [hq]
        · simp only [beq_iff_eq, hc, if_false] at hq
          exact ih { params with Skip := params.Skip + resp.Data.length } _ _ hc q hq

/-- Whatever the page-fetch operation answers, a nonzero cursor is carried unchanged by every
request of the loop of `GetAvailabilityAll`. -/
theorem GetAvailabilityAll_loop_cursor {σ : Type}
    (getAvailability : Fetch σ AvailabilityParams AvailabilityResponse) (fuel : Nat) :
    ∀ (params : AvailabilityParams) (acc : List Availability) (w : σ), params.Cursor ≠ 0 →
      ∀ q ∈ (GetAvailabilityAll.loop getAvailability fuel params acc w).requests,
        q.Cursor = params.Cursor := by
  induction fuel with
  | zero => intro params acc w _ q hq; simp [GetAvailabilityAll.loop] at hq
  | succ fuel ih =>
    intro params acc w hc q hq
    unfold GetAvailabilityAll.loop at hq
    rcases hs : getAvailability params w with ⟨out, w'⟩
    cases out with
    | error e => simp [hs] at hq; simp [hq]
    | ok resp =>
      simp only [hs] at hq
      split at hq
      · simp at hq; simp [hq]
      · simp only [List.mem_cons] at hq
        rcases hq with hq | hq
        · simp [hq]
        · simp only [beq_iff_eq, hc, if_false] at hq
          exact ih { params with Skip := params.Skip + resp.Data.length } _ _ hc q hq

/-- C7: when SearchAll or GetAvailabilityAll is called with a nonzero Cursor c, every request of
the run carries Cursor = c, whatever the server answers: the reset of Take and Skip leaves the
cursor alone and no cursor returned by a page replaces it. -/
theorem aggregators_keep_caller_cursor :
    (∀ (σ : Type) (search : Fetch σ SearchParams SearchResponse) (fuel : Nat)
        (params : SearchParams) (w : σ), params.Cursor ≠ 0 →
        ∀ q ∈ (SearchAll search fuel params w).requests, q.Cursor = params.Cursor)
    ∧ (∀ (σ : Type) (getAvailability : Fetch σ AvailabilityParams AvailabilityResponse)
        (fuel : Nat) (params : AvailabilityParams) (w : σ), params.Cursor ≠ 0 →
        ∀ q ∈ (GetAvailabilityAll getAvailability fuel params w).requests,
          q.Cursor = params.Cursor) :=
  ⟨fun _ search fuel params w hc q hq =>
      SearchAll_loop_cursor search fuel { params with Take := 100, Skip := 0 } [] w hc q hq,
    fun _ getAvailability fuel params w hc q hq =>
      GetAvailabilityAll_loop_cursor getAvailability fuel { params with Take := 100, Skip := 0 }
        [] w hc q hq⟩

/-- A caller's cursor 7 against pages that return cursors 5 and 9: all three requests of either
aggregator carry cursor 7. -/
theorem aggregators_keep_caller_cursor_witness :
    (cursorSearchParams.Cursor ≠ 0
      ∧ (SearchAll scripted 3 cursorSearchParams unevenSearchPages).requests.map
          (fun q => q.Cursor) = [7, 7, 7]
      ∧ ∀ q ∈ (SearchAll scripted 3 cursorSearchParams unevenSearchPages).requests,
          q.Cursor = cursorSearchParams.Cursor)
    ∧ (cursorAvailabilityParams.Cursor ≠ 0
      ∧ (GetAvailabilityAll scripted 3 cursorAvailabilityParams
          unevenAvailabilityPages).requests.map (fun q => q.Cursor) = [7, 7, 7]
      ∧ ∀ q ∈ (GetAvailabilityAll scripted 3 cursorAvailabilityParams
            unevenAvailabilityPages).requests,
          q.Cursor = cursorAvailabilityParams.Cursor) :=
  ⟨⟨by decide, rfl, aggregators_keep_caller_cursor.1 _ scripted 3 cursorSearchParams
      unevenSearchPages (by decide)⟩,
    ⟨by decide, rfl, aggregators_keep_caller_cursor.2 _ scripted 3 cursorAvailabilityParams
      unevenAvailabilityPages (by decide)⟩⟩

/-- C8: the two aggregators run the same algorithm: started with the same Cursor against the
same sequence of page outcomes (records, hasMore and cursor of each page, or its failure),
SearchAll and GetAvailabilityAll issue the same sequence of (Take, Skip, Cursor) values and
return the same records or the same failure. -/
theorem aggregators_run_same_algorithm (pagesS : Script SearchResponse)
    (pagesA : Script AvailabilityResponse) (paramsS : SearchParams)
    (paramsA : AvailabilityParams) (fuel : Nat)
    (hcursor : paramsS.Cursor = paramsA.Cursor)
    (hpages : ∀ i, (pagesS i).map SearchResponse.page
        = (pagesA i).map AvailabilityResponse.page) :
    (SearchAll scripted fuel paramsS pagesS).requests.map (fun q => (q.Take, q.Skip, q.Cursor))
        = (GetAvailabilityAll scripted fuel paramsA pagesA).requests.map
            (fun q => (q.Take, q.Skip, q.Cursor))
    ∧ (SearchAll scripted fuel paramsS pagesS).result
        = (GetAvailabilityAll scripted fuel paramsA pagesA).result := by
  have hp : searchPages pagesS = availabilityPages pagesA := funext hpages
  have hS := SearchAll_eq_aggregator fuel paramsS pagesS
  have hA := GetAvailabilityAll_eq_aggregator fuel paramsA pagesA
  rw [hp, hcursor] at hS
  refine ⟨?_, hS.2.trans hA.2.symm⟩
  have h := congrArg (List.map (fun g : Paging => (g.Take, g.Skip, g.Cursor)))
    (hS.1.trans hA.1.symm)
  simpa [List.map_map, Function.comp_def, SearchParams.paging, AvailabilityParams.paging]
    using h

/-- The same three pages served to both aggregators: the same (Take, Skip, Cursor) sequence and
the same 140 records. -/
theorem aggregators_run_same_algorithm_witness :
    sampleSearchParams.Cursor = sampleAvailabilityParams.Cursor
    ∧ (∀ i, (unevenSearchPages i).map SearchResponse.page
        = (unevenAvailabilityPages i).map AvailabilityResponse.page)
    ∧ (GetAvailabilityAll scripted 3 sampleAvailabilityParams unevenAvailabilityPages).requests.map
          (fun q => (q.Take, q.Skip, q.Cursor)) = [(100, 0, 0), (100, 100, 5), (100, 137, 5)]
    ∧ (SearchAll scripted 3 sampleSearchParams unevenSearchPages).requests.map
          (fun q => (q.Take, q.Skip, q.Cursor))
        = (GetAvailabilityAll scripted 3 sampleAvailabilityParams
            unevenAvailabilityPages).requests.map (fun q => (q.Take, q.Skip, q.Cursor))
    ∧ (SearchAll scripted 3 sampleSearchParams unevenSearchPages).result
        = (GetAvailabilityAll scripted 3 sampleAvailabilityParams unevenAvailabilityPages).result := by
  have hpages : ∀ i, (unevenSearchPages i).map SearchResponse.page
      = (unevenAvailabilityPages i).map AvailabilityResponse.page := by
    intro i
    rcases i with _ | _ | i <;> rfl
  exact ⟨rfl, hpages, rfl, aggregators_run_same_algorithm unevenSearchPages
    unevenAvailabilityPages sampleSearchParams sampleAvailabilityParams 3 rfl hpages⟩

/-! ## Base-10 text -/

theorem toDigitsCore_length_ge (fuel : Nat) :
    ∀ (n : Nat) (ds : List Char), ds.length + 1 ≤ (Nat.toDigitsCore 10 (fuel + 1) n ds).length := by
  induction fuel with
  | zero =>
    intro n ds
    simp only [Nat.toDigitsCore]
    split <;> simp
  | succ fuel ih =>
    intro n ds
    rw [Nat.toDigitsCore]
    split
    · simp
    · have := ih (n / 10) (Nat.digitChar (n % 10) :: ds)
      simp only [List.length_cons] at this
      omega

/-- The decimal text of a number of two or more digits has at least two characters. -/
theorem toDigits_length_of_ge_ten (n : Nat) (h : 10 ≤ n) : 2 ≤ (Nat.toDigits 10 n).length := by
  obtain ⟨m, rfl⟩ : ∃ m, n = m + 1 := ⟨n - 1, by omega⟩
  rw [Nat.toDigits, Nat.toDigitsCore]
  have hne : (m + 1) / 10 ≠ 0 := by omega
  rw [if_neg hne]
  have := toDigitsCore_length_ge m ((m + 1) / 10) [Nat.digitChar ((m + 1) % 10)]
  simpa using this

/-- The base-10 text of a positive number is neither empty nor `0`. -/
theorem Nat.repr_pos_ne (n : Nat) (h : 0 < n) : Nat.repr n ≠ "0" ∧ Nat.repr n ≠ "" := by
  by_cases h10 : n < 10
  · interval_cases n <;> exact ⟨by decide, by decide⟩
  · have hlen := toDigits_length_of_ge_ten n (by omega)
    have hl : (Nat.repr n).length = (Nat.toDigits 10 n).length := by
      simp [Nat.repr, List.asString, String.length]
    constructor
    · intro h0
      rw [h0] at hl
      have : ("0" : String).length = 1 := by decide
      omega
    · intro h0
      rw [h0] at hl
      have : ("" : String).length = 0 := by decide
      omega

/-- The text `FormatInt` gives a positive number is neither empty nor `0`. -/
theorem strconv.FormatInt_pos_ne (i : Int) (h : 0 < i) :
    strconv.FormatInt i ≠ "0" ∧ strconv.FormatInt i ≠ "" := by
  cases i with
  | ofNat n =>
    have hn : 0 < n := by
      have h' : (0 : Int) < (n : Int) := h
      exact_mod_cast h'
    simpa [strconv.FormatInt] using Nat.repr_pos_ne n hn
  | negSucc n => exact absurd h (by simp [Int.negSucc_lt_zero])

/-! ## Query maps -/

theorem lookup_filter_ne (m : List (String × String)) (k key : String) :
    List.lookup k (m.filter (fun e => e.1 != key)) = if k = key then none else List.lookup k m := by
  induction m with
  | nil => simp
  | cons e m ih =>
    obtain ⟨a, b⟩ := e
    by_cases ha : a = key
    · subst ha
      by_cases hk : k = a
      · subst hk
        simp [List.filter_cons, ih]
      · have hka : (k == a) = false := by simpa using hk
        simp [List.filter_cons, ih, hk, List.lookup_cons, hka]
    · have hne : (a != key) = true := by simpa using ha
      by_cases hk : k = key
      · subst hk
        have hka : (k == a) = false := by
          simp only [beq_eq_false_iff_ne, ne_eq]
          exact fun h => ha h.symm
        simp [List.filter_cons, hne, List.lookup_cons, hka, ih]
      · by_cases hka : k = a
        · subst hka
          simp [List.filter_cons, hne, hk]
        · have hka' : (k == a) = false := by simpa using hka
          simp [List.filter_cons, hne, List.lookup_cons, hka', ih, hk]

/-- Reading a map after an assignment: the assigned key has the new value, every other key keeps
its own. -/
theorem QueryParams.get?_set (m : QueryParams) (key value k : String) :
    (m.set key value).get? k = if k = key then some value else m.get? k := by
  unfold QueryParams.set QueryParams.get?
  rw [List.lookup_append, lookup_filter_ne]
  by_cases hk : k = key
  · subst hk
    simp
  · have hk' : (k == key) = false := by simpa using hk
    simp [hk, List.lookup_cons, hk']

/-- Reading a map after a guarded assignment. -/
theorem QueryParams.get?_ite_set (c : Prop) [Decidable c] (m : QueryParams)
    (key value k : String) :
    (if c then m.set key value else m).get? k
      = if c ∧ k = key then some value else m.get? k := by
  by_cases hc : c <;> simp [hc, QueryParams.get?_set]

theorem QueryParams.get?_nil (k : String) : QueryParams.get? [] k = none := rfl

/-! ## The queries of the page-fetch operations -/

/-- The value `Search` gives the key `cabin`. -/
theorem Search_queryParams_cabin (params : SearchParams) :
    (Search.queryParams params).get? "cabin"
      = if params.Cabin = "" then none else some params.Cabin := by
  simp only [Search.queryParams, QueryParams.get?_ite_set, QueryParams.get?_nil]
  by_cases h : params.Cabin = "" <;> simp [h]

/-- The value `Search` gives the key `direct`. -/
theorem Search_queryParams_direct (params : SearchParams) :
    (Search.queryParams params).get? "direct"
      = if params.DirectOnly = true then some "true" else none := by
  simp only [Search.queryParams, QueryParams.get?_ite_set, QueryParams.get?_nil]
  by_cases h : params.DirectOnly = true <;> simp [h]

/-- C9: the query Search builds has neither a `cabin` nor a `direct` key when Cabin is empty and
DirectOnly is false; it maps `direct` to the text `true` when DirectOnly is true; and it never
maps `direct` to the text `false`. -/
theorem Search_query_omits_empty_cabin_and_false_direct :
    (∀ params : SearchParams, params.Cabin = "" → params.DirectOnly = false →
        (Search.queryParams params).get? "cabin" = none
          ∧ (Search.queryParams params).get? "direct" = none)
    ∧ (∀ params : SearchParams, params.DirectOnly = true →
        (Search.queryParams params).get? "direct" = some "true")
    ∧ (∀ params : SearchParams, (Search.queryParams params).get? "direct" ≠ some "false") := by
  refine ⟨?_, ?_, ?_⟩
  · intro params hc hd
    rw [Search_queryParams_cabin, Search_queryParams_direct]
    simp [hc, hd]
  · intro params hd
    rw [Search_queryParams_direct]
    simp [hd]
  · intro params
    rw [Search_queryParams_direct]
    split
    · simp
    · simp

/-- A search without cabin filter sends neither `cabin` nor `direct`; a direct-only search sends
`direct=true`. -/
theorem Search_query_omits_empty_cabin_and_false_direct_witness :
    (anyCabinSearchParams.Cabin = "" ∧ anyCabinSearchParams.DirectOnly = false
      ∧ Search.queryParams anyCabinSearchParams
          = [("origin_airport", "SFO"), ("destination_airport", "NRT"),
              ("start_date", "2025-03-01"), ("take", "500")]
      ∧ (Search.queryParams anyCabinSearchParams).get? "cabin" = none
      ∧ (Search.queryParams anyCabinSearchParams).get? "direct" = none)
    ∧ (directSearchParams.DirectOnly = true
      ∧ Search.queryParams directSearchParams
          = [("origin_airport", "SFO"), ("destination_airport", "NRT"),
              ("start_date", "2025-03-01"), ("cabin", "business"), ("direct", "true"),
              ("take", "500")]
      ∧ (Search.queryParams directSearchParams).get? "direct" = some "true") :=
  ⟨⟨rfl, rfl, by decide,
      Search_query_omits_empty_cabin_and_false_direct.1 anyCabinSearchParams rfl rfl⟩,
    ⟨rfl, by decide,
      Search_query_omits_empty_cabin_and_false_direct.2.1 directSearchParams rfl⟩⟩

/-- The value `Search` gives the key `take`. -/
theorem Search_queryParams_take (params : SearchParams) :
    (Search.queryParams params).get? "take"
      = if 0 < params.Take then some (strconv.Itoa params.Take) else none := by
  simp only [Search.queryParams, QueryParams.get?_ite_set, QueryParams.get?_nil]
  by_cases h : 0 < params.Take <;> simp [h]

/-- The value `Search` gives the key `skip`. -/
theorem Search_queryParams_skip (params : SearchParams) :
    (Search.queryParams params).get? "skip"
      = if 0 < params.Skip then some (strconv.Itoa params.Skip) else none := by
  simp only [Search.queryParams, QueryParams.get?_ite_set, QueryParams.get?_nil]
  by_cases h : 0 < params.Skip <;> simp [h]

/-- The value `Search` gives the key `cursor`. -/
theorem Search_queryParams_cursor (params : SearchParams) :
    (Search.queryParams params).get? "cursor"
      = if 0 < params.Cursor then some (strconv.FormatInt params.Cursor) else none := by
  simp only [Search.queryParams, QueryParams.get?_ite_set, QueryParams.get?_nil]
  by_cases h : 0 < params.Cursor <;> simp [h]

/-- The value `GetAvailability` gives the key `take`. -/
theorem GetAvailability_queryParams_take (params : AvailabilityParams) :
    (GetAvailability.queryParams params).get? "take"
      = if 0 < params.Take then some (strconv.Itoa params.Take) else none := by
  simp only [GetAvailability.queryParams, QueryParams.get?_ite_set, QueryParams.get?_nil]
  by_cases h : 0 < params.Take <;> simp [h]

/-- The value `GetAvailability` gives the key `skip`. -/
theorem GetAvailability_queryParams_skip (params : AvailabilityParams) :
    (GetAvailability.queryParams params).get? "skip"
      = if 0 < params.Skip then some (strconv.Itoa params.Skip) else none := by
  simp only [GetAvailability.queryParams, QueryParams.get?_ite_set, QueryParams.get?_nil]
  by_cases h : 0 < params.Skip <;> simp [h]

/-- The value `GetAvailability` gives the key `cursor`. -/
theorem GetAvailability_queryParams_cursor (params : AvailabilityParams) :
    (GetAvailability.queryParams params).get? "cursor"
      = if 0 < params.Cursor then some (strconv.FormatInt params.Cursor) else none := by
  simp only [GetAvailability.queryParams, QueryParams.get?_ite_set, QueryParams.get?_nil]
  by_cases h : 0 < params.Cursor <;> simp [h]

/-- A guarded base-10 value of a query is never the text `0` nor the empty text. -/
theorem guarded_FormatInt_ne (i : Int) :
    (if 0 < i then some (strconv.FormatInt i) else none) ≠ some "0"
      ∧ (if 0 < i then some (strconv.FormatInt i) else none) ≠ some "" := by
  by_cases h : 0 < i
  · have := strconv.FormatInt_pos_ne i h
    simp [h, this.1, this.2]
  · simp [h]

/-- C10: in the queries built by Search and by GetAvailability each of the keys take, skip and
cursor is present exactly when its field is greater than 0, its value is then the base-10 text
of the field, and no such key is ever sent with the value 0 or with an empty value. -/
theorem queries_send_pagination_only_when_positive :
    (∀ params : SearchParams,
        ((Search.queryParams params).get? "take"
            = if 0 < params.Take then some (strconv.Itoa params.Take) else none)
        ∧ ((Search.queryParams params).get? "skip"
            = if 0 < params.Skip then some (strconv.Itoa params.Skip) else none)
        ∧ ((Search.queryParams params).get? "cursor"
            = if 0 < params.Cursor then some (strconv.FormatInt params.Cursor) else none)
        ∧ ∀ key ∈ ["take", "skip", "cursor"],
            (Search.queryParams params).get? key ≠ some "0"
              ∧ (Search.queryParams params).get? key ≠ some "")
    ∧ (∀ params : AvailabilityParams,
        ((GetAvailability.queryParams params).get? "take"
            = if 0 < params.Take then some (strconv.Itoa params.Take) else none)
        ∧ ((GetAvailability.queryParams params).get? "skip"
            = if 0 < params.Skip then some (strconv.Itoa params.Skip) else none)
        ∧ ((GetAvailability.queryParams params).get? "cursor"
            = if 0 < params.Cursor then some (strconv.FormatInt params.Cursor) else none)
        ∧ ∀ key ∈ ["take", "skip", "cursor"],
            (GetAvailability.queryParams params).get? key ≠ some "0"
              ∧ (GetAvailability.queryParams params).get? key ≠ some "") := by
  constructor
  · intro params
    refine ⟨Search_queryParams_take params, Search_queryParams_skip params,
      Search_queryParams_cursor params, ?_⟩
    intro key hkey
    simp only [List.mem_cons, List.mem_singleton, List.mem_nil_iff, or_false] at hkey
    rcases hkey with rfl | rfl | rfl
    · rw [Search_queryParams_take]; exact guarded_FormatInt_ne params.Take
    · rw [Search_queryParams_skip]; exact guarded_FormatInt_ne params.Skip
    · rw [Search_queryParams_cursor]; exact guarded_FormatInt_ne params.Cursor
  · intro params
    refine ⟨GetAvailability_queryParams_take params, GetAvailability_queryParams_skip params,
      GetAvailability_queryParams_cursor params, ?_⟩
    intro key hkey
    simp only [List.mem_cons, List.mem_singleton, List.mem_nil_iff, or_false] at hkey
    rcases hkey with rfl | rfl | rfl
    · rw [GetAvailability_queryParams_take]; exact guarded_FormatInt_ne params.Take
    · rw [GetAvailability_queryParams_skip]; exact guarded_FormatInt_ne params.Skip
    · rw [GetAvailability_queryParams_cursor]; exact guarded_FormatInt_ne params.Cursor

/-- The third request of the uneven run (Take 100, Skip 137, Cursor 5) is sent as take=100,
skip=137, cursor=5; the caller's own record (Take 500, Skip -3, Cursor 0) as take=500 alone. -/
theorem queries_send_pagination_only_when_positive_witness :
    ((Search.queryParams { sampleSearchParams with Take := 100, Skip := 137, Cursor := 5 }).get?
        "skip" = some "137"
      ∧ (Search.queryParams sampleSearchParams).get? "skip" = none
      ∧ (Search.queryParams sampleSearchParams).get? "cursor" = none
      ∧ (Search.queryParams sampleSearchParams).get? "take" = some "500")
    ∧ ((GetAvailability.queryParams
          { sampleAvailabilityParams with Take := 100, Skip := 137, Cursor := 5 })
        = [("source", "united"), ("cabin", "J"), ("origin_region", "North America"),
            ("destination_region", "Asia"), ("take", "100"), ("skip", "137"), ("cursor", "5")]
      ∧ (GetAvailability.queryParams sampleAvailabilityParams).get? "skip" = none) := by
  have hS := queries_send_pagination_only_when_positive.1
  have hA := queries_send_pagination_only_when_positive.2
  refine ⟨⟨?_, ?_, ?_, ?_⟩, ⟨by decide, ?_⟩⟩
  · rw [(hS _).2.1]; decide
  · rw [(hS _).2.1]; decide
  · rw [(hS _).2.2.1]; decide
  · rw [(hS _).1]; decide
  · rw [(hA _).2.1]; decide


/-! ## The filters of the page-fetch operations -/

/-- The value `Search` gives the key `origin_airport`. -/
theorem Search_queryParams_origin_airport (params : SearchParams) :
    (Search.queryParams params).get? "origin_airport"
      = if params.OriginAirports = [] then none
        else some (strings.Join params.OriginAirports ",") := by
  simp only [Search.queryParams, QueryParams.get?_ite_set, QueryParams.get?_nil]
  cases h : params.OriginAirports <;> simp

/-- The value `Search` gives the key `destination_airport`. -/
theorem Search_queryParams_destination_airport (params : SearchParams) :
    (Search.queryParams params).get? "destination_airport"
      = if params.DestinationAirports = [] then none
        else some (strings.Join params.DestinationAirports ",") := by
  simp only [Search.queryParams, QueryParams.get?_ite_set, QueryParams.get?_nil]
  cases h : params.DestinationAirports <;> simp

/-- The value `Search` gives the key `source`. -/
theorem Search_queryParams_source (params : SearchParams) :
    (Search.queryParams params).get? "source"
      = if params.Sources = [] then none else some (strings.Join params.Sources ",") := by
  simp only [Search.queryParams, QueryParams.get?_ite_set, QueryParams.get?_nil]
  cases h : params.Sources <;> simp

/-- The value `Search` gives the key `start_date`. -/
theorem Search_queryParams_start_date (params : SearchParams) :
    (Search.queryParams params).get? "start_date"
      = if params.StartDate = "" then none else some params.StartDate := by
  simp only [Search.queryParams, QueryParams.get?_ite_set, QueryParams.get?_nil]
  by_cases h : params.StartDate = "" <;> simp [h]

/-- The value `Search` gives the key `end_date`. -/
theorem Search_queryParams_end_date (params : SearchParams) :
    (Search.queryParams params).get? "end_date"
      = if params.EndDate = "" then none else some params.EndDate := by
  simp only [Search.queryParams, QueryParams.get?_ite_set, QueryParams.get?_nil]
  by_cases h : params.EndDate = "" <;> simp [h]

theorem intercalate_go_append (sep x : String) (rest : List String) :
    ∀ acc : String, String.intercalate.go (x ++ acc) sep rest
      = x ++ String.intercalate.go acc sep rest := by
  induction rest with
  | nil => intro acc; simp [String.intercalate.go]
  | cons a rest ih =>
    intro acc
    simp only [String.intercalate.go]
    rw [String.append_assoc, String.append_assoc, ← String.append_assoc acc, ih]

/-- Joining with a separator: the element itself for one element, and otherwise the first
element, the separator and the rest joined. -/
theorem strings_Join_cons (sep : String) :
    (∀ a, strings.Join [a] sep = a)
    ∧ (∀ a b rest,
        strings.Join (a :: b :: rest) sep = a ++ sep ++ strings.Join (b :: rest) sep) := by
  refine ⟨fun a => rfl, fun a b rest => ?_⟩
  simp only [strings.Join, String.intercalate, String.intercalate.go]
  rw [String.append_assoc, intercalate_go_append, intercalate_go_append, String.append_assoc]

/-- C11: for every SearchParams the query Search builds maps origin_airport,
destination_airport and source to the elements of OriginAirports, DestinationAirports and
Sources joined with a comma in their order when the list is non-empty, and has no such key when
the list is empty; it maps start_date, end_date and cabin to the field itself when the field is
non-empty. -/
theorem Search_query_joins_lists_and_forwards_text (params : SearchParams) :
    ((Search.queryParams params).get? "origin_airport"
        = if params.OriginAirports = [] then none
          else some (strings.Join params.OriginAirports ","))
    ∧ ((Search.queryParams params).get? "destination_airport"
        = if params.DestinationAirports = [] then none
          else some (strings.Join params.DestinationAirports ","))
    ∧ ((Search.queryParams params).get? "source"
        = if params.Sources = [] then none else some (strings.Join params.Sources ","))
    ∧ ((Search.queryParams params).get? "start_date"
        = if params.StartDate = "" then none else some params.StartDate)
    ∧ ((Search.queryParams params).get? "end_date"
        = if params.EndDate = "" then none else some params.EndDate)
    ∧ ((Search.queryParams params).get? "cabin"
        = if params.Cabin = "" then none else some params.Cabin)
    ∧ (∀ a, strings.Join [a] "," = a)
    ∧ (∀ a b rest,
        strings.Join (a :: b :: rest) "," = a ++ "," ++ strings.Join (b :: rest) ",") :=
  ⟨Search_queryParams_origin_airport params, Search_queryParams_destination_airport params,
    Search_queryParams_source params, Search_queryParams_start_date params,
    Search_queryParams_end_date params, Search_queryParams_cabin params,
    (strings_Join_cons ",").1, (strings_Join_cons ",").2⟩

/-- The first example of the search command's help: two origins, two destinations, two
programs. -/
theorem Search_query_joins_lists_and_forwards_text_witness :
    Search.queryParams multiSearchParams
        = [("origin_airport", "SFO,LAX"), ("destination_airport", "NRT,HND"),
            ("start_date", "2024-06-01"), ("end_date", "2024-06-15"), ("cabin", "business"),
            ("source", "united,aeroplan")]
    ∧ (Search.queryParams multiSearchParams).get? "origin_airport" = some "SFO,LAX"
    ∧ (Search.queryParams { multiSearchParams with Sources := [] }).get? "source" = none := by
  have h := Search_query_joins_lists_and_forwards_text multiSearchParams
  have h' := Search_query_joins_lists_and_forwards_text { multiSearchParams with Sources := [] }
  refine ⟨by decide, ?_, ?_⟩
  · rw [h.1]; decide
  · rw [h'.2.2.1]; decide

/-- Every key of the query `GetAvailability` builds, with its value. -/
theorem GetAvailability_queryParams_get? (params : AvailabilityParams) (key : String) :
    (GetAvailability.queryParams params).get? key
      = if key = "cursor" then
          (if 0 < params.Cursor then some (strconv.FormatInt params.Cursor) else none)
        else if key = "skip" then
          (if 0 < params.Skip then some (strconv.Itoa params.Skip) else none)
        else if key = "take" then
          (if 0 < params.Take then some (strconv.Itoa params.Take) else none)
        else if key = "end_date" then
          (if params.EndDate = "" then none else some params.EndDate)
        else if key = "start_date" then
          (if params.StartDate = "" then none else some params.StartDate)
        else if key = "destination_region" then
          (if params.DestRegion = "" then none else some params.DestRegion)
        else if key = "origin_region" then
          (if params.OriginRegion = "" then none else some params.OriginRegion)
        else if key = "cabin" then
          (if params.Cabin = "" then none else some params.Cabin)
        else if key = "source" then
          (if params.Source = "" then none else some params.Source)
        else none := by
  simp only [GetAvailability.queryParams, QueryParams.get?_ite_set, QueryParams.get?_nil]
  by_cases h1 : key = "cursor"
  · subst h1; simp
  by_cases h2 : key = "skip"
  · subst h2; simp
  by_cases h3 : key = "take"
  · subst h3; simp
  by_cases h4 : key = "end_date"
  · subst h4; simp
  by_cases h5 : key = "start_date"
  · subst h5; simp
  by_cases h6 : key = "destination_region"
  · subst h6; simp
  by_cases h7 : key = "origin_region"
  · subst h7; simp
  by_cases h8 : key = "cabin"
  · subst h8; simp
  by_cases h9 : key = "source"
  · subst h9; simp
  simp [h1, h2, h3, h4, h5, h6, h7, h8, h9]


/-- C12: for every AvailabilityParams the query GetAvailability builds maps each of source,
cabin, origin_region, destination_region, start_date and end_date to its field, as it is, exactly
when the field is non-empty, and has no key other than these six and the pagination keys take,
skip and cursor. -/
theorem GetAvailability_query_has_exactly_the_set_filters (params : AvailabilityParams) :
    ((GetAvailability.queryParams params).get? "source"
        = if params.Source = "" then none else some params.Source)
    ∧ ((GetAvailability.queryParams params).get? "cabin"
        = if params.Cabin = "" then none else some params.Cabin)
    ∧ ((GetAvailability.queryParams params).get? "origin_region"
        = if params.OriginRegion = "" then none else some params.OriginRegion)
    ∧ ((GetAvailability.queryParams params).get? "destination_region"
        = if params.DestRegion = "" then none else some params.DestRegion)
    ∧ ((GetAvailability.queryParams params).get? "start_date"
        = if params.StartDate = "" then none else some params.StartDate)
    ∧ ((GetAvailability.queryParams params).get? "end_date"
        = if params.EndDate = "" then none else some params.EndDate)
    ∧ (∀ key, key ∉ ["source", "cabin", "origin_region", "destination_region", "start_date",
          "end_date", "take", "skip", "cursor"] →
        (GetAvailability.queryParams params).get? key = none) := by
  refine ⟨?_, ?_, ?_, ?_, ?_, ?_, ?_⟩
  · rw [GetAvailability_queryParams_get?]; simp
  · rw [GetAvailability_queryParams_get?]; simp
  · rw [GetAvailability_queryParams_get?]; simp
  · rw [GetAvailability_queryParams_get?]; simp
  · rw [GetAvailability_queryParams_get?]; simp
  · rw [GetAvailability_queryParams_get?]; simp
  · intro key hkey
    simp only [List.mem_cons, List.mem_singleton, List.mem_nil_iff, or_false, not_or] at hkey
    rw [GetAvailability_queryParams_get?]
    simp [hkey]

/-- A request with a program and the cabin text `J,F` sends exactly source and cabin, the cabin
text as it is. -/
theorem GetAvailability_query_has_exactly_the_set_filters_witness :
    GetAvailability.queryParams sparseAvailabilityParams
        = [("source", "aeroplan"), ("cabin", "J,F")]
    ∧ (GetAvailability.queryParams sparseAvailabilityParams).get? "cabin" = some "J,F"
    ∧ ("origin_airport" ∉ ["source", "cabin", "origin_region", "destination_region",
          "start_date", "end_date", "take", "skip", "cursor"]
      ∧ (GetAvailability.queryParams sparseAvailabilityParams).get? "origin_airport" = none) := by
  have h := GetAvailability_query_has_exactly_the_set_filters sparseAvailabilityParams
  refine ⟨by decide, ?_, by decide, h.2.2.2.2.2.2 _ (by decide)⟩
  rw [h.2.1]; decide


/-! ## The query string of the transport -/

theorem Values_pairs_append (v w : Values) : Values.pairs (v ++ w) = Values.pairs v ++ Values.pairs w := by
  simp [Values.pairs]

theorem Values_mem_pairs (v : Values) (k x : String) :
    (k, x) ∈ Values.pairs v ↔ ∃ xs, (k, xs) ∈ v ∧ x ∈ xs := by
  simp only [Values.pairs, List.mem_flatMap, List.mem_map, Prod.mk.injEq]
  constructor
  · rintro ⟨⟨k', xs⟩, he, y, hy, rfl, rfl⟩
    exact ⟨xs, he, hy⟩
  · rintro ⟨xs, he, hx⟩
    exact ⟨(k, xs), he, x, hx, rfl, rfl⟩

/-- The pairs after `Add` are the pairs before and the pair added. -/
theorem Values_pairs_Add (v : Values) (key value k x : String) :
    (k, x) ∈ Values.pairs (Values.Add v key value)
      ↔ (k, x) ∈ Values.pairs v ∨ (k = key ∧ x = value) := by
  unfold Values.Add
  split
  · rename_i hany
    simp only [Values_mem_pairs, List.mem_map]
    constructor
    · rintro ⟨xs, ⟨⟨k', ys⟩, he, heq⟩, hx⟩
      by_cases hk : k' = key
      · subst hk
        simp only [beq_self_eq_true, if_true, Prod.mk.injEq] at heq
        obtain ⟨rfl, rfl⟩ := heq
        rcases List.mem_append.1 hx with h | h
        · exact Or.inl ⟨ys, he, h⟩
        · exact Or.inr ⟨rfl, by simpa using h⟩
      · have hk' : (k' == key) = false := by simpa using hk
        simp only [hk', Bool.false_eq_true, if_false, Prod.mk.injEq] at heq
        obtain ⟨rfl, rfl⟩ := heq
        exact Or.inl ⟨ys, he, hx⟩
    · rintro (⟨xs, he, hx⟩ | ⟨rfl, rfl⟩)
      · by_cases hk : k = key
        · subst hk
          exact ⟨xs ++ [value], ⟨(k, xs), he, by simp⟩, by simp [hx]⟩
        · have hk' : (k == key) = false := by simpa using hk
          exact ⟨xs, ⟨(k, xs), he, by simp [hk']⟩, hx⟩
      · simp only [List.any_eq_true, beq_iff_eq] at hany
        obtain ⟨⟨k', ys⟩, he, hk⟩ := hany
        simp only at hk
        subst hk
        exact ⟨ys ++ [x], ⟨(k', ys), he, by simp⟩, by simp⟩
  · rw [Values_pairs_append]
    simp [Values.pairs]

/-- The pairs of the query values after the loop of `doRequest` are the pairs before and the
pairs of the parameter map whose value is not empty. -/
theorem doRequest_query_pairs (params : QueryParams) :
    ∀ (q : Values) (k x : String),
      (k, x) ∈ Values.pairs (doRequest.query q params)
        ↔ (k, x) ∈ Values.pairs q ∨ ((k, x) ∈ params ∧ x ≠ "") := by
  induction params with
  | nil => intro q k x; simp [doRequest.query]
  | cons e params ih =>
    intro q k x
    obtain ⟨a, b⟩ := e
    have hstep : doRequest.query q ((a, b) :: params)
        = doRequest.query (if b != "" then Values.Add q a b else q) params := rfl
    rw [hstep, ih]
    by_cases hb : b = ""
    · subst hb
      simp only [bne_self_eq_false, Bool.false_eq_true, if_false, List.mem_cons, Prod.mk.injEq]
      constructor
      · rintro (h | ⟨h, hx⟩)
        · exact Or.inl h
        · exact Or.inr ⟨Or.inr h, hx⟩
      · rintro (h | ⟨(⟨rfl, rfl⟩ | h), hx⟩)
        · exact Or.inl h
        · exact absurd rfl hx
        · exact Or.inr ⟨h, hx⟩
    · have hb' : (b != "") = true := by simpa using hb
      simp only [hb', if_true, Values_pairs_Add, List.mem_cons, Prod.mk.injEq]
      constructor
      · rintro ((h | ⟨rfl, rfl⟩) | ⟨h, hx⟩)
        · exact Or.inl h
        · exact Or.inr ⟨Or.inl ⟨rfl, rfl⟩, hb⟩
        · exact Or.inr ⟨Or.inr h, hx⟩
      · rintro (h | ⟨(⟨rfl, rfl⟩ | h), hx⟩)
        · exact Or.inl (Or.inl h)
        · exact Or.inl (Or.inr ⟨rfl, rfl⟩)
        · exact Or.inr ⟨h, hx⟩


theorem Values_Add_fresh (v : Values) (key value : String)
    (h : key ∉ v.map Prod.fst) : Values.Add v key value = v ++ [(key, [value])] := by
  unfold Values.Add
  have : v.any (fun e => e.1 == key) = false := by
    rw [List.any_eq_false]
    intro e he hk
    simp only [beq_iff_eq] at hk
    exact h (List.mem_map.2 ⟨e, he, hk⟩)
  simp [this]

/-- On a map (no key twice) and a URL without query of its own, the loop of `doRequest` leaves
exactly the entries with a non-empty value, each key with its single value. -/
theorem doRequest_query_of_map (params : QueryParams) :
    ∀ (q : Values), (params.map Prod.fst).Nodup → (∀ e ∈ params, e.1 ∉ q.map Prod.fst) →
      doRequest.query q params
        = q ++ (params.filter (fun e => e.2 != "")).map (fun e => (e.1, [e.2])) := by
  induction params with
  | nil => intro q _ _; simp [doRequest.query]
  | cons e params ih =>
    intro q hnd hq
    obtain ⟨a, b⟩ := e
    have hstep : doRequest.query q ((a, b) :: params)
        = doRequest.query (if b != "" then Values.Add q a b else q) params := rfl
    simp only [List.map_cons, List.nodup_cons] at hnd
    rw [hstep]
    by_cases hb : b = ""
    · subst hb
      simp only [bne_self_eq_false, Bool.false_eq_true, if_false]
      rw [ih q hnd.2 (fun e he => hq e (List.mem_cons_of_mem _ he))]
      simp [List.filter_cons]
    · have hb' : (b != "") = true := by simpa using hb
      have hfresh : a ∉ q.map Prod.fst := hq (a, b) (List.mem_cons_self _ _)
      simp only [hb', if_true]
      rw [Values_Add_fresh q a b hfresh, ih _ hnd.2]
      · simp [List.filter_cons, hb']
      · intro e he
        simp only [List.map_append, List.map_cons, List.map_nil, List.mem_append,
          List.mem_singleton, not_or]
        refine ⟨hq e (List.mem_cons_of_mem _ he), ?_⟩
        intro heq
        exact hnd.1 (heq ▸ List.mem_map.2 ⟨e, he, rfl⟩)

/-- An entry of a map after an assignment. -/
theorem QueryParams_mem_set (m : QueryParams) (key value k v : String) :
    (k, v) ∈ m.set key value ↔ ((k, v) ∈ m ∧ k ≠ key) ∨ (k = key ∧ v = value) := by
  simp [QueryParams.set, List.mem_filter]

/-- An entry of a map after a guarded assignment. -/
theorem QueryParams_mem_ite_set (c : Prop) [Decidable c] (m : QueryParams)
    (key value k v : String) :
    (k, v) ∈ (if c then m.set key value else m)
      ↔ ((k, v) ∈ m ∧ (c → k ≠ key)) ∨ (c ∧ k = key ∧ v = value) := by
  by_cases hc : c <;> simp [hc, QueryParams_mem_set]

/-- The entry of `origin_airport` in the query of `Search`. -/
theorem Search_queryParams_mem_origin_airport (params : SearchParams) (v : String) :
    ("origin_airport", v) ∈ Search.queryParams params
      ↔ params.OriginAirports ≠ [] ∧ v = strings.Join params.OriginAirports "," := by
  simp only [Search.queryParams, QueryParams_mem_ite_set]
  cases h : params.OriginAirports <;> simp

/-- C13: the raw query `doRequest` sets is the encoding of the query values of the URL with one
pair added for every entry of the parameter map whose value is not empty, and for no other
entry; on a map and a URL without query of its own these are exactly the entries with a
non-empty value. An entry with the empty value is never sent, so `Search` with
OriginAirports = [""] sends no origin_airport; with an empty or nil map the raw query is left
as it was. -/
theorem doRequest_sends_exactly_nonempty_values :
    (∀ (σ : Type) (net : Net σ) (c : Client) (req : Request) (params : QueryParams),
        params ≠ [] →
        (doRequest.request net c req params).RawQuery
          = net.Encode (doRequest.query (net.Query req.RawQuery) params))
    ∧ (∀ (q : Values) (params : QueryParams) (k v : String),
        (k, v) ∈ Values.pairs (doRequest.query q params)
          ↔ (k, v) ∈ Values.pairs q ∨ ((k, v) ∈ params ∧ v ≠ ""))
    ∧ (∀ (params : QueryParams), (params.map Prod.fst).Nodup →
        doRequest.query [] params
          = (params.filter (fun e => e.2 != "")).map (fun e => (e.1, [e.2])))
    ∧ (∀ (params : SearchParams) (v : String), params.OriginAirports = [""] →
        ("origin_airport", v) ∉ Values.pairs (doRequest.query [] (Search.queryParams params)))
    ∧ (∀ (σ : Type) (net : Net σ) (c : Client) (req : Request),
        (doRequest.request net c req []).RawQuery = req.RawQuery) := by
  refine ⟨?_, ?_, ?_, ?_, ?_⟩
  · intro σ net c req params hne
    cases params with
    | nil => exact absurd rfl hne
    | cons e params => simp [doRequest.request]
  · intro q params k v
    exact doRequest_query_pairs params q k v
  · intro params hnd
    have := doRequest_query_of_map params [] hnd (by simp)
    simpa using this
  · intro params v h hmem
    rw [doRequest_query_pairs] at hmem
    rcases hmem with hmem | ⟨hmem, hv⟩
    · simp [Values.pairs] at hmem
    · rw [Search_queryParams_mem_origin_airport, h] at hmem
      exact hv (by rw [hmem.2]; rfl)
  · intro σ net c req
    simp [doRequest.request]


/-- A search whose only origin is the empty text: the map has origin_airport with the empty
value, and the query sent has the four other entries only. -/
theorem doRequest_sends_exactly_nonempty_values_witness :
    Search.queryParams blankOriginSearchParams
        = [("origin_airport", ""), ("destination_airport", "NRT"), ("start_date", "2025-03-01"),
            ("cabin", "business"), ("take", "500")]
    ∧ Search.queryParams blankOriginSearchParams ≠ []
    ∧ ((Search.queryParams blankOriginSearchParams).map Prod.fst).Nodup
    ∧ doRequest.query [] (Search.queryParams blankOriginSearchParams)
        = [("destination_airport", ["NRT"]), ("start_date", ["2025-03-01"]),
            ("cabin", ["business"]), ("take", ["500"])]
    ∧ (doRequest.request sampleNet (NewClient "key")
          { Method := "GET", URL := BaseURL ++ "/search", RawQuery := "", Header := [] }
          (Search.queryParams blankOriginSearchParams)).RawQuery
        = "destination_airport=NRT&start_date=2025-03-01&cabin=business&take=500"
    ∧ blankOriginSearchParams.OriginAirports = [""]
    ∧ ("origin_airport", "")
        ∉ Values.pairs (doRequest.query [] (Search.queryParams blankOriginSearchParams)) := by
  have hne : Search.queryParams blankOriginSearchParams ≠ [] := by decide
  have hnd : ((Search.queryParams blankOriginSearchParams).map Prod.fst).Nodup := by decide
  have h := doRequest_sends_exactly_nonempty_values
  refine ⟨by decide, hne, hnd, ?_, ?_, rfl, h.2.2.2.1 blankOriginSearchParams "" rfl⟩
  · rw [h.2.2.1 _ hnd]; decide
  · rw [h.1 Unit sampleNet _ _ _ hne]; decide


/-! ## Failures of the transport and of the page-fetch operations -/

/-- C14: when the server answers with a status code s outside 200..299 and a body b, `doRequest`
fails with the text "API error (status s): b", which is the text of
`APIError{StatusCode: s, Message: b}.Error()`, and `get` fails with the same text. -/
theorem doRequest_fails_on_non_2xx :
    (∀ (σ : Type) (net : Net σ) (c : Client) (method endpoint : String) (params : QueryParams)
        (w w' : σ) (req : Request) (resp : Response) (body : String),
        net.NewRequest method (c.baseURL ++ endpoint) = .ok req →
        net.Do (doRequest.request net c req params) w = (.ok resp, w') →
        resp.Body = .ok body →
        ¬ (200 ≤ resp.StatusCode ∧ resp.StatusCode < 300) →
        doRequest net c method endpoint params w
            = (.error ("API error (status " ++ strconv.Itoa resp.StatusCode ++ "): " ++ body),
                w')
          ∧ "API error (status " ++ strconv.Itoa resp.StatusCode ++ "): " ++ body
              = APIError.Error { StatusCode := resp.StatusCode, Message := body })
    ∧ (∀ (σ R : Type) (net : Net σ) (unmarshal : String → Except Error R) (c : Client)
        (endpoint : String) (params : QueryParams) (w w' : σ) (req : Request) (resp : Response)
        (body : String),
        net.NewRequest "GET" (c.baseURL ++ endpoint) = .ok req →
        net.Do (doRequest.request net c req params) w = (.ok resp, w') →
        resp.Body = .ok body →
        ¬ (200 ≤ resp.StatusCode ∧ resp.StatusCode < 300) →
        Client.get net unmarshal c endpoint params w
          = (.error (APIError.Error { StatusCode := resp.StatusCode, Message := body }), w')) := by
  have hne : ∀ s : Int, ¬ (200 ≤ s ∧ s < 300) → (s != 200) = true := by
    intro s hs
    simp only [bne_iff_ne, ne_eq]
    intro h
    exact hs (by omega)
  constructor
  · intro σ net c method endpoint params w w' req resp body hreq hdo hbody hstatus
    refine ⟨?_, rfl⟩
    simp [doRequest, hreq, hdo, hbody, hne _ hstatus]
  · intro σ R net unmarshal c endpoint params w w' req resp body hreq hdo hbody hstatus
    simp [Client.get, doRequest, hreq, hdo, hbody, hne _ hstatus, APIError.Error]

/-- A 401 answer with the body `unauthorized`. -/
theorem doRequest_fails_on_non_2xx_witness :
    sampleNet.NewRequest "GET" ((NewClient "key").baseURL ++ "/search")
        = .ok { Method := "GET", URL := BaseURL ++ "/search", RawQuery := "", Header := [] }
    ∧ ¬ (200 ≤ (401 : Int) ∧ (401 : Int) < 300)
    ∧ doRequest (answeringNet 401 "unauthorized") (NewClient "key") "GET" "/search" [] ()
        = (.error "API error (status 401): unauthorized", ())
    ∧ APIError.Error { StatusCode := 401, Message := "unauthorized" }
        = "API error (status 401): unauthorized"
    ∧ Client.get (answeringNet 401 "unauthorized")
          (rejectAll : String → Except Error SearchResponse) (NewClient "key") "/search" [] ()
        = (.error "API error (status 401): unauthorized", ()) := by
  have h1 := doRequest_fails_on_non_2xx.1 Unit (answeringNet 401 "unauthorized")
    (NewClient "key") "GET" "/search" [] () ()
    { Method := "GET", URL := BaseURL ++ "/search", RawQuery := "", Header := [] }
    { StatusCode := 401, Body := .ok "unauthorized" } "unauthorized" rfl rfl rfl (by decide)
  have h2 := doRequest_fails_on_non_2xx.2 Unit SearchResponse (answeringNet 401 "unauthorized")
    rejectAll (NewClient "key") "/search" [] () ()
    { Method := "GET", URL := BaseURL ++ "/search", RawQuery := "", Header := [] }
    { StatusCode := 401, Body := .ok "unauthorized" } "unauthorized" rfl rfl rfl (by decide)
  refine ⟨rfl, by decide, ?_, by decide, ?_⟩
  · rw [h1.1]; rfl
  · rw [h2]; rfl

/-- C15: each page-fetch operation passes a decoded response on as it is and turns a transport
failure with text e into its own failure: "search failed: " + e for Search,
"get availability failed: " + e for GetAvailability, "get routes failed: " + e for GetRoutes and
"get trips failed: " + e for GetTrips; so a failed transport never yields a response. -/
theorem page_fetches_wrap_transport_failures :
    (∀ (σ : Type) (get : Getter σ SearchResponse) (params : SearchParams) (w w' : σ),
        (∀ e, get "/search" (Search.queryParams params) w = (.error e, w') →
          Search get params w = (.error ("search failed: " ++ e), w'))
        ∧ (∀ r, get "/search" (Search.queryParams params) w = (.ok r, w') →
          Search get params w = (.ok r, w')))
    ∧ (∀ (σ : Type) (get : Getter σ AvailabilityResponse) (params : AvailabilityParams)
        (w w' : σ),
        (∀ e, get "/availability" (GetAvailability.queryParams params) w = (.error e, w') →
          GetAvailability get params w = (.error ("get availability failed: " ++ e), w'))
        ∧ (∀ r, get "/availability" (GetAvailability.queryParams params) w = (.ok r, w') →
          GetAvailability get params w = (.ok r, w')))
    ∧ (∀ (σ : Type) (get : Getter σ RoutesResponse) (params : RoutesParams) (w w' : σ),
        (∀ e, get "/routes" (GetRoutes.queryParams params) w = (.error e, w') →
          GetRoutes get params w = (.error ("get routes failed: " ++ e), w'))
        ∧ (∀ r, get "/routes" (GetRoutes.queryParams params) w = (.ok r, w') →
          GetRoutes get params w = (.ok r, w')))
    ∧ (∀ (σ : Type) (get : Getter σ TripsResponse) (availabilityID : String) (w w' : σ),
        (∀ e, get ("/trips/" ++ availabilityID) [] w = (.error e, w') →
          GetTrips get availabilityID w = (.error ("get trips failed: " ++ e), w'))
        ∧ (∀ r, get ("/trips/" ++ availabilityID) [] w = (.ok r, w') →
          GetTrips get availabilityID w = (.ok r, w'))) := by
  refine ⟨?_, ?_, ?_, ?_⟩
  · intro σ get params w w'
    exact ⟨fun e h => by simp [Search, h], fun r h => by simp [Search, h]⟩
  · intro σ get params w w'
    exact ⟨fun e h => by simp [GetAvailability, h], fun r h => by simp [GetAvailability, h]⟩
  · intro σ get params w w'
    exact ⟨fun e h => by simp [GetRoutes, h], fun r h => by simp [GetRoutes, h]⟩
  · intro σ get availabilityID w w'
    exact ⟨fun e h => by simp [GetTrips, h], fun r h => by simp [GetTrips, h]⟩

/-- A transport that fails with `request failed: timeout`, under each of the four operations,
and a transport that answers a page, under Search. -/
theorem page_fetches_wrap_transport_failures_witness :
    (failingGet "request failed: timeout" "/search" (Search.queryParams sampleSearchParams) ()
          = ((.error "request failed: timeout" : Except Error SearchResponse), ())
      ∧ Search (failingGet "request failed: timeout") sampleSearchParams ()
          = (.error "search failed: request failed: timeout", ()))
    ∧ GetAvailability (failingGet "request failed: timeout") sampleAvailabilityParams ()
        = (.error "get availability failed: request failed: timeout", ())
    ∧ GetRoutes (failingGet "request failed: timeout") { Source := "united", Origin := "" } ()
        = (.error "get routes failed: request failed: timeout", ())
    ∧ GetTrips (failingGet "request failed: timeout") "abc123" ()
        = (.error "get trips failed: request failed: timeout", ())
    ∧ (scriptedGet "/search" (Search.queryParams sampleSearchParams) sixtyFortyPages
          = (.ok (sixtyForty 0), sixtyFortyPages.tail)
      ∧ Search scriptedGet sampleSearchParams sixtyFortyPages
          = (.ok (sixtyForty 0), sixtyFortyPages.tail)) := by
  have h := page_fetches_wrap_transport_failures
  exact ⟨⟨rfl, (h.1 Unit _ sampleSearchParams () ()).1 _ rfl⟩,
    (h.2.1 Unit _ sampleAvailabilityParams () ()).1 _ rfl,
    (h.2.2.1 Unit _ { Source := "united", Origin := "" } () ()).1 _ rfl,
    (h.2.2.2 Unit _ "abc123" () ()).1 _ rfl,
    ⟨rfl, (h.1 _ scriptedGet sampleSearchParams sixtyFortyPages sixtyFortyPages.tail).2 _ rfl⟩⟩

end api

namespace cli

open api config

/-! ## The commands of the CLI -/

/-- The writer of every format receives the records it is given. -/
theorem render_data {α : Type} (output : String) (data : List α) :
    (render output data).data = data := by
  unfold render
  split <;> rfl

/-- Whatever the transport failure, the search command returns it with the operation text in
front twice: once from `Search`, once from `runSearch`. -/
theorem runSearch_failure_text {σ : Type} (get : Client → Getter σ SearchResponse)
    (getenv : Environ) (cfg : Config) (flags : SearchFlags) (w w' : σ) (e : Error)
    (hcfg : cfg.Validate getenv = none)
    (hfail : get (NewClient (cfg.GetAPIKey getenv)) "/search"
        (Search.queryParams (runSearch.params flags)) w = (.error e, w')) :
    runSearch get getenv (some cfg) flags w
      = (.error ("search failed: " ++ ("search failed: " ++ e)), w') := by
  simp [runSearch, hcfg, Search, hfail]

/-- C16 fails on the code: a transport failure `request failed: connection refused` reaches
the user of each command with the operation text in front twice, not once. -/
theorem cli_commands_repeat_the_operation_text :
    (runSearch (fun _ => failingGet "request failed: connection refused") emptyEnviron
        (some sampleConfig) sampleSearchFlags ()).1
      = .error "search failed: search failed: request failed: connection refused"
    ∧ (runAvailability (fun _ => failingGet "request failed: connection refused") emptyEnviron
        (some sampleConfig) sampleAvailabilityFlags ()).1
      = .error ("get availability failed: get availability failed: "
          ++ "request failed: connection refused")
    ∧ (runRoutes (fun _ => failingGet "request failed: connection refused") emptyEnviron
        (some sampleConfig) sampleRoutesFlags ()).1
      = .error "get routes failed: get routes failed: request failed: connection refused"
    ∧ (runTrips (fun _ => failingGet "request failed: connection refused") emptyEnviron
        (some sampleConfig) "abc123" "table" ()).1
      = .error "get trips failed: get trips failed: request failed: connection refused" :=
  ⟨rfl, rfl, rfl, rfl⟩

/-- The claim C19 fails on the end-to-end scenario: against pages of 60 and 40 records the
search command hands 60 records to its writer, while `SearchAll` returns all 100. -/
theorem runSearch_renders_first_page_only :
    (runSearch (fun _ => scriptedGet) emptyEnviron (some sampleConfig) sampleSearchFlags
        sixtyFortyPages).1
      = .ok { format := .table, data := sampleRecords 0 60 }
    ∧ (SearchAll (Search scriptedGet) 2 (runSearch.params sampleSearchFlags)
        sixtyFortyPages).result
      = some (sampleRecords 0 60 ++ sampleRecords 60 40, none)
    ∧ ¬ ∃ rendered,
        (runSearch (fun _ => scriptedGet) emptyEnviron (some sampleConfig) sampleSearchFlags
            sixtyFortyPages).1 = .ok rendered
        ∧ (SearchAll (Search scriptedGet) 2 (runSearch.params sampleSearchFlags)
            sixtyFortyPages).result = some (rendered.data, none) := by
  have h1 : (runSearch (fun _ => scriptedGet) emptyEnviron (some sampleConfig) sampleSearchFlags
        sixtyFortyPages).1
      = .ok { format := .table, data := sampleRecords 0 60 } := rfl
  have h2 : (SearchAll (Search scriptedGet) 2 (runSearch.params sampleSearchFlags)
        sixtyFortyPages).result
      = some (sampleRecords 0 60 ++ sampleRecords 60 40, none) := rfl
  refine ⟨h1, h2, ?_⟩
  rintro ⟨rendered, hr, hs⟩
  rw [h1] at hr
  rw [h2] at hs
  injection hr with hr
  subst hr
  have hlen := congrArg (fun o => o.map (fun p => p.1.length)) hs
  revert hlen
  decide

/-- C19, amended: the search command hands to its writer the records of the one page that its
single `Search` call returns, and the availability command those of its single
`GetAvailability` call; this is the whole result of the aggregator when that page is the last
one (hasMore false or no records). -/
theorem cli_commands_render_one_page :
    (∀ (pages : Script SearchResponse) (getenv : Environ) (cfg : Config) (flags : SearchFlags)
        (first : SearchResponse),
        cfg.Validate getenv = none → pages 0 = .ok first →
        (runSearch (fun _ => scriptedGet) getenv (some cfg) flags pages).1
            = .ok (render flags.searchOutput first.Data)
          ∧ (render flags.searchOutput first.Data).data = first.Data
          ∧ ((first.HasMore = false ∨ first.Data = []) →
              ∀ fuel, (SearchAll (Search scriptedGet) (fuel + 1) (runSearch.params flags)
                  pages).result = some (first.Data, none)))
    ∧ (∀ (pages : Script AvailabilityResponse) (getenv : Environ) (cfg : Config)
        (flags : AvailabilityFlags) (first : AvailabilityResponse),
        cfg.Validate getenv = none → pages 0 = .ok first →
        (runAvailability (fun _ => scriptedGet) getenv (some cfg) flags pages).1
            = .ok (render flags.availOutput first.Data)
          ∧ (render flags.availOutput first.Data).data = first.Data
          ∧ ((first.HasMore = false ∨ first.Data = []) →
              ∀ fuel, (GetAvailabilityAll (GetAvailability scriptedGet) (fuel + 1)
                  (runAvailability.params flags) pages).result = some (first.Data, none))) := by
  constructor
  · intro pages getenv cfg flags first hcfg h0
    refine ⟨by simp [runSearch, hcfg, Search, scriptedGet, h0], render_data _ _, ?_⟩
    intro hstop fuel
    rcases hstop with hs | hs <;>
      simp [SearchAll, SearchAll.loop, Search, scriptedGet, h0, hs]
  · intro pages getenv cfg flags first hcfg h0
    refine ⟨by simp [runAvailability, hcfg, GetAvailability, scriptedGet, h0], render_data _ _, ?_⟩
    intro hstop fuel
    rcases hstop with hs | hs <;>
      simp [GetAvailabilityAll, GetAvailabilityAll.loop, GetAvailability, scriptedGet, h0, hs]


/-- Against pages of 60 and 40 records the search command renders the first 60; against a
single last page of three records it renders what `SearchAll` returns. -/
theorem cli_commands_render_one_page_witness :
    (sampleConfig.Validate emptyEnviron = none
      ∧ sixtyFortyPages 0 = .ok (sixtyForty 0)
      ∧ (runSearch (fun _ => scriptedGet) emptyEnviron (some sampleConfig) sampleSearchFlags
          sixtyFortyPages).1 = .ok { format := .table, data := sampleRecords 0 60 })
    ∧ (onePageSearch 0 = .ok (searchPage (sampleRecords 0 3) false 0)
      ∧ (searchPage (sampleRecords 0 3) false 0).HasMore = false
      ∧ (runSearch (fun _ => scriptedGet) emptyEnviron (some sampleConfig) sampleSearchFlags
          onePageSearch).1 = .ok { format := .table, data := sampleRecords 0 3 }
      ∧ (SearchAll (Search scriptedGet) 5 (runSearch.params sampleSearchFlags)
          onePageSearch).result = some (sampleRecords 0 3, none)) := by
  have h1 := cli_commands_render_one_page.1 sixtyFortyPages emptyEnviron sampleConfig
    sampleSearchFlags (sixtyForty 0) rfl rfl
  have h2 := cli_commands_render_one_page.1 onePageSearch emptyEnviron sampleConfig
    sampleSearchFlags (searchPage (sampleRecords 0 3) false 0) rfl rfl
  refine ⟨⟨rfl, rfl, ?_⟩, ⟨rfl, rfl, ?_, ?_⟩⟩
  · rw [h1.1]; rfl
  · rw [h2.1]; rfl
  · rw [h2.2.2 (Or.inl rfl) 4]; rfl

end cli

namespace exporter

open api

/-! ## CSV export -/

/-- The loop over the records only adds to the records handed to the writer so far. -/
theorem ToCSV_rows_traced {σ : Type} (write : csv.Writer σ) (data : List Availability) :
    ∀ (w : σ) (log : List (List String)),
      ∃ more, (ToCSV.rows (csv.traced write) data (w, log)).2.2 = log ++ more := by
  induction data with
  | nil => intro w log; exact ⟨[], by simp [ToCSV.rows]⟩
  | cons a rest ih =>
    intro w log
    unfold ToCSV.rows
    cases hw : (write (ToCSV.row a) w).1 with
    | some err => exact ⟨[ToCSV.row a], by simp [csv.traced, hw]⟩
    | none =>
      obtain ⟨more, hmore⟩ := ih (write (ToCSV.row a) w).2 (log ++ [ToCSV.row a])
      refine ⟨ToCSV.row a :: more, ?_⟩
      simp only [csv.traced, hw]
      rw [hmore]
      simp

/-- C18: for every list of records, the empty list included, and every writer, the first record
`ToCSV` hands to the CSV writer is the header of 21 columns: ID, Date, Origin, Destination,
Source, then Available, Miles, Seats, Direct for each of Y, W, J, F in that order. On a writer
that does not fail the output is the header followed by the rows. -/
theorem ToCSV_writes_the_header_first :
    (∀ (σ : Type) (write : csv.Writer σ) (data : List Availability) (w : σ),
        (ToCSV (csv.traced write) data (w, [])).2.2.head?
          = some [ "ID", "Date", "Origin", "Destination", "Source",
              "Y_Available", "Y_Miles", "Y_Seats", "Y_Direct",
              "W_Available", "W_Miles", "W_Seats", "W_Direct",
              "J_Available", "J_Miles", "J_Seats", "J_Direct",
              "F_Available", "F_Miles", "F_Seats", "F_Direct" ])
    ∧ ToCSV.header.length = 21
    ∧ ToCSV csv.recording [] [] = (none, [ToCSV.header])
    ∧ (∀ (data : List Availability),
        ToCSV csv.recording data [] = (none, ToCSV.header :: data.map ToCSV.row)) := by
  have hrec : ∀ (data : List Availability) (log : List (List String)),
      ToCSV.rows csv.recording data log = (none, log ++ data.map ToCSV.row) := by
    intro data
    induction data with
    | nil => intro log; simp [ToCSV.rows]
    | cons a rest ih =>
      intro log
      simp [ToCSV.rows, csv.recording, ih]
  refine ⟨?_, rfl, rfl, ?_⟩
  · intro σ write data w
    unfold ToCSV
    cases hw : (write ToCSV.header w).1 with
    | some err =>
      simp only [csv.traced, hw]
      rfl
    | none =>
      obtain ⟨more, hmore⟩ := ToCSV_rows_traced write data (write ToCSV.header w).2
        [ToCSV.header]
      simp only [csv.traced, hw, List.nil_append]
      rw [hmore]
      rfl
  · intro data
    simp [ToCSV, csv.recording, hrec]

/-- One record through a writer into memory: the header, then its row; and a writer that
fails at once is still handed the header first. -/
theorem ToCSV_writes_the_header_first_witness :
    ToCSV csv.recording [decodedAvailability "a1"] []
        = (none, [ToCSV.header,
            ["a1", "2025-03-01", "SFO", "NRT", "united", "true", "35000", "4", "true",
              "false", "0", "0", "false", "true", "80000", "2", "true",
              "false", "0", "0", "false"]])
    ∧ (ToCSV (csv.traced (fun _ w => (some "disk full", w))) [decodedAvailability "a1"]
        ((), [])).2.2.head? = some ToCSV.header := by
  refine ⟨?_, ToCSV_writes_the_header_first.1 Unit _ _ ()⟩
  rw [ToCSV_writes_the_header_first.2.2.2]
  decide

end exporter

namespace tui

open api config

/-! ## The terminal UI: a result that arrives after a cancel -/

/-- A result message puts the UI on the results screen with the records of the message,
whatever the view was. -/
theorem Update_searchResultMsg {Table : Type} (b : Bubbles Table) (m : Model Table)
    (results : List Availability) :
    (Model.run b m [.searchResultMsg results]).map (fun m => (m.view, m.results.results))
      = some (.ViewResults, results) := by
  simp [Model.run, Model.Update, ResultsModel.SetResults]

/-- Away from the search screen Esc, q and ctrl+c lead back to it, with no command and nothing
else changed. -/
theorem Update_cancel_key {Table : Type} (b : Bubbles Table) (m : Model Table)
    (h : m.view ≠ .ViewSearch) (key : String)
    (hk : key = "esc" ∨ key = "q" ∨ key = "ctrl+c") :
    Model.run b m [.KeyMsg key] = some { m with view := .ViewSearch } := by
  rcases hk with hk | hk | hk <;> subst hk <;> simp [Model.run, Model.Update, h]

/-- C20: (the code differs) in the loading view Esc, q and ctrl+c each put the UI back on the
search screen, and a `searchResultMsg` that arrives afterwards switches the view to the results
screen, which then holds the records of the message: the view does not stay on the search
screen. Pressing enter on a form with origin and destination is what starts such a search. -/
theorem late_result_leaves_the_search_screen {Table : Type} (b : Bubbles Table)
    (m : Model Table) (h : m.view = .ViewLoading) (key : String)
    (hk : key = "esc" ∨ key = "q" ∨ key = "ctrl+c") (results : List Availability) :
    (Model.run b m [.KeyMsg key]).map (fun m => m.view) = some .ViewSearch
    ∧ (Model.run b m [.KeyMsg key, .searchResultMsg results]).map
        (fun m => (m.view, m.results.results)) = some (.ViewResults, results)
    ∧ (Model.run idleBubbles searchScreen [.KeyMsg "enter"]).map (fun m => m.view)
        = some .ViewLoading := by
  have hne : m.view ≠ .ViewSearch := by rw [h]; decide
  refine ⟨?_, ?_, ?_⟩
  · rcases hk with hk | hk | hk <;> subst hk <;> simp [Model.run, Model.Update, h]
  · rcases hk with hk | hk | hk <;> subst hk <;>
      simp [Model.run, Model.Update, h, ResultsModel.SetResults]
  · rfl

/-- The search from SFO to NRT is in flight, Esc is pressed, and a page of two records arrives:
the UI shows the results screen with the two records; the same after q. -/
theorem late_result_leaves_the_search_screen_witness :
    loadingScreen.view = .ViewLoading
    ∧ (Model.run idleBubbles loadingScreen [.KeyMsg "esc"]).map (fun m => m.view)
        = some .ViewSearch
    ∧ (Model.run idleBubbles loadingScreen
          [.KeyMsg "esc", .searchResultMsg (sampleRecords 0 2)]).map
        (fun m => (m.view, m.results.results)) = some (.ViewResults, sampleRecords 0 2)
    ∧ (Model.run idleBubbles loadingScreen
          [.KeyMsg "q", .searchResultMsg (sampleRecords 0 2)]).map
        (fun m => (m.view, m.results.results)) = some (.ViewResults, sampleRecords 0 2) :=
  ⟨rfl,
   (late_result_leaves_the_search_screen idleBubbles loadingScreen rfl "esc" (Or.inl rfl)
      (sampleRecords 0 2)).1,
   (late_result_leaves_the_search_screen idleBubbles loadingScreen rfl "esc" (Or.inl rfl)
      (sampleRecords 0 2)).2.1,
   (late_result_leaves_the_search_screen idleBubbles loadingScreen rfl "q" (Or.inr (Or.inl rfl))
      (sampleRecords 0 2)).2.1⟩

end tui

namespace config

/-! ## The API key -/

/-- C23: `GetAPIKey` checks the environment first and then the config: it returns the value of
SEATS_AERO_API_KEY whenever that value is non-empty, and otherwise the `APIKey` field of the
config; `Validate` fails if and only if `GetAPIKey` returns the empty text. -/
theorem GetAPIKey_reads_environment_then_config :
    (∀ (c : Config) (getenv : Environ), getenv "SEATS_AERO_API_KEY" ≠ "" →
        c.GetAPIKey getenv = getenv "SEATS_AERO_API_KEY")
    ∧ (∀ (c : Config) (getenv : Environ), getenv "SEATS_AERO_API_KEY" = "" →
        c.GetAPIKey getenv = c.APIKey)
    ∧ (∀ (c : Config) (getenv : Environ),
        (∃ err, c.Validate getenv = some err) ↔ c.GetAPIKey getenv = "")
    ∧ (∀ (c : Config) (getenv : Environ),
        c.Validate getenv = none ↔ c.GetAPIKey getenv ≠ "") := by
  refine ⟨?_, ?_, ?_, ?_⟩
  · intro c getenv h
    simp [Config.GetAPIKey, h]
  · intro c getenv h
    simp [Config.GetAPIKey, h]
  · intro c getenv
    by_cases h : c.GetAPIKey getenv = "" <;> simp [Config.Validate, h]
  · intro c getenv
    by_cases h : c.GetAPIKey getenv = "" <;> simp [Config.Validate, h]

/-- A key in the environment wins over the key of the config; without it the key of the config
is used; with neither, `Validate` fails. -/
theorem GetAPIKey_reads_environment_then_config_witness :
    cli.sampleConfig.GetAPIKey
        (fun name => if name = "SEATS_AERO_API_KEY" then "env_key" else "") = "env_key"
    ∧ cli.sampleConfig.GetAPIKey cli.emptyEnviron = "pro_test_key"
    ∧ ((∃ err, Config.Validate { cli.sampleConfig with APIKey := "" } cli.emptyEnviron
          = some err)
        ↔ Config.GetAPIKey { cli.sampleConfig with APIKey := "" } cli.emptyEnviron = "")
    ∧ Config.GetAPIKey { cli.sampleConfig with APIKey := "" } cli.emptyEnviron = "" :=
  ⟨GetAPIKey_reads_environment_then_config.1 cli.sampleConfig
      (fun name => if name = "SEATS_AERO_API_KEY" then "env_key" else "") (by decide),
   GetAPIKey_reads_environment_then_config.2.1 cli.sampleConfig cli.emptyEnviron (by decide),
   GetAPIKey_reads_environment_then_config.2.2.1 _ cli.emptyEnviron,
   by decide⟩

end config

namespace api

/-! ## The status test of the transport -/

/-- C29: when the server answers with a status code and a body, `doRequest` returns the body
as success if and only if the status is exactly 200; every other status, the other 2xx
statuses such as 201 and 204 included, gives the failure "API error (status N): body" and no
body. -/
theorem doRequest_succeeds_exactly_on_200 :
    (∀ (σ : Type) (net : Net σ) (c : Client) (method endpoint : String) (params : QueryParams)
        (w w' : σ) (req : Request) (resp : Response) (body : String),
        net.NewRequest method (c.baseURL ++ endpoint) = .ok req →
        net.Do (doRequest.request net c req params) w = (.ok resp, w') →
        resp.Body = .ok body →
        (resp.StatusCode = 200 →
          doRequest net c method endpoint params w = (.ok body, w'))
        ∧ (resp.StatusCode ≠ 200 →
          doRequest net c method endpoint params w
            = (.error ("API error (status " ++ strconv.Itoa resp.StatusCode ++ "): " ++ body),
                w'))
        ∧ ((∃ b, (doRequest net c method endpoint params w).1 = .ok b)
            ↔ resp.StatusCode = 200))
    ∧ doRequest (answeringNet 201 "created") (NewClient "key") "GET" "/search" [] ()
        = (.error "API error (status 201): created", ())
    ∧ doRequest (answeringNet 204 "") (NewClient "key") "GET" "/search" [] ()
        = (.error "API error (status 204): ", ()) := by
  refine ⟨?_, rfl, rfl⟩
  intro σ net c method endpoint params w w' req resp body hreq hdo hbody
  by_cases hs : resp.StatusCode = 200
  · have h : doRequest net c method endpoint params w = (.ok body, w') := by
      simp [doRequest, hreq, hdo, hbody, hs]
    exact ⟨fun _ => h, fun hne => absurd hs hne, by simp [h, hs]⟩
  · have h : doRequest net c method endpoint params w
        = (.error ("API error (status " ++ strconv.Itoa resp.StatusCode ++ "): " ++ body),
            w') := by
      simp [doRequest, hreq, hdo, hbody, hs]
    exact ⟨fun h200 => absurd h200 hs, fun _ => h, by simp [h, hs]⟩

/-- A 200 answer gives its body. -/
theorem doRequest_succeeds_exactly_on_200_witness :
    sampleNet.NewRequest "GET" ((NewClient "key").baseURL ++ "/search")
        = .ok { Method := "GET", URL := BaseURL ++ "/search", RawQuery := "", Header := [] }
    ∧ doRequest (answeringNet 200 "body") (NewClient "key") "GET" "/search" [] ()
        = (.ok "body", ()) :=
  ⟨rfl,
   (doRequest_succeeds_exactly_on_200.1 Unit (answeringNet 200 "body") (NewClient "key") "GET"
      "/search" [] () ()
      { Method := "GET", URL := BaseURL ++ "/search", RawQuery := "", Header := [] }
      { StatusCode := 200, Body := .ok "body" } "body" rfl rfl rfl).1 rfl⟩

end api

namespace tui

open api config

/-! ## The search form -/

theorem updateFocus_inputs_length (m : SearchModel) :
    m.updateFocus.1.inputs.length = m.inputs.length := by
  simp [SearchModel.updateFocus]

theorem updateFocus_focused (m : SearchModel) : m.updateFocus.1.focused = m.focused := rfl

theorem NewSearchModel_InRange {Table : Type} (b : Bubbles Table) (cfg : Config) :
    (NewSearchModel b cfg).InRange := by
  simp [SearchModel.InRange, NewSearchModel]

theorem tmod_succ_numFields (n : Int) (h0 : 0 ≤ n) :
    Int.tmod (n + 1) numFields = (n + 1) % 6 := by
  rw [Int.tmod_eq_emod (by omega) (by decide)]
  rfl

theorem tmod_pred_numFields (n : Int) (h0 : 0 ≤ n) :
    Int.tmod (n - 1 + numFields) numFields = (n - 1) % 6 := by
  rw [Int.tmod_eq_emod (by simp [numFields]; omega) (by decide)]
  simp only [numFields]
  omega

/-- A step of the form from an in-range focus, for a move forward. -/
theorem Update_forward {Table : Type} (b : Bubbles Table) (m : SearchModel) (h : m.InRange)
    (key : String) (hk : key = "tab" ∨ key = "down" ∨ key = "j") :
    ∃ m' cmd, m.Update b (.KeyMsg key) = some (m', cmd)
      ∧ m'.focused = (m.focused + 1) % 6 ∧ m'.inputs.length = 6 := by
  obtain ⟨hl, h0, _⟩ := h
  refine ⟨(SearchModel.updateFocus
      { m with focused := Int.tmod (m.focused + 1) numFields }).1,
    (SearchModel.updateFocus { m with focused := Int.tmod (m.focused + 1) numFields }).2,
    ?_, ?_, ?_⟩
  · simp only [SearchModel.Update, hk, if_true]
  · simp only [updateFocus_focused]
    exact tmod_succ_numFields _ h0
  · rw [updateFocus_inputs_length]
    exact hl

/-- A step of the form from an in-range focus, for a move backward. -/
theorem Update_backward {Table : Type} (b : Bubbles Table) (m : SearchModel) (h : m.InRange)
    (key : String) (hk : key = "shift+tab" ∨ key = "up" ∨ key = "k") :
    ∃ m' cmd, m.Update b (.KeyMsg key) = some (m', cmd)
      ∧ m'.focused = (m.focused - 1) % 6 ∧ m'.inputs.length = 6 := by
  obtain ⟨hl, h0, _⟩ := h
  have hn : ¬ (key = "tab" ∨ key = "down" ∨ key = "j") := by
    rcases hk with hk | hk | hk <;> subst hk <;> decide
  refine ⟨(SearchModel.updateFocus
      { m with focused := Int.tmod (m.focused - 1 + numFields) numFields }).1,
    (SearchModel.updateFocus
      { m with focused := Int.tmod (m.focused - 1 + numFields) numFields }).2,
    ?_, ?_, ?_⟩
  · simp only [SearchModel.Update, hn, hk, if_true, if_false]
  · simp only [updateFocus_focused]
    exact tmod_pred_numFields _ h0
  · rw [updateFocus_inputs_length]
    exact hl

/-- Every step of the form from an in-range focus returns, with an in-range focus. -/
theorem Update_InRange {Table : Type} (b : Bubbles Table) (m : SearchModel) (h : m.InRange)
    (msg : Msg) : ∃ m' cmd, m.Update b msg = some (m', cmd) ∧ m'.InRange := by
  have hfocus : ∃ m' cmd,
      (if 0 ≤ m.focused then
        match m.inputs[m.focused.toNat]? with
        | none => none
        | some input =>
          let (input', cmd) := b.inputUpdate input msg
          some ({ m with inputs := m.inputs.set m.focused.toNat input' }, cmd)
      else none) = some (m', cmd) ∧ m'.InRange := by
    obtain ⟨hl, h0, h6⟩ := h
    have hlt : m.focused.toNat < m.inputs.length := by omega
    rw [if_pos h0, List.getElem?_eq_getElem hlt]
    exact ⟨_, _, rfl, by simp [hl], h0, h6⟩
  have hnext : ∀ m1 : SearchModel, m1.inputs = m.inputs →
      m1.focused = Int.tmod (m.focused + 1) numFields → m1.updateFocus.1.InRange := by
    intro m1 hi hf
    obtain ⟨hl, h0, h6⟩ := h
    refine ⟨by rw [updateFocus_inputs_length, hi]; exact hl, ?_, ?_⟩
    · rw [updateFocus_focused, hf, tmod_succ_numFields _ h0]; omega
    · rw [updateFocus_focused, hf, tmod_succ_numFields _ h0]; omega
  cases msg with
  | KeyMsg key =>
    by_cases h1 : key = "tab" ∨ key = "down" ∨ key = "j"
    · obtain ⟨m', cmd, hu, hf, hl⟩ := Update_forward b m h key h1
      exact ⟨m', cmd, hu, hl, by rw [hf]; omega, by rw [hf]; omega⟩
    · by_cases h2 : key = "shift+tab" ∨ key = "up" ∨ key = "k"
      · obtain ⟨m', cmd, hu, hf, hl⟩ := Update_backward b m h key h2
        exact ⟨m', cmd, hu, hl, by rw [hf]; omega, by rw [hf]; omega⟩
      · by_cases h3 : key = "enter"
        · obtain ⟨hl, h0, h6⟩ := h
          rcases hi : m.inputs with _ | ⟨o, _ | ⟨d, rest⟩⟩
          · simp [hi] at hl
          · simp [hi] at hl
          · by_cases hv : o.Value ≠ "" ∧ d.Value ≠ ""
            · refine ⟨{ m with submitted := true }, .nil, ?_, ?_⟩
              · simp only [SearchModel.Update, h1, h2, h3, if_true, if_false, hi, fieldOrigin,
                  fieldDestination, or_true]
                simp [hv]
              · exact ⟨hl, h0, h6⟩
            · refine ⟨(SearchModel.updateFocus
                  { m with focused := Int.tmod (m.focused + 1) numFields }).1,
                (SearchModel.updateFocus
                  { m with focused := Int.tmod (m.focused + 1) numFields }).2, ?_,
                hnext { m with focused := Int.tmod (m.focused + 1) numFields } rfl rfl⟩
              simp only [SearchModel.Update, h1, h2, h3, if_true, if_false, hi, fieldOrigin,
                fieldDestination, or_true]
              simp [hv]
        · simpa only [SearchModel.Update, h1, h2, h3, if_false] using hfocus
  | WindowSizeMsg _ _ => simpa only [SearchModel.Update] using hfocus
  | searchResultMsg _ => simpa only [SearchModel.Update] using hfocus
  | searchErrorMsg _ => simpa only [SearchModel.Update] using hfocus
  | other _ => simpa only [SearchModel.Update] using hfocus

/-- Every run of the form from an in-range focus returns, with an in-range focus. -/
theorem run_InRange {Table : Type} (b : Bubbles Table) (msgs : List Msg) :
    ∀ m : SearchModel, m.InRange → ∃ m', SearchModel.run b m msgs = some m' ∧ m'.InRange := by
  induction msgs with
  | nil => intro m h; exact ⟨m, rfl, h⟩
  | cons msg rest ih =>
    intro m h
    obtain ⟨m1, cmd, hu, h1⟩ := Update_InRange b m h msg
    obtain ⟨m2, hr, h2⟩ := ih m1 h1
    exact ⟨m2, by simp only [SearchModel.run, hu, hr], h2⟩

/-- C30: the search form keeps its focus index in range: for every sequence of key messages,
starting from `NewSearchModel`, every `SearchModel.Update` returns (no index fails) and leaves
0 <= focused < numFields = 6 with six inputs; the statement for a sequence covers the state
after each of its steps, since every prefix is a sequence. From a focus in range tab, down and
j move the focus to (focused + 1) mod 6, shift+tab, up and k to (focused - 1) mod 6, and a
forward move followed by a backward move restores the focus. -/
theorem NewSearchModel_focus_stays_in_range :
    (∀ (Table : Type) (b : Bubbles Table) (cfg : Config) (keys : List String),
        ∃ m, SearchModel.run b (NewSearchModel b cfg) (keys.map Msg.KeyMsg) = some m
          ∧ 0 ≤ m.focused ∧ m.focused < numFields ∧ m.inputs.length = 6)
    ∧ (∀ (Table : Type) (b : Bubbles Table) (m : SearchModel) (key : String), m.InRange →
        key = "tab" ∨ key = "down" ∨ key = "j" →
        ∃ m' cmd, m.Update b (.KeyMsg key) = some (m', cmd)
          ∧ m'.focused = (m.focused + 1) % 6)
    ∧ (∀ (Table : Type) (b : Bubbles Table) (m : SearchModel) (key : String), m.InRange →
        key = "shift+tab" ∨ key = "up" ∨ key = "k" →
        ∃ m' cmd, m.Update b (.KeyMsg key) = some (m', cmd)
          ∧ m'.focused = (m.focused - 1) % 6)
    ∧ (∀ (Table : Type) (b : Bubbles Table) (m : SearchModel) (forward backward : String),
        m.InRange → forward = "tab" ∨ forward = "down" ∨ forward = "j" →
        backward = "shift+tab" ∨ backward = "up" ∨ backward = "k" →
        ∃ m', SearchModel.run b m [.KeyMsg forward, .KeyMsg backward] = some m'
          ∧ m'.focused = m.focused) := by
  refine ⟨?_, ?_, ?_, ?_⟩
  · intro Table b cfg keys
    obtain ⟨m, hr, hl, h0, h6⟩ :=
      run_InRange b (keys.map Msg.KeyMsg) _ (NewSearchModel_InRange b cfg)
    exact ⟨m, hr, h0, h6, hl⟩
  · intro Table b m key h hk
    obtain ⟨m', cmd, hu, hf, _⟩ := Update_forward b m h key hk
    exact ⟨m', cmd, hu, hf⟩
  · intro Table b m key h hk
    obtain ⟨m', cmd, hu, hf, _⟩ := Update_backward b m h key hk
    exact ⟨m', cmd, hu, hf⟩
  · intro Table b m forward backward h hf hb
    obtain ⟨m1, cmd1, hu1, hf1, hl1⟩ := Update_forward b m h forward hf
    have h1 : m1.InRange := ⟨hl1, by rw [hf1]; omega, by rw [hf1]; omega⟩
    obtain ⟨m2, cmd2, hu2, hf2, _⟩ := Update_backward b m1 h1 backward hb
    refine ⟨m2, by simp only [SearchModel.run, hu1, hu2], ?_⟩
    obtain ⟨_, h0, h6⟩ := h
    rw [hf2, hf1]
    omega

/-- From the new form k moves the focus to the last input, 5, and tab on from there to the
first; typing a letter and pressing enter on the empty form keep the focus in range. -/
theorem NewSearchModel_focus_stays_in_range_witness :
    (NewSearchModel idleBubbles cli.sampleConfig).InRange
    ∧ (SearchModel.run idleBubbles (NewSearchModel idleBubbles cli.sampleConfig)
          [.KeyMsg "k"]).map (fun m => m.focused) = some 5
    ∧ (SearchModel.run idleBubbles (NewSearchModel idleBubbles cli.sampleConfig)
          [.KeyMsg "k", .KeyMsg "tab", .KeyMsg "x", .KeyMsg "enter"]).map
        (fun m => m.focused) = some 1
    ∧ ∃ m' cmd, (NewSearchModel idleBubbles cli.sampleConfig).Update idleBubbles (.KeyMsg "k")
          = some (m', cmd)
        ∧ m'.focused = ((NewSearchModel idleBubbles cli.sampleConfig).focused - 1) % 6 :=
  ⟨⟨rfl, by decide, by decide⟩, by decide, by decide,
   NewSearchModel_focus_stays_in_range.2.2.1 Unit idleBubbles
     (NewSearchModel idleBubbles cli.sampleConfig) "k" ⟨rfl, by decide, by decide⟩
     (Or.inr (Or.inr rfl))⟩

/-- A form of six inputs gives a parameter record. -/
theorem GetSearchParams_of_six_inputs (m : SearchModel) (h : m.inputs.length = 6) :
    ∃ params, m.GetSearchParams = some params := by
  rcases hi : m.inputs with _ | ⟨a, _ | ⟨b, _ | ⟨c, _ | ⟨d, _ | ⟨e, _ | ⟨f, rest⟩⟩⟩⟩⟩⟩ <;>
    simp [hi] at h
  subst h
  simp [SearchModel.GetSearchParams, hi, fieldOrigin, fieldDestination, fieldStartDate,
    fieldEndDate, fieldCabin, fieldSource]

/-- C21: when the search of the TUI fails, the UI goes to the error display: the function
`doSearch` returns turns a failure of `Search` with error e into `searchErrorMsg` carrying e
(so never into a `searchResultMsg`), it does produce a message for every form of six inputs,
and `Model.Update` on a `searchErrorMsg`, from any view, sets view = ViewError and stores
exactly that error, changing nothing else and returning no command. -/
theorem search_failure_leads_to_the_error_view :
    (∀ (σ : Type) (get : Client → Getter σ SearchResponse) (client : Client)
        (search : SearchModel) (params : SearchParams) (w w' : σ) (e : Error),
        search.GetSearchParams = some params →
        Search (get client) params w = (.error e, w') →
        doSearch.run get client search w = some (.searchErrorMsg e, w'))
    ∧ (∀ (σ : Type) (get : Client → Getter σ SearchResponse) (client : Client)
        (search : SearchModel) (w : σ), search.inputs.length = 6 →
        ∃ msg w', doSearch.run get client search w = some (msg, w'))
    ∧ (∀ (Table : Type) (b : Bubbles Table) (m : Model Table) (err : Error),
        m.Update b (.searchErrorMsg err)
          = some ({ m with err := some err, view := .ViewError }, .nil, [])) := by
  refine ⟨?_, ?_, ?_⟩
  · intro σ get client search params w w' e hp hs
    simp [doSearch.run, hp, hs]
  · intro σ get client search w hl
    obtain ⟨params, hp⟩ := GetSearchParams_of_six_inputs search hl
    rcases hs : Search (get client) params w with ⟨r, w'⟩
    cases r with
    | error e => exact ⟨.searchErrorMsg e, w', by simp [doSearch.run, hp, hs]⟩
    | ok resp => exact ⟨.searchResultMsg resp.Data, w', by simp [doSearch.run, hp, hs]⟩
  · intro Table b m err
    rfl

/-- The search from SFO to NRT against a transport that refuses the connection: the message is
a `searchErrorMsg` with the text of the failed search, and `Update` shows the error view. -/
theorem search_failure_leads_to_the_error_view_witness :
    doSearch.run (fun _ => failingGet "request failed: connection refused")
        (NewClient "pro_test_key") filledForm ()
      = some (.searchErrorMsg "search failed: request failed: connection refused", ())
    ∧ (Model.run idleBubbles loadingScreen
          [.searchErrorMsg "search failed: request failed: connection refused"]).map
        (fun m => (m.view, m.err))
      = some (.ViewError, some "search failed: request failed: connection refused") :=
  ⟨search_failure_leads_to_the_error_view.1 Unit
      (fun _ => failingGet "request failed: connection refused") (NewClient "pro_test_key")
      filledForm
      { OriginAirports := ["SFO"], DestinationAirports := ["NRT"], StartDate := "",
        EndDate := "", Cabin := "", Sources := [], DirectOnly := false, Take := 0, Skip := 0,
        Cursor := 0 }
      () () "search failed: request failed: connection refused" (by decide) rfl,
   by decide⟩

/-- C25: (the code differs) a form whose origin is a single space, or a single comma, and
whose destination is NRT is marked submitted by Enter, and the parameter record
`GetSearchParams` builds from the same form has an empty `OriginAirports` list: the
required-field check compares the raw text with the empty text, while the parser drops the
pieces that are empty after trimming. -/
theorem submitted_form_has_no_origin_airports :
    (blankOriginForm.Update idleBubbles (.KeyMsg "enter")).map
        (fun r => (r.1.submitted, r.1.GetSearchParams.map
          (fun p => (p.OriginAirports, p.DestinationAirports))))
      = some (true, some ([], ["NRT"]))
    ∧ (SearchModel.Update idleBubbles
          { blankOriginForm with
            inputs := [sampleInput "," true, sampleInput " , " false, sampleInput "" false,
              sampleInput "" false, sampleInput "" false, sampleInput "" false] }
          (.KeyMsg "enter")).map
        (fun r => (r.1.submitted, r.1.GetSearchParams.map
          (fun p => (p.OriginAirports, p.DestinationAirports))))
      = some (true, some ([], []))
    ∧ parseInputCSV " " = [] ∧ parseInputCSV "," = [] := by
  decide

end tui

namespace cli

open api config

/-! ## The table cell of a cabin, and the programs of a search -/

/-- C24: (the code differs) `formatCabinInfo` returns "-" when the cabin is not available and
"(seats)" when the miles are "" or "0"; for other miles of at least three bytes it returns the
miles without their last three bytes followed by "k"; for other miles of fewer than three
bytes, such as "50", the slice bound is negative and the function fails instead of returning,
where `formatMiles` of the TUI checks the length and returns the miles as they are. -/
theorem formatCabinInfo_fails_on_short_miles :
    (∀ (miles : String) (seats : Int), formatCabinInfo false miles seats = some "-")
    ∧ (∀ (seats : Int),
        formatCabinInfo true "" seats = some ("(" ++ strconv.Itoa seats ++ ")")
        ∧ formatCabinInfo true "0" seats = some ("(" ++ strconv.Itoa seats ++ ")"))
    ∧ (∀ (miles : String) (seats : Int), miles ≠ "" → miles ≠ "0" → 3 ≤ miles.utf8ByteSize →
        formatCabinInfo true miles seats
          = some (miles.extract 0 ⟨miles.utf8ByteSize - 3⟩ ++ "k"))
    ∧ (∀ (miles : String) (seats : Int), miles ≠ "" → miles ≠ "0" → miles.utf8ByteSize < 3 →
        formatCabinInfo true miles seats = none)
    ∧ formatCabinInfo true "50" 2 = none
    ∧ tui.formatCabin true "50" 2 = "50 (2)" := by
  refine ⟨?_, ?_, ?_, ?_, by decide, by decide⟩
  · intro miles seats
    simp [formatCabinInfo]
  · intro seats
    simp [formatCabinInfo]
  · intro miles seats h1 h2 h3
    simp [formatCabinInfo, h1, h2, Nat.not_lt.mpr h3]
  · intro miles seats h1 h2 h3
    simp [formatCabinInfo, h1, h2, h3]

/-- A cell for 50000 miles and a cell for 50 miles. -/
theorem formatCabinInfo_fails_on_short_miles_witness :
    formatCabinInfo true "50000" 2 = some "50k" ∧ formatCabinInfo true "7" 1 = none :=
  ⟨(formatCabinInfo_fails_on_short_miles.2.2.1 "50000" 2 (by decide) (by decide)
      (by decide)).trans (by decide),
   formatCabinInfo_fails_on_short_miles.2.2.2.1 "7" 1 (by decide) (by decide) (by decide)⟩

/-- C26: (the code differs) for the source text `united,aeroplan` the search command puts the
upper-case names UNITED, AEROPLAN in its request, because `parseCSV` upper-cases, while the
guided search and the TUI build the lower-case names united, aeroplan from the same text;
the availability command lower-cases its source, and `ValidSources` holds the lower-case
names only. -/
theorem search_command_upper_cases_sources :
    (runSearch.params { sampleSearchFlags with searchSource := "united,aeroplan" }).Sources
      = ["UNITED", "AEROPLAN"]
    ∧ (Search.queryParams
        (runSearch.params { sampleSearchFlags with searchSource := "united,aeroplan" })).get?
          "source" = some "UNITED,AEROPLAN"
    ∧ (runGuidedSearch.params "SFO" "NRT" "" "" "" "united,aeroplan").Sources
      = ["united", "aeroplan"]
    ∧ (tui.SearchModel.GetSearchParams
          { tui.filledForm with
            inputs := [tui.sampleInput "SFO" true, tui.sampleInput "NRT" false,
              tui.sampleInput "" false, tui.sampleInput "" false, tui.sampleInput "" false,
              tui.sampleInput "united,aeroplan" false] }).map (fun p => p.Sources)
      = some ["united", "aeroplan"]
    ∧ (runAvailability.params { sampleAvailabilityFlags with availSource := "United" }).Source
      = "united"
    ∧ "united" ∈ ValidSources ∧ "aeroplan" ∈ ValidSources
    ∧ "UNITED" ∉ ValidSources ∧ "AEROPLAN" ∉ ValidSources := by
  decide

end cli

namespace exporter

open api

/-! ## The rows of the CSV exporters -/

/-- When no write fails, the loop of `ToCSV` hands one row per record to the writer. -/
theorem ToCSV_rows_traced_none {σ : Type} (write : csv.Writer σ) (data : List Availability) :
    ∀ (w : σ) (log : List (List String)),
      (ToCSV.rows (csv.traced write) data (w, log)).1 = none →
      (ToCSV.rows (csv.traced write) data (w, log)).2.2 = log ++ data.map ToCSV.row := by
  induction data with
  | nil => intro w log _; simp [ToCSV.rows]
  | cons a rest ih =>
    intro w log
    unfold ToCSV.rows
    cases hw : (write (ToCSV.row a) w).1 with
    | some err => simp [csv.traced, hw]
    | none =>
      simp only [csv.traced, hw]
      intro h
      rw [ih _ _ h]
      simp

/-- When no write fails, the loop of `TripsToCSV` hands one row per trip to the writer. -/
theorem TripsToCSV_rows_traced_none {σ : Type} (Format : Time → String → String)
    (write : csv.Writer σ) (data : List Trip) :
    ∀ (w : σ) (log : List (List String)),
      (TripsToCSV.rows Format (csv.traced write) data (w, log)).1 = none →
      (TripsToCSV.rows Format (csv.traced write) data (w, log)).2.2
        = log ++ data.map (TripsToCSV.row Format) := by
  induction data with
  | nil => intro w log _; simp [TripsToCSV.rows]
  | cons a rest ih =>
    intro w log
    unfold TripsToCSV.rows
    cases hw : (write (TripsToCSV.row Format a) w).1 with
    | some err => simp [csv.traced, hw]
    | none =>
      simp only [csv.traced, hw]
      intro h
      rw [ih _ _ h]
      simp

/-- When no write fails, the loop of `RoutesToCSV` hands one row per route to the writer. -/
theorem RoutesToCSV_rows_traced_none {σ : Type} (write : csv.Writer σ) (data : List Route) :
    ∀ (w : σ) (log : List (List String)),
      (RoutesToCSV.rows (csv.traced write) data (w, log)).1 = none →
      (RoutesToCSV.rows (csv.traced write) data (w, log)).2.2
        = log ++ data.map RoutesToCSV.row := by
  induction data with
  | nil => intro w log _; simp [RoutesToCSV.rows]
  | cons a rest ih =>
    intro w log
    unfold RoutesToCSV.rows
    cases hw : (write (RoutesToCSV.row a) w).1 with
    | some err => simp [csv.traced, hw]
    | none =>
      simp only [csv.traced, hw]
      intro h
      rw [ih _ _ h]
      simp

/-- C28: each CSV exporter that returns without an error has handed to its writer one header
row followed by exactly one row per input record, in input order, so len(data) + 1 records;
every data row has as many fields as the header, 21 for `ToCSV`, 12 for `TripsToCSV` and 5 for
`RoutesToCSV`; and in `ToCSV` the row of a record starts with its ID, Date, Route origin, Route
destination and Source. -/
theorem csv_exporters_write_one_row_per_record :
    (∀ (σ : Type) (write : csv.Writer σ) (data : List Availability) (w : σ),
        (ToCSV (csv.traced write) data (w, [])).1 = none →
        (ToCSV (csv.traced write) data (w, [])).2.2 = ToCSV.header :: data.map ToCSV.row
        ∧ (ToCSV (csv.traced write) data (w, [])).2.2.length = data.length + 1)
    ∧ (∀ (σ : Type) (Format : Time → String → String) (write : csv.Writer σ)
        (data : List Trip) (w : σ),
        (TripsToCSV Format (csv.traced write) data (w, [])).1 = none →
        (TripsToCSV Format (csv.traced write) data (w, [])).2.2
            = TripsToCSV.header :: data.map (TripsToCSV.row Format)
        ∧ (TripsToCSV Format (csv.traced write) data (w, [])).2.2.length = data.length + 1)
    ∧ (∀ (σ : Type) (write : csv.Writer σ) (data : List Route) (w : σ),
        (RoutesToCSV (csv.traced write) data (w, [])).1 = none →
        (RoutesToCSV (csv.traced write) data (w, [])).2.2
            = RoutesToCSV.header :: data.map RoutesToCSV.row
        ∧ (RoutesToCSV (csv.traced write) data (w, [])).2.2.length = data.length + 1)
    ∧ (ToCSV.header.length = 21 ∧ ∀ a : Availability, (ToCSV.row a).length = 21)
    ∧ (TripsToCSV.header.length = 12
        ∧ ∀ (Format : Time → String → String) (t : Trip),
          (TripsToCSV.row Format t).length = 12)
    ∧ (RoutesToCSV.header.length = 5 ∧ ∀ r : Route, (RoutesToCSV.row r).length = 5)
    ∧ (∀ (data : List Availability) (i : Nat) (h : i < data.length),
        (ToCSV.header :: data.map ToCSV.row)[i + 1]? = some (ToCSV.row data[i])
        ∧ (ToCSV.row data[i]).take 5
            = [data[i].ID, data[i].Date, data[i].Route.OriginAirport,
                data[i].Route.DestinationAirport, data[i].Source]) := by
  refine ⟨?_, ?_, ?_, ⟨rfl, fun _ => rfl⟩, ⟨rfl, fun _ _ => rfl⟩, ⟨rfl, fun _ => rfl⟩, ?_⟩
  · intro σ write data w
    unfold ToCSV
    cases hw : (write ToCSV.header w).1 with
    | some err => simp [csv.traced, hw]
    | none =>
      simp only [csv.traced, hw, List.nil_append]
      intro h
      rw [ToCSV_rows_traced_none write data _ _ h]
      simp
  · intro σ Format write data w
    unfold TripsToCSV
    cases hw : (write TripsToCSV.header w).1 with
    | some err => simp [csv.traced, hw]
    | none =>
      simp only [csv.traced, hw, List.nil_append]
      intro h
      rw [TripsToCSV_rows_traced_none Format write data _ _ h]
      simp
  · intro σ write data w
    unfold RoutesToCSV
    cases hw : (write RoutesToCSV.header w).1 with
    | some err => simp [csv.traced, hw]
    | none =>
      simp only [csv.traced, hw, List.nil_append]
      intro h
      rw [RoutesToCSV_rows_traced_none write data _ _ h]
      simp
  · intro data i h
    refine ⟨?_, rfl⟩
    simp [List.getElem?_eq_getElem h]

/-- Two routes through a writer that does not fail: the header and one row for each, in
order. -/
theorem csv_exporters_write_one_row_per_record_witness :
    (RoutesToCSV (csv.traced (fun _ w => (none, w)))
        [sampleRoute, { sampleRoute with ID := "route-2", OriginAirport := "LAX" }]
        ((), [])).1 = none
    ∧ (RoutesToCSV (csv.traced (fun _ w => (none, w)))
        [sampleRoute, { sampleRoute with ID := "route-2", OriginAirport := "LAX" }]
        ((), [])).2.2
      = [["ID", "Origin", "Destination", "Distance", "Source"],
         ["route-1", "SFO", "NRT", "5124", "united"],
         ["route-2", "LAX", "NRT", "5124", "united"]] :=
  ⟨rfl,
   ((csv_exporters_write_one_row_per_record.2.2.1 Unit (fun _ w => (none, w))
      [sampleRoute, { sampleRoute with ID := "route-2", OriginAirport := "LAX" }] ()
      rfl).1).trans (by decide)⟩

end exporter

namespace exporter

open api json

/-! ## JSON export -/

theorem decodeInt_number (old n : Int) (h : IsInt64 n) : decodeInt old (.number n) = .ok n := by
  unfold IsInt64 at h
  simp [decodeInt, h]

/-- One step of the decoder over the members of an object. -/
theorem foldlM_cons_ok {α β : Type} (f : β → α → Except Error β) (b b' : β) (x : α)
    (xs : List α) (h : f b x = .ok b') : List.foldlM f b (x :: xs) = List.foldlM f b' xs := by
  rw [List.foldlM_cons, h]
  rfl

theorem Route_setField_ID (a : Route) (x : String) :
    a.setField "ID" (.string x) = .ok { a with ID := x } :=
  rfl

theorem Route_setField_OriginAirport (a : Route) (x : String) :
    a.setField "OriginAirport" (.string x) = .ok { a with OriginAirport := x } :=
  rfl

theorem Route_setField_DestinationAirport (a : Route) (x : String) :
    a.setField "DestinationAirport" (.string x) = .ok { a with DestinationAirport := x } :=
  rfl

theorem Route_setField_NumDaysOut (a : Route) (n : Int) (h : IsInt64 n) :
    a.setField "NumDaysOut" (.number n) = .ok { a with NumDaysOut := n } := by
  have h1 : a.setField "NumDaysOut" (.number n)
      = (decodeInt a.NumDaysOut (.number n)).map (fun x => { a with NumDaysOut := x }) := rfl
  rw [h1, decodeInt_number _ _ h]
  rfl

theorem Route_setField_Distance (a : Route) (n : Int) (h : IsInt64 n) :
    a.setField "Distance" (.number n) = .ok { a with Distance := n } := by
  have h1 : a.setField "Distance" (.number n)
      = (decodeInt a.Distance (.number n)).map (fun x => { a with Distance := x }) := rfl
  rw [h1, decodeInt_number _ _ h]
  rfl

theorem Route_setField_Source (a : Route) (x : String) :
    a.setField "Source" (.string x) = .ok { a with Source := x } :=
  rfl

/-- Decoding the object written for a route, into any route, gives the route. -/
theorem Route_decode_toJSON (r0 r : Route) (hNumDaysOut : IsInt64 r.NumDaysOut)
    (hDistance : IsInt64 r.Distance) : Route.decode r0 r.toJSON = .ok r := by
  simp only [Route.decode, Route.toJSON]
  rw [foldlM_cons_ok _ _ _ _ _ (Route_setField_ID _ _)]
  dsimp only
  rw [foldlM_cons_ok _ _ _ _ _ (Route_setField_OriginAirport _ _)]
  dsimp only
  rw [foldlM_cons_ok _ _ _ _ _ (Route_setField_DestinationAirport _ _)]
  dsimp only
  rw [foldlM_cons_ok _ _ _ _ _ (Route_setField_NumDaysOut _ _ hNumDaysOut)]
  dsimp only
  rw [foldlM_cons_ok _ _ _ _ _ (Route_setField_Distance _ _ hDistance)]
  dsimp only
  rw [foldlM_cons_ok _ _ _ _ _ (Route_setField_Source _ _)]
  dsimp only
  cases r
  rfl

theorem Availability_setField_ID (a : Availability) (x : String) :
    a.setField "ID" (.string x) = .ok { a with ID := x } :=
  rfl

theorem Availability_setField_RouteID (a : Availability) (x : String) :
    a.setField "RouteID" (.string x) = .ok { a with RouteID := x } :=
  rfl

theorem Availability_setField_Route (a : Availability) (v : Value) (r : Route)
    (h : Route.decode a.Route v = .ok r) :
    a.setField "Route" v = .ok { a with Route := r } := by
  have h1 : a.setField "Route" v
      = (Route.decode a.Route v).map (fun x => { a with Route := x }) := rfl
  rw [h1, h]
  rfl

theorem Availability_setField_Date (a : Availability) (x : String) :
    a.setField "Date" (.string x) = .ok { a with Date := x } :=
  rfl

theorem Availability_setField_YAvailable (a : Availability) (x : Bool) :
    a.setField "YAvailable" (.bool x) = .ok { a with YAvailable := x } :=
  rfl

theorem Availability_setField_YMileageCost (a : Availability) (x : String) :
    a.setField "YMileageCost" (.string x) = .ok { a with YMileageCost := x } :=
  rfl

theorem Availability_setField_YRemainingSeats (a : Availability) (n : Int) (h : IsInt64 n) :
    a.setField "YRemainingSeats" (.number n) = .ok { a with YRemainingSeats := n } := by
  have h1 : a.setField "YRemainingSeats" (.number n)
      = (decodeInt a.YRemainingSeats (.number n)).map (fun x => { a with YRemainingSeats := x }) := rfl
  rw [h1, decodeInt_number _ _ h]
  rfl

theorem Availability_setField_YAirlines (a : Availability) (x : String) :
    a.setField "YAirlines" (.string x) = .ok { a with YAirlines := x } :=
  rfl

theorem Availability_setField_YDirect (a : Availability) (x : Bool) :
    a.setField "YDirect" (.bool x) = .ok { a with YDirect := x } :=
  rfl

theorem Availability_setField_WAvailable (a : Availability) (x : Bool) :
    a.setField "WAvailable" (.bool x) = .ok { a with WAvailable := x } :=
  rfl

theorem Availability_setField_WMileageCost (a : Availability) (x : String) :
    a.setField "WMileageCost" (.string x) = .ok { a with WMileageCost := x } :=
  rfl

theorem Availability_setField_WRemainingSeats (a : Availability) (n : Int) (h : IsInt64 n) :
    a.setField "WRemainingSeats" (.number n) = .ok { a with WRemainingSeats := n } := by
  have h1 : a.setField "WRemainingSeats" (.number n)
      = (decodeInt a.WRemainingSeats (.number n)).map (fun x => { a with WRemainingSeats := x }) := rfl
  rw [h1, decodeInt_number _ _ h]
  rfl

theorem Availability_setField_WAirlines (a : Availability) (x : String) :
    a.setField "WAirlines" (.string x) = .ok { a with WAirlines := x } :=
  rfl

theorem Availability_setField_WDirect (a : Availability) (x : Bool) :
    a.setField "WDirect" (.bool x) = .ok { a with WDirect := x } :=
  rfl

theorem Availability_setField_JAvailable (a : Availability) (x : Bool) :
    a.setField "JAvailable" (.bool x) = .ok { a with JAvailable := x } :=
  rfl

theorem Availability_setField_JMileageCost (a : Availability) (x : String) :
    a.setField "JMileageCost" (.string x) = .ok { a with JMileageCost := x } :=
  rfl

theorem Availability_setField_JRemainingSeats (a : Availability) (n : Int) (h : IsInt64 n) :
    a.setField "JRemainingSeats" (.number n) = .ok { a with JRemainingSeats := n } := by
  have h1 : a.setField "JRemainingSeats" (.number n)
      = (decodeInt a.JRemainingSeats (.number n)).map (fun x => { a with JRemainingSeats := x }) := rfl
  rw [h1, decodeInt_number _ _ h]
  rfl

theorem Availability_setField_JAirlines (a : Availability) (x : String) :
    a.setField "JAirlines" (.string x) = .ok { a with JAirlines := x } :=
  rfl

theorem Availability_setField_JDirect (a : Availability) (x : Bool) :
    a.setField "JDirect" (.bool x) = .ok { a with JDirect := x } :=
  rfl

theorem Availability_setField_FAvailable (a : Availability) (x : Bool) :
    a.setField "FAvailable" (.bool x) = .ok { a with FAvailable := x } :=
  rfl

theorem Availability_setField_FMileageCost (a : Availability) (x : String) :
    a.setField "FMileageCost" (.string x) = .ok { a with FMileageCost := x } :=
  rfl

theorem Availability_setField_FRemainingSeats (a : Availability) (n : Int) (h : IsInt64 n) :
    a.setField "FRemainingSeats" (.number n) = .ok { a with FRemainingSeats := n } := by
  have h1 : a.setField "FRemainingSeats" (.number n)
      = (decodeInt a.FRemainingSeats (.number n)).map (fun x => { a with FRemainingSeats := x }) := rfl
  rw [h1, decodeInt_number _ _ h]
  rfl

theorem Availability_setField_FAirlines (a : Availability) (x : String) :
    a.setField "FAirlines" (.string x) = .ok { a with FAirlines := x } :=
  rfl

theorem Availability_setField_FDirect (a : Availability) (x : Bool) :
    a.setField "FDirect" (.bool x) = .ok { a with FDirect := x } :=
  rfl

theorem Availability_setField_Source (a : Availability) (x : String) :
    a.setField "Source" (.string x) = .ok { a with Source := x } :=
  rfl

theorem Availability_setField_CreatedAt (a : Availability) (x : Time) :
    a.setField "CreatedAt" (.time x) = .ok { a with CreatedAt := x } :=
  rfl

theorem Availability_setField_UpdatedAt (a : Availability) (x : Time) :
    a.setField "UpdatedAt" (.time x) = .ok { a with UpdatedAt := x } :=
  rfl

/-- Decoding the members written for a record, with the two timestamps as read from their
texts, gives the record with the zero time as `ParsedDate` and those timestamps. -/
theorem Availability_decode_members (a : Availability) (hgo : a.IsGoValue)
    (created updated : Time) :
    Availability.zero.decode (.object (a.members (.time created) (.time updated)))
      = .ok { a with ParsedDate := Time.zero, CreatedAt := created, UpdatedAt := updated } := by
  obtain ⟨hn, hd, hYRemainingSeats, hWRemainingSeats, hJRemainingSeats, hFRemainingSeats⟩ := hgo
  simp only [Availability.decode, Availability.members, Availability.zero]
  rw [foldlM_cons_ok _ _ _ _ _ (Availability_setField_ID _ _)]
  dsimp only
  rw [foldlM_cons_ok _ _ _ _ _ (Availability_setField_RouteID _ _)]
  dsimp only
  rw [foldlM_cons_ok _ _ _ _ _ (Availability_setField_Route _ _ _ (Route_decode_toJSON _ a.Route hn hd))]
  dsimp only
  rw [foldlM_cons_ok _ _ _ _ _ (Availability_setField_Date _ _)]
  dsimp only
  rw [foldlM_cons_ok _ _ _ _ _ (Availability_setField_YAvailable _ _)]
  dsimp only
  rw [foldlM_cons_ok _ _ _ _ _ (Availability_setField_YMileageCost _ _)]
  dsimp only
  rw [foldlM_cons_ok _ _ _ _ _ (Availability_setField_YRemainingSeats _ _ hYRemainingSeats)]
  dsimp only
  rw [foldlM_cons_ok _ _ _ _ _ (Availability_setField_YAirlines _ _)]
  dsimp only
  rw [foldlM_cons_ok _ _ _ _ _ (Availability_setField_YDirect _ _)]
  dsimp only
  rw [foldlM_cons_ok _ _ _ _ _ (Availability_setField_WAvailable _ _)]
  dsimp only
  rw [foldlM_cons_ok _ _ _ _ _ (Availability_setField_WMileageCost _ _)]
  dsimp only
  rw [foldlM_cons_ok _ _ _ _ _ (Availability_setField_WRemainingSeats _ _ hWRemainingSeats)]
  dsimp only
  rw [foldlM_cons_ok _ _ _ _ _ (Availability_setField_WAirlines _ _)]
  dsimp only
  rw [foldlM_cons_ok _ _ _ _ _ (Availability_setField_WDirect _ _)]
  dsimp only
  rw [foldlM_cons_ok _ _ _ _ _ (Availability_setField_JAvailable _ _)]
  dsimp only
  rw [foldlM_cons_ok _ _ _ _ _ (Availability_setField_JMileageCost _ _)]
  dsimp only
  rw [foldlM_cons_ok _ _ _ _ _ (Availability_setField_JRemainingSeats _ _ hJRemainingSeats)]
  dsimp only
  rw [foldlM_cons_ok _ _ _ _ _ (Availability_setField_JAirlines _ _)]
  dsimp only
  rw [foldlM_cons_ok _ _ _ _ _ (Availability_setField_JDirect _ _)]
  dsimp only
  rw [foldlM_cons_ok _ _ _ _ _ (Availability_setField_FAvailable _ _)]
  dsimp only
  rw [foldlM_cons_ok _ _ _ _ _ (Availability_setField_FMileageCost _ _)]
  dsimp only
  rw [foldlM_cons_ok _ _ _ _ _ (Availability_setField_FRemainingSeats _ _ hFRemainingSeats)]
  dsimp only
  rw [foldlM_cons_ok _ _ _ _ _ (Availability_setField_FAirlines _ _)]
  dsimp only
  rw [foldlM_cons_ok _ _ _ _ _ (Availability_setField_FDirect _ _)]
  dsimp only
  rw [foldlM_cons_ok _ _ _ _ _ (Availability_setField_Source _ _)]
  dsimp only
  rw [foldlM_cons_ok _ _ _ _ _ (Availability_setField_CreatedAt _ _)]
  dsimp only
  rw [foldlM_cons_ok _ _ _ _ _ (Availability_setField_UpdatedAt _ _)]
  dsimp only
  cases a
  rfl
/-- When `Time.MarshalJSON` succeeds, and what it writes then. -/
theorem marshalTime_eq (t : Time) :
    (t.IsMarshalable → marshalTime t = .ok (.time t.rfc3339))
    ∧ (¬ t.IsMarshalable → ∃ err, marshalTime t = .error err) := by
  unfold Time.IsMarshalable marshalTime
  constructor
  · rintro ⟨h1, h2⟩
    rw [if_neg (not_not.mpr h1), if_neg (by omega)]
  · intro h
    by_cases h1 : -62167219200000000000 ≤ t.wall ∧ t.wall < 253402300800000000000
    · rw [if_neg (not_not.mpr h1), if_pos (by
        have : ¬ (t.zoneMinutes.natAbs / 60 < 24) := fun h2 => h ⟨h1, h2⟩
        omega)]
      exact ⟨_, rfl⟩
    · rw [if_pos h1]
      exact ⟨_, rfl⟩

/-- When `ToJSON` writes a document for one record, and which. -/
theorem ToJSON_singleton (a : Availability) (pretty : Bool) :
    (a.CreatedAt.IsMarshalable ∧ a.UpdatedAt.IsMarshalable →
      ToJSON [a] pretty
        = .ok (.array [.object (a.members (.time a.CreatedAt.rfc3339)
            (.time a.UpdatedAt.rfc3339))]))
    ∧ (¬ (a.CreatedAt.IsMarshalable ∧ a.UpdatedAt.IsMarshalable) →
      ∃ err, ToJSON [a] pretty = .error err) := by
  constructor
  · rintro ⟨hc, hu⟩
    have ha : a.toJSON = .ok (.object (a.members (.time a.CreatedAt.rfc3339)
        (.time a.UpdatedAt.rfc3339))) := by
      simp only [Availability.toJSON, (marshalTime_eq _).1 hc, (marshalTime_eq _).1 hu]
    simp only [ToJSON, List.mapM_cons, List.mapM_nil, ha]
    rfl
  · intro h
    have ha : ∃ err, a.toJSON = .error err := by
      by_cases hc : a.CreatedAt.IsMarshalable
      · have hu : ¬ a.UpdatedAt.IsMarshalable := fun hu => h ⟨hc, hu⟩
        obtain ⟨err, he⟩ := (marshalTime_eq _).2 hu
        exact ⟨marshalerError err,
          by simp only [Availability.toJSON, (marshalTime_eq _).1 hc, he]⟩
      · obtain ⟨err, he⟩ := (marshalTime_eq _).2 hc
        exact ⟨marshalerError err, by simp only [Availability.toJSON, he]⟩
    obtain ⟨err, he⟩ := ha
    refine ⟨err, ?_⟩
    simp only [ToJSON, List.mapM_cons, he]
    rfl

/-- The time read back from the text of a time is the time itself exactly when its zone is a
whole number of minutes from UTC. -/
theorem Time_rfc3339_eq_iff (t : Time) : t.rfc3339 = t ↔ (60 : Int) ∣ t.offset := by
  constructor
  · intro h
    have h2 := congrArg Time.offset h
    simp only [Time.rfc3339, Time.zoneMinutes] at h2
    exact ⟨Int.tdiv t.offset 60, by rw [mul_comm]; exact h2.symm⟩
  · intro h
    have h2 : Int.tdiv t.offset 60 * 60 = t.offset := Int.tdiv_mul_cancel h
    cases t with
    | mk n o =>
      simp only [Time.rfc3339, Time.zoneMinutes, Time.wall] at h2 ⊢
      rw [h2]
      congr 1
      ring

end exporter

namespace unicode

/-! ## The case tables -/

theorem upperRanges_wellFormed : ∀ r ∈ upperRanges, r.wellFormed = true := by
  decide!

theorem lowerRanges_wellFormed : ∀ r ∈ lowerRanges, r.wellFormed = true := by
  decide!

/-- No upper-case image has an upper-case mapping of its own. -/
theorem upperRanges_noHit : ∀ r ∈ upperRanges, ∀ r' ∈ upperRanges, r.noHit r' = true := by
  decide!

/-- No lower-case image has a lower-case mapping of its own. -/
theorem lowerRanges_noHit : ∀ r ∈ lowerRanges, ∀ r' ∈ lowerRanges, r.noHit r' = true := by
  decide!

/-- The only upper-case images in ASCII are I, of dotless i (U+0131), and S, of long s
(U+017F). -/
theorem upperRanges_ascii : ∀ r ∈ upperRanges, r.To < 0x80 →
    r = CaseRange.mk 0x131 0x131 1 0x49 ∨ r = CaseRange.mk 0x17F 0x17F 1 0x53 := by
  decide!

/-- The only lower-case images in ASCII are i, of capital I with dot above (U+0130), and k, of
the Kelvin sign (U+212A). -/
theorem lowerRanges_ascii : ∀ r ∈ lowerRanges, r.To < 0x80 →
    r = CaseRange.mk 0x130 0x130 1 0x69 ∨ r = CaseRange.mk 0x212A 0x212A 1 0x6B := by
  decide!

/-- No lower-case image is a capital ASCII letter, dotless i or long s. -/
theorem lowerRanges_misses : ∀ r ∈ lowerRanges,
    r.misses 0x41 0x5A = true ∧ r.misses 0x131 0x131 = true
      ∧ r.misses 0x17F 0x17F = true := by
  decide!

/-- No upper-case image is a small ASCII letter. -/
theorem upperRanges_misses : ∀ r ∈ upperRanges, r.misses 0x61 0x7A = true := by
  decide!

theorem covers_iff (r : CaseRange) (n : Nat) :
    r.covers n = true ↔ r.Lo ≤ n ∧ n ≤ r.Hi ∧ (n - r.Lo) % r.Step = 0 := by
  simp [CaseRange.covers, and_assoc]

/-- A code point is mapped by the first run that covers it, and to itself when there is
none. -/
theorem caseMap_spec (table : List CaseRange) (n : Nat) :
    (caseMap table n = n ∧ ∀ r ∈ table, r.covers n = false)
    ∨ ∃ r ∈ table, r.covers n = true ∧ caseMap table n = r.To + (n - r.Lo) := by
  unfold caseMap
  cases h : table.find? (fun r => r.covers n) with
  | none =>
    left
    refine ⟨rfl, ?_⟩
    intro r hr
    have := List.find?_eq_none.mp h r hr
    simpa using this
  | some r =>
    right
    exact ⟨r, List.mem_of_find?_eq_some h, by simpa using List.find?_some h, rfl⟩

theorem misses_spec (r : CaseRange) (a b n : Nat) (h : r.misses a b = true)
    (hc : r.covers n = true) :
    ¬ (a ≤ n ∧ n ≤ b) ∧ ¬ (a ≤ r.To + (n - r.Lo) ∧ r.To + (n - r.Lo) ≤ b) := by
  rw [covers_iff] at hc
  simp only [CaseRange.misses, Bool.and_eq_true, Bool.or_eq_true, decide_eq_true_eq] at h
  omega

theorem noHit_spec (r r' : CaseRange) (n : Nat) (h : r.noHit r' = true)
    (hc : r.covers n = true) : r'.covers (r.To + (n - r.Lo)) = false := by
  rw [covers_iff] at hc
  rw [Bool.eq_false_iff]
  intro hc'
  rw [covers_iff] at hc'
  simp only [CaseRange.noHit, Bool.and_eq_true, Bool.or_eq_true, decide_eq_true_eq,
    beq_iff_eq] at h
  rcases h with (h | h) | ⟨⟨h1, h2⟩, h3⟩
  · omega
  · omega
  · rw [h1] at hc'
    rcases h2 with h2 | h2
    · rw [h2] at hc
      omega
    · omega

theorem wellFormed_spec (r : CaseRange) (h : r.wellFormed = true) :
    0 < r.Step ∧ 0x80 ≤ r.Lo ∧ r.Lo ≤ r.Hi
    ∧ (r.To + (r.Hi - r.Lo) < 0xD800 ∨ (0xDFFF < r.To ∧ r.To + (r.Hi - r.Lo) < 0x110000))
    ∧ r.misses 0x09 0x0D = true ∧ r.misses 0x20 0x20 = true ∧ r.misses 0x2C 0x2C = true
    ∧ r.misses 0x85 0x85 = true ∧ r.misses 0xA0 0xA0 = true ∧ r.misses 0x1680 0x1680 = true
    ∧ r.misses 0x2000 0x200A = true ∧ r.misses 0x2028 0x2029 = true
    ∧ r.misses 0x202F 0x202F = true ∧ r.misses 0x205F 0x205F = true
    ∧ r.misses 0x3000 0x3000 = true := by
  simpa only [CaseRange.wellFormed, Bool.and_eq_true, Bool.or_eq_true, decide_eq_true_eq,
    and_assoc] using h

/-- The code points of white space. -/
theorem IsSpace_iff (c : Char) : IsSpace c = true ↔
    ((9 ≤ c.toNat ∧ c.toNat ≤ 13) ∨ c.toNat = 0x20 ∨ c.toNat = 0x85 ∨ c.toNat = 0xA0
      ∨ c.toNat = 0x1680 ∨ (0x2000 ≤ c.toNat ∧ c.toNat ≤ 0x200A) ∨ c.toNat = 0x2028
      ∨ c.toNat = 0x2029 ∨ c.toNat = 0x202F ∨ c.toNat = 0x205F ∨ c.toNat = 0x3000) := by
  simp only [IsSpace, Bool.or_eq_true, Bool.and_eq_true, decide_eq_true_eq, beq_iff_eq]
  tauto

/-- What a case table with well-formed runs does to a code point outside ASCII: it leaves it,
or maps it to a code point of a character, and neither is white space or the comma. -/
theorem caseMap_wellFormed (table : List CaseRange)
    (hw : ∀ r ∈ table, r.wellFormed = true) (n : Nat) :
    caseMap table n = n
    ∨ (0x80 ≤ n
      ∧ (caseMap table n < 0xD800 ∨ (0xDFFF < caseMap table n ∧ caseMap table n < 0x110000))
      ∧ ∀ m, m = n ∨ m = caseMap table n →
          ¬ (9 ≤ m ∧ m ≤ 13) ∧ m ≠ 0x20 ∧ m ≠ 0x2C ∧ m ≠ 0x85 ∧ m ≠ 0xA0 ∧ m ≠ 0x1680
          ∧ ¬ (0x2000 ≤ m ∧ m ≤ 0x200A) ∧ m ≠ 0x2028 ∧ m ≠ 0x2029 ∧ m ≠ 0x202F
          ∧ m ≠ 0x205F ∧ m ≠ 0x3000) := by
  rcases caseMap_spec table n with ⟨h, _⟩ | ⟨r, hr, hc, hm⟩
  · exact Or.inl h
  · right
    obtain ⟨h1, h2, h3, h4, s1, s2, s3, s4, s5, s6, s7, s8, s9, s10, s11⟩ :=
      wellFormed_spec r (hw r hr)
    have c1 := misses_spec r _ _ n s1 hc
    have c2 := misses_spec r _ _ n s2 hc
    have c3 := misses_spec r _ _ n s3 hc
    have c4 := misses_spec r _ _ n s4 hc
    have c5 := misses_spec r _ _ n s5 hc
    have c6 := misses_spec r _ _ n s6 hc
    have c7 := misses_spec r _ _ n s7 hc
    have c8 := misses_spec r _ _ n s8 hc
    have c9 := misses_spec r _ _ n s9 hc
    have c10 := misses_spec r _ _ n s10 hc
    have c11 := misses_spec r _ _ n s11 hc
    rw [covers_iff] at hc
    rw [hm]
    refine ⟨by omega, by omega, ?_⟩
    intro m hmm
    rcases hmm with hmm | hmm <;> subst hmm <;> omega

/-- Upper-casing a code point twice is upper-casing it once. -/
theorem upperRune_idem (n : Nat) : upperRune (upperRune n) = upperRune n := by
  by_cases hn : n < 0x80
  · simp only [upperRune, hn, if_true]
    split_ifs <;> omega
  · have hu : upperRune n = caseMap upperRanges n := by simp [upperRune, hn]
    rcases caseMap_spec upperRanges n with ⟨h, _⟩ | ⟨r, hr, hc, hm⟩
    · rw [hu, h, hu, h]
    · rw [hu, hm]
      have hmiss := misses_spec r _ _ n (upperRanges_misses r hr) hc
      by_cases ht : r.To + (n - r.Lo) < 0x80
      · simp only [upperRune, ht, if_true]
        rw [if_neg (by omega)]
      · have hu2 : upperRune (r.To + (n - r.Lo)) = caseMap upperRanges (r.To + (n - r.Lo)) := by
          simp [upperRune, ht]
        rw [hu2]
        rcases caseMap_spec upperRanges (r.To + (n - r.Lo)) with ⟨h, _⟩ | ⟨r', hr', hc', _⟩
        · exact h
        · have := noHit_spec r r' n (upperRanges_noHit r hr r' hr') hc
          rw [this] at hc'
          exact absurd hc' (by decide)

/-- Lower-casing a code point twice is lower-casing it once. -/
theorem lowerRune_idem (n : Nat) : lowerRune (lowerRune n) = lowerRune n := by
  by_cases hn : n < 0x80
  · simp only [lowerRune, hn, if_true]
    split_ifs <;> omega
  · have hu : lowerRune n = caseMap lowerRanges n := by simp [lowerRune, hn]
    rcases caseMap_spec lowerRanges n with ⟨h, _⟩ | ⟨r, hr, hc, hm⟩
    · rw [hu, h, hu, h]
    · rw [hu, hm]
      have hmiss := misses_spec r _ _ n (lowerRanges_misses r hr).1 hc
      by_cases ht : r.To + (n - r.Lo) < 0x80
      · simp only [lowerRune, ht, if_true]
        rw [if_neg (by omega)]
      · have hu2 : lowerRune (r.To + (n - r.Lo)) = caseMap lowerRanges (r.To + (n - r.Lo)) := by
          simp [lowerRune, ht]
        rw [hu2]
        rcases caseMap_spec lowerRanges (r.To + (n - r.Lo)) with ⟨h, _⟩ | ⟨r', hr', hc', _⟩
        · exact h
        · have := noHit_spec r r' n (lowerRanges_noHit r hr r' hr') hc
          rw [this] at hc'
          exact absurd hc' (by decide)

theorem Char_toNat_ofNat (n : Nat) (h : n < 0xD800 ∨ (0xDFFF < n ∧ n < 0x110000)) :
    (Char.ofNat n).toNat = n := by
  have hv : n.isValidChar := h
  simp only [Char.ofNat, hv, dite_true, Char.ofNatAux, Char.toNat]
  have : n < UInt32.size := by
    simp only [UInt32.size]
    omega
  simp [UInt32.toNat, Nat.mod_eq_of_lt this]

theorem Char_toNat_valid (c : Char) :
    c.toNat < 0xD800 ∨ (0xDFFF < c.toNat ∧ c.toNat < 0x110000) :=
  c.valid

theorem Char_eq_of_toNat (a b : Char) (h : a.toNat = b.toNat) : a = b := by
  apply Char.ext
  apply UInt32.ext
  exact h

/-- The code point of the upper case of a character. -/
theorem toNat_ToUpper (c : Char) : (ToUpper c).toNat = upperRune c.toNat := by
  unfold ToUpper
  apply Char_toNat_ofNat
  have hv := Char_toNat_valid c
  by_cases hn : c.toNat < 0x80
  · simp only [upperRune, hn, if_true]
    split_ifs <;> omega
  · have hu : upperRune c.toNat = caseMap upperRanges c.toNat := by simp [upperRune, hn]
    rw [hu]
    rcases caseMap_wellFormed upperRanges upperRanges_wellFormed c.toNat with h | ⟨_, h, _⟩
    · rw [h]; exact hv
    · exact h

/-- The code point of the lower case of a character. -/
theorem toNat_ToLower (c : Char) : (ToLower c).toNat = lowerRune c.toNat := by
  unfold ToLower
  apply Char_toNat_ofNat
  have hv := Char_toNat_valid c
  by_cases hn : c.toNat < 0x80
  · simp only [lowerRune, hn, if_true]
    split_ifs <;> omega
  · have hu : lowerRune c.toNat = caseMap lowerRanges c.toNat := by simp [lowerRune, hn]
    rw [hu]
    rcases caseMap_wellFormed lowerRanges lowerRanges_wellFormed c.toNat with h | ⟨_, h, _⟩
    · rw [h]; exact hv
    · exact h

/-- Go `unicode.ToUpper` is idempotent. -/
theorem ToUpper_idem (c : Char) : ToUpper (ToUpper c) = ToUpper c := by
  apply Char_eq_of_toNat
  rw [toNat_ToUpper, toNat_ToUpper, upperRune_idem]

/-- Go `unicode.ToLower` is idempotent. -/
theorem ToLower_idem (c : Char) : ToLower (ToLower c) = ToLower c := by
  apply Char_eq_of_toNat
  rw [toNat_ToLower, toNat_ToLower, lowerRune_idem]

/-- Case mapping neither makes nor removes white space. -/
theorem IsSpace_ToUpper (c : Char) : IsSpace (ToUpper c) = IsSpace c := by
  rw [Bool.eq_iff_iff, IsSpace_iff, IsSpace_iff, toNat_ToUpper]
  by_cases hn : c.toNat < 0x80
  · simp only [upperRune, hn, if_true]
    split_ifs <;> omega
  · have hu : upperRune c.toNat = caseMap upperRanges c.toNat := by simp [upperRune, hn]
    rw [hu]
    rcases caseMap_wellFormed upperRanges upperRanges_wellFormed c.toNat with h | ⟨_, _, h⟩
    · rw [h]
    · have h1 := h c.toNat (Or.inl rfl)
      have h2 := h (caseMap upperRanges c.toNat) (Or.inr rfl)
      omega

theorem IsSpace_ToLower (c : Char) : IsSpace (ToLower c) = IsSpace c := by
  rw [Bool.eq_iff_iff, IsSpace_iff, IsSpace_iff, toNat_ToLower]
  by_cases hn : c.toNat < 0x80
  · simp only [lowerRune, hn, if_true]
    split_ifs <;> omega
  · have hu : lowerRune c.toNat = caseMap lowerRanges c.toNat := by simp [lowerRune, hn]
    rw [hu]
    rcases caseMap_wellFormed lowerRanges lowerRanges_wellFormed c.toNat with h | ⟨_, _, h⟩
    · rw [h]
    · have h1 := h c.toNat (Or.inl rfl)
      have h2 := h (caseMap lowerRanges c.toNat) (Or.inr rfl)
      omega

/-- Only the comma has the comma as its upper case. -/
theorem ToUpper_eq_comma (c : Char) (h : ToUpper c = ',') : c = ',' := by
  apply Char_eq_of_toNat
  have h2 := congrArg Char.toNat h
  rw [toNat_ToUpper] at h2
  have h3 : (',' : Char).toNat = 44 := rfl
  rw [h3] at h2 ⊢
  by_cases hn : c.toNat < 0x80
  · simp only [upperRune, hn, if_true] at h2
    split_ifs at h2 <;> omega
  · have hu : upperRune c.toNat = caseMap upperRanges c.toNat := by simp [upperRune, hn]
    rw [hu] at h2
    rcases caseMap_wellFormed upperRanges upperRanges_wellFormed c.toNat with h | ⟨_, _, h⟩
    · omega
    · have := h (caseMap upperRanges c.toNat) (Or.inr rfl)
      omega

/-- On ASCII the upper case of the lower case is the upper case. -/
theorem upperRune_lowerRune_ascii (n : Nat) (h : n < 0x80) :
    upperRune (lowerRune n) = upperRune n := by
  simp only [upperRune, lowerRune, h, if_true]
  split_ifs <;> omega

/-- The code points outside ASCII whose lower case has an ASCII upper case: capital I with dot
above, the Kelvin sign, dotless i and long s. -/
theorem lowerRune_ascii_image (n : Nat) (hn : ¬ n < 0x80)
    (hX : upperRune (lowerRune n) < 0x80) :
    (n = 0x130 ∧ lowerRune n = 0x69) ∨ (n = 0x212A ∧ lowerRune n = 0x6B)
      ∨ (lowerRune n = n ∧ (n = 0x131 ∨ n = 0x17F)) := by
  have hl : lowerRune n = caseMap lowerRanges n := by simp [lowerRune, hn]
  have key : ∀ m, ¬ m < 0x80 → upperRune m < 0x80 → m = 0x131 ∨ m = 0x17F := by
    intro m hm hu
    have hum : upperRune m = caseMap upperRanges m := by simp [upperRune, hm]
    rw [hum] at hu
    rcases caseMap_spec upperRanges m with ⟨h, _⟩ | ⟨r, hr, hc, hmap⟩
    · omega
    · rw [hmap] at hu
      rw [covers_iff] at hc
      rcases upperRanges_ascii r hr (by omega) with h | h <;> subst h <;>
        simp only at hc <;> omega
  rcases caseMap_spec lowerRanges n with ⟨h, _⟩ | ⟨r, hr, hc, hmap⟩
  · right; right
    rw [hl, h] at hX
    exact ⟨by rw [hl, h], key n hn hX⟩
  · by_cases hm : r.To + (n - r.Lo) < 0x80
    · have hc2 := hc
      rw [covers_iff] at hc2
      rcases lowerRanges_ascii r hr (by omega) with h | h <;> subst h <;> simp only at hc2
      · left
        refine ⟨by omega, ?_⟩
        rw [hl, hmap]
        simp only
        omega
      · right; left
        refine ⟨by omega, ?_⟩
        rw [hl, hmap]
        simp only
        omega
    · exfalso
      rw [hl, hmap] at hX
      have h1 := misses_spec r _ _ n (lowerRanges_misses r hr).2.1 hc
      have h2 := misses_spec r _ _ n (lowerRanges_misses r hr).2.2 hc
      rcases key _ hm hX with h | h <;> omega

/-- Lower-casing keeps the upper case of a code point other than capital I with dot above
(U+0130), when the upper case of the lower case is an ASCII code point other than K. -/
theorem upperRune_of_lowerRune (n : Nat) (hdot : n ≠ 0x130)
    (hX : upperRune (lowerRune n) < 0x80) (hK : upperRune (lowerRune n) ≠ 0x4B) :
    upperRune n = upperRune (lowerRune n) := by
  by_cases hn : n < 0x80
  · exact (upperRune_lowerRune_ascii n hn).symm
  · rcases lowerRune_ascii_image n hn hX with ⟨h, _⟩ | ⟨_, h⟩ | ⟨h, _⟩
    · exact absurd h hdot
    · rw [h] at hK
      exact absurd (by decide) hK
    · rw [h]

/-- The lower case of a code point that is its own upper case is the lower case of an ASCII
letter whenever its upper case is that letter; the code point is that letter itself, unless
the letter is I or K. -/
theorem lowerRune_of_upperRune_fixed (n : Nat) (hfix : upperRune n = n)
    (hX : upperRune (lowerRune n) < 0x80) :
    lowerRune n = lowerRune (upperRune (lowerRune n))
    ∧ (upperRune (lowerRune n) ≠ 0x49 → upperRune (lowerRune n) ≠ 0x4B →
        n = upperRune (lowerRune n)) := by
  by_cases hn : n < 0x80
  · rw [upperRune_lowerRune_ascii n hn, hfix]
    exact ⟨rfl, fun _ _ => rfl⟩
  · rcases lowerRune_ascii_image n hn hX with ⟨_, h⟩ | ⟨_, h⟩ | ⟨_, h⟩
    · rw [h]
      exact ⟨by decide, fun h1 _ => absurd (by decide) h1⟩
    · rw [h]
      exact ⟨by decide, fun _ h2 => absurd (by decide) h2⟩
    · exfalso
      rcases h with h | h <;> rw [h] at hfix <;> revert hfix <;> decide

end unicode

namespace strings

/-! ## Trimming and splitting -/

theorem dropWhile_eq_self {α : Type} (p : α → Bool) (l : List α)
    (h : ∀ c, l.head? = some c → p c = false) : l.dropWhile p = l := by
  cases l with
  | nil => rfl
  | cons a rest => simp [List.dropWhile, h a rfl]

theorem head?_dropWhile_false {α : Type} (p : α → Bool) (l : List α) (c : α)
    (h : (l.dropWhile p).head? = some c) : p c = false := by
  induction l with
  | nil => simp at h
  | cons a rest ih =>
    by_cases ha : p a = true
    · rw [List.dropWhile_cons_of_pos ha] at h
      exact ih h
    · rw [List.dropWhile_cons_of_neg ha] at h
      simp at h
      subst h
      simpa using ha

/-- The list of characters `TrimSpace` leaves neither starts nor ends with white space. -/
theorem trim_head?_getLast? {α : Type} (p : α → Bool) (l : List α) :
    (∀ c, (((l.dropWhile p).reverse.dropWhile p).reverse).head? = some c → p c = false)
    ∧ (∀ c, (((l.dropWhile p).reverse.dropWhile p).reverse).getLast? = some c
        → p c = false) := by
  constructor
  · intro c hc
    have hsplit := List.takeWhile_append_dropWhile p (l.dropWhile p).reverse
    have h1 : l.dropWhile p
        = ((l.dropWhile p).reverse.dropWhile p).reverse
          ++ ((l.dropWhile p).reverse.takeWhile p).reverse := by
      rw [← List.reverse_append, hsplit, List.reverse_reverse]
    apply head?_dropWhile_false p l c
    rw [h1]
    cases hl : ((l.dropWhile p).reverse.dropWhile p).reverse with
    | nil => rw [hl] at hc; simp at hc
    | cons a rest =>
      rw [hl] at hc
      simpa using hc
  · intro c hc
    rw [List.getLast?_reverse] at hc
    exact head?_dropWhile_false p _ c hc

/-- A list that neither starts nor ends with white space is left as it is. -/
theorem trim_eq_self {α : Type} (p : α → Bool) (l : List α)
    (h1 : ∀ c, l.head? = some c → p c = false) (h2 : ∀ c, l.getLast? = some c → p c = false) :
    ((l.dropWhile p).reverse.dropWhile p).reverse = l := by
  rw [dropWhile_eq_self p l h1,
    dropWhile_eq_self p l.reverse (by intro c hc; rw [List.head?_reverse] at hc; exact h2 c hc),
    List.reverse_reverse]

/-- Go `strings.TrimSpace` is idempotent. -/
theorem TrimSpace_idem (s : String) : TrimSpace (TrimSpace s) = TrimSpace s := by
  simp only [TrimSpace]
  rw [trim_eq_self unicode.IsSpace _ (trim_head?_getLast? unicode.IsSpace s.data).1
    (trim_head?_getLast? unicode.IsSpace s.data).2]

theorem dropWhile_of_all {α : Type} (p : α → Bool) (l : List α) (h : ∀ c ∈ l, p c = true) :
    l.dropWhile p = [] := by
  induction l with
  | nil => rfl
  | cons a rest ih =>
    rw [List.dropWhile_cons_of_pos (h a (List.mem_cons_self _ _))]
    exact ih (fun c hc => h c (List.mem_cons_of_mem _ hc))

/-- A text of white space only is trimmed to the empty text. -/
theorem TrimSpace_of_all_space (s : String) (h : ∀ c ∈ s.data, unicode.IsSpace c = true) :
    TrimSpace s = "" := by
  simp only [TrimSpace]
  rw [dropWhile_of_all unicode.IsSpace s.data h]
  rfl

theorem mem_of_mem_dropWhile {α : Type} (p : α → Bool) (l : List α) (c : α)
    (h : c ∈ l.dropWhile p) : c ∈ l :=
  (List.dropWhile_sublist p).subset h

/-- Every character of the trimmed text is a character of the text. -/
theorem mem_of_mem_TrimSpace (s : String) (c : Char) (h : c ∈ (TrimSpace s).data) :
    c ∈ s.data := by
  simp only [TrimSpace, List.mem_reverse] at h
  have h1 := mem_of_mem_dropWhile _ _ _ h
  rw [List.mem_reverse] at h1
  exact mem_of_mem_dropWhile _ _ _ h1

/-- Trimming commutes with a character map that keeps white space apart. -/
theorem TrimSpace_map (f : Char → Char) (hf : ∀ c, unicode.IsSpace (f c) = unicode.IsSpace c)
    (s : String) :
    TrimSpace (String.mk (s.data.map f)) = String.mk ((TrimSpace s).data.map f) := by
  have hcomp : (unicode.IsSpace ∘ f) = unicode.IsSpace := funext hf
  simp only [TrimSpace]
  rw [List.dropWhile_map, hcomp, ← List.map_reverse, List.dropWhile_map, hcomp,
    ← List.map_reverse]

/-! ### Splitting and joining -/

theorem Split_pieces_ne_nil (sep : Char) (l : List Char) : Split.pieces sep l ≠ [] := by
  induction l with
  | nil => simp [Split.pieces]
  | cons c cs ih =>
    unfold Split.pieces
    split
    · simp
    · split
      · simp
      · simp

/-- No piece of a split holds the separator, and the characters of a piece are characters of
the text. -/
theorem Split_pieces_mem (sep : Char) (l : List Char) :
    ∀ q ∈ Split.pieces sep l, sep ∉ q ∧ ∀ c ∈ q, c ∈ l := by
  induction l with
  | nil => intro q hq; simp [Split.pieces] at hq; subst hq; simp
  | cons c cs ih =>
    intro q hq
    unfold Split.pieces at hq
    split at hq
    · rcases List.mem_cons.mp hq with h | h
      · subst h; simp
      · obtain ⟨h1, h2⟩ := ih q h
        exact ⟨h1, fun x hx => List.mem_cons_of_mem _ (h2 x hx)⟩
    · rename_i hne
      split at hq
      · rename_i hnil
        exact absurd hnil (Split_pieces_ne_nil sep cs)
      · rename_i piece rest hcons
        rcases List.mem_cons.mp hq with h | h
        · subst h
          obtain ⟨h1, h2⟩ := ih piece (by rw [hcons]; exact List.mem_cons_self _ _)
          refine ⟨?_, ?_⟩
          · intro hmem
            rcases List.mem_cons.mp hmem with h3 | h3
            · exact hne h3.symm
            · exact h1 h3
          · intro x hx
            rcases List.mem_cons.mp hx with h3 | h3
            · subst h3; exact List.mem_cons_self _ _
            · exact List.mem_cons_of_mem _ (h2 x h3)
        · obtain ⟨h1, h2⟩ := ih q (by rw [hcons]; exact List.mem_cons_of_mem _ h)
          exact ⟨h1, fun x hx => List.mem_cons_of_mem _ (h2 x hx)⟩

/-- A piece in front of a separator is split off as it is. -/
theorem Split_pieces_append (sep : Char) (a : List Char) (h : sep ∉ a) (rest : List Char) :
    Split.pieces sep (a ++ sep :: rest) = a :: Split.pieces sep rest := by
  induction a with
  | nil => simp [Split.pieces]
  | cons c cs ih =>
    have hne : ¬ c = sep := fun he => h (by rw [he]; exact List.mem_cons_self _ _)
    have hcs : sep ∉ cs := fun hm => h (List.mem_cons_of_mem _ hm)
    rw [List.cons_append, Split.pieces, if_neg hne, ih hcs]

/-- A text without the separator is its only piece. -/
theorem Split_pieces_of_not_mem (sep : Char) (a : List Char) (h : sep ∉ a) :
    Split.pieces sep a = [a] := by
  induction a with
  | nil => rfl
  | cons c cs ih =>
    have hne : ¬ c = sep := fun he => h (by rw [he]; exact List.mem_cons_self _ _)
    have hcs : sep ∉ cs := fun hm => h (List.mem_cons_of_mem _ hm)
    rw [Split.pieces, if_neg hne, ih hcs]

/-- Splitting at the comma undoes joining with the comma, for texts without a comma. -/
theorem Split_Join (ps : List String) (hne : ps ≠ []) (h : ∀ p ∈ ps, ',' ∉ p.data) :
    Split (Join ps ",") ',' = ps := by
  induction ps with
  | nil => exact absurd rfl hne
  | cons a rest ih =>
    cases rest with
    | nil =>
      rw [(api.strings_Join_cons ",").1 a]
      simp only [Split]
      rw [Split_pieces_of_not_mem ',' a.data (h a (List.mem_cons_self _ _))]
      rfl
    | cons b rest =>
      rw [(api.strings_Join_cons ",").2 a b rest]
      have ih2 := ih (by simp) (fun p hp => h p (List.mem_cons_of_mem _ hp))
      simp only [Split] at ih2 ⊢
      have hd : (a ++ "," ++ Join (b :: rest) ",").data
          = a.data ++ ',' :: (Join (b :: rest) ",").data := by
        simp [String.data_append]
      rw [hd, Split_pieces_append ',' a.data (h a (List.mem_cons_self _ _)), List.map_cons, ih2]

end strings

namespace cli

open api config

/-! ## Comma-separated lists -/

/-- The empty text needs no case of its own: `parseCSV` keeps the non-empty ones among the
pieces of the text, upper-cased and trimmed. -/
theorem parseCSV_eq_filter (s : String) :
    parseCSV s = ((strings.Split s ',').map
      (fun p => strings.TrimSpace (strings.ToUpper p))).filter (fun p => p != "") := by
  unfold parseCSV
  by_cases h : s = ""
  · subst h
    decide
  · simp [h]

/-- What an element of the result of `parseCSV` is. -/
theorem parseCSV_element (s p : String) (h : p ∈ parseCSV s) :
    p ≠ "" ∧ strings.TrimSpace p = p ∧ ',' ∉ p.data ∧ strings.ToUpper p = p := by
  rw [parseCSV_eq_filter] at h
  simp only [List.mem_filter, List.mem_map, bne_iff_ne, ne_eq] at h
  obtain ⟨⟨q, hq, hp⟩, hne⟩ := h
  have hchar : ∀ c ∈ p.data, ∃ d ∈ q.data, c = unicode.ToUpper d := by
    intro c hc
    rw [← hp] at hc
    have h1 := strings.mem_of_mem_TrimSpace _ c hc
    simp only [strings.ToUpper, List.mem_map] at h1
    obtain ⟨d, hd, hdc⟩ := h1
    exact ⟨d, hd, hdc.symm⟩
  simp only [strings.Split, List.mem_map] at hq
  obtain ⟨piece, hpiece, hmk⟩ := hq
  have hsep := (strings.Split_pieces_mem ',' s.data piece hpiece).1
  refine ⟨hne, ?_, ?_, ?_⟩
  · rw [← hp, strings.TrimSpace_idem]
  · intro hmem
    obtain ⟨d, hd, hdc⟩ := hchar ',' hmem
    have hd2 := unicode.ToUpper_eq_comma d hdc.symm
    subst hd2
    rw [← hmk] at hd
    exact hsep hd
  · have hfix : ∀ c ∈ p.data, unicode.ToUpper c = c := by
      intro c hc
      obtain ⟨d, _, hdc⟩ := hchar c hc
      rw [hdc, unicode.ToUpper_idem]
    simp only [strings.ToUpper]
    rw [List.map_congr_left hfix, List.map_id']

/-- C27: `parseCSV` normalises a comma-separated list: for every text s the result holds, in
their order, exactly the comma-separated pieces of s, upper-cased and trimmed, that are
non-empty; so no element is empty, starts or ends with white space or contains a comma; the
result is empty for "" and for texts of commas and white space only; it is idempotent through
joining, parseCSV(join(parseCSV(s), ",")) = parseCSV(s); and `parseInputCSV` of the TUI is the
same function. -/
theorem parseCSV_normalises_comma_separated_lists :
    (∀ s : String, parseCSV s = ((strings.Split s ',').map
        (fun p => strings.TrimSpace (strings.ToUpper p))).filter (fun p => p != ""))
    ∧ (∀ s p : String, p ∈ parseCSV s →
        p ≠ "" ∧ strings.TrimSpace p = p ∧ ',' ∉ p.data
        ∧ (∀ c, p.data.head? = some c → unicode.IsSpace c = false)
        ∧ (∀ c, p.data.getLast? = some c → unicode.IsSpace c = false))
    ∧ parseCSV "" = []
    ∧ (∀ s : String, (∀ c ∈ s.data, c = ',' ∨ unicode.IsSpace c = true) → parseCSV s = [])
    ∧ (∀ s : String, parseCSV (strings.Join (parseCSV s) ",") = parseCSV s)
    ∧ (∀ s : String, tui.parseInputCSV s = parseCSV s) := by
  refine ⟨parseCSV_eq_filter, ?_, rfl, ?_, ?_, fun _ => rfl⟩
  · intro s p h
    obtain ⟨h1, h2, h3, _⟩ := parseCSV_element s p h
    refine ⟨h1, h2, h3, ?_, ?_⟩
    · intro c hc
      rw [← h2] at hc
      exact (strings.trim_head?_getLast? unicode.IsSpace p.data).1 c hc
    · intro c hc
      rw [← h2] at hc
      exact (strings.trim_head?_getLast? unicode.IsSpace p.data).2 c hc
  · intro s hs
    rw [parseCSV_eq_filter]
    apply List.filter_eq_nil_iff.mpr
    intro p hp
    simp only [List.mem_map, strings.Split] at hp
    obtain ⟨q, ⟨piece, hpiece, hmk⟩, hq⟩ := hp
    obtain ⟨hsep, hsub⟩ := strings.Split_pieces_mem ',' s.data piece hpiece
    have hall : ∀ c ∈ (strings.ToUpper q).data, unicode.IsSpace c = true := by
      intro c hc
      simp only [strings.ToUpper, List.mem_map] at hc
      obtain ⟨d, hd, hdc⟩ := hc
      rw [← hdc, unicode.IsSpace_ToUpper]
      rw [← hmk] at hd
      rcases hs d (hsub d hd) with h | h
      · subst h; exact absurd hd hsep
      · exact h
    rw [← hq, strings.TrimSpace_of_all_space _ hall]
    decide
  · intro s
    by_cases hnil : parseCSV s = []
    · rw [hnil]
      rfl
    · have hsplit : strings.Split (strings.Join (parseCSV s) ",") ',' = parseCSV s :=
        strings.Split_Join _ hnil (fun p hp => (parseCSV_element s p hp).2.2.1)
      rw [parseCSV_eq_filter (strings.Join (parseCSV s) ","), hsplit]
      have hmap : (parseCSV s).map (fun p => strings.TrimSpace (strings.ToUpper p))
          = parseCSV s := by
        have hfix : ∀ p ∈ parseCSV s,
            (fun p => strings.TrimSpace (strings.ToUpper p)) p = p := by
          intro p hp
          obtain ⟨_, h2, _, h4⟩ := parseCSV_element s p hp
          simp only [h4, h2]
        rw [List.map_congr_left hfix, List.map_id']
      rw [hmap]
      apply List.filter_eq_self.mpr
      intro p hp
      simpa using (parseCSV_element s p hp).1

/-- The list of `sfo , ,lax,`: SFO and LAX; SFO is one of its elements; letters outside ASCII
are upper-cased as well. -/
theorem parseCSV_normalises_comma_separated_lists_witness :
    parseCSV " sfo , ,lax," = ["SFO", "LAX"]
    ∧ parseCSV "zürich,é" = ["ZÜRICH", "É"]
    ∧ "SFO" ∈ parseCSV " sfo , ,lax,"
    ∧ ("SFO" ≠ "" ∧ strings.TrimSpace "SFO" = "SFO" ∧ ',' ∉ "SFO".data
        ∧ (∀ c, "SFO".data.head? = some c → unicode.IsSpace c = false)
        ∧ (∀ c, "SFO".data.getLast? = some c → unicode.IsSpace c = false))
    ∧ parseCSV " , ," = [] :=
  ⟨by decide, by decide, by decide,
   parseCSV_normalises_comma_separated_lists.2.1 " sfo , ,lax," "SFO" (by decide),
   parseCSV_normalises_comma_separated_lists.2.2.2.1 " , ," (by decide)⟩

end cli

namespace cli

open api config

/-! ## Cabin codes -/

/-- The branches of `cabinCodeToName`, on the trimmed text and its upper case. -/
theorem cabinCodeToName_eq_ite (s : String) :
    cabinCodeToName s =
      if strings.TrimSpace s = "" then ""
      else if strings.ToUpper (strings.TrimSpace s) = "Y"
          ∨ strings.ToUpper (strings.TrimSpace s) = "ECONOMY" then "economy"
      else if strings.ToUpper (strings.TrimSpace s) = "W"
          ∨ strings.ToUpper (strings.TrimSpace s) = "PREMIUM" then "premium"
      else if strings.ToUpper (strings.TrimSpace s) = "J"
          ∨ strings.ToUpper (strings.TrimSpace s) = "BUSINESS" then "business"
      else if strings.ToUpper (strings.TrimSpace s) = "F"
          ∨ strings.ToUpper (strings.TrimSpace s) = "FIRST" then "first"
      else strings.ToLower (strings.TrimSpace s) := by
  unfold cabinCodeToName
  by_cases h : strings.TrimSpace s = ""
  · simp [h]
  · simp only [beq_iff_eq, h, if_false]
    split <;> simp_all

/-- The lower case of a trimmed text is trimmed. -/
theorem TrimSpace_ToLower_TrimSpace (s : String) :
    strings.TrimSpace (strings.ToLower (strings.TrimSpace s))
      = strings.ToLower (strings.TrimSpace s) := by
  have := strings.TrimSpace_map unicode.ToLower unicode.IsSpace_ToLower (strings.TrimSpace s)
  rw [strings.TrimSpace_idem] at this
  exact this

theorem ToLower_eq_empty (s : String) (h : strings.ToLower s = "") : s = "" := by
  have hd := congrArg String.data h
  simp only [strings.ToLower] at hd
  have hnil : s.data = [] := by simpa using hd
  exact String.ext hnil

/-- Go `strings.ToLower` is idempotent. -/
theorem ToLower_ToLower (s : String) :
    strings.ToLower (strings.ToLower s) = strings.ToLower s := by
  simp only [strings.ToLower, List.map_map]
  congr 1
  apply List.map_congr_left
  intro c _
  exact unicode.ToLower_idem c

/-- Lower-casing a text without capital I with dot above (U+0130) keeps its upper case,
whenever the upper case of the lower case is an ASCII text without K. -/
theorem ToUpper_of_ToUpper_ToLower (code name : String)
    (hdot : ∀ c ∈ code.data, c.toNat ≠ 0x130) (hascii : ∀ c ∈ name.data, c.toNat < 0x80)
    (hK : 'K' ∉ name.data)
    (h : strings.ToUpper (strings.ToLower code) = name) : strings.ToUpper code = name := by
  rw [← h]
  simp only [strings.ToUpper, strings.ToLower, List.map_map]
  congr 1
  apply List.map_congr_left
  intro c hc
  have hmem : unicode.ToUpper (unicode.ToLower c) ∈ name.data := by
    rw [← h]
    simp only [strings.ToUpper, strings.ToLower, List.map_map, List.mem_map]
    exact ⟨c, hc, rfl⟩
  apply unicode.Char_eq_of_toNat
  have hX := hascii _ hmem
  have hne : unicode.ToUpper (unicode.ToLower c) ≠ 'K' := fun hk => hK (hk ▸ hmem)
  rw [unicode.toNat_ToUpper, unicode.toNat_ToLower] at hX
  rw [Function.comp_apply, unicode.toNat_ToUpper, unicode.toNat_ToUpper, unicode.toNat_ToLower]
  apply unicode.upperRune_of_lowerRune _ (hdot c hc) hX
  intro hk
  apply hne
  apply unicode.Char_eq_of_toNat
  rw [unicode.toNat_ToUpper, unicode.toNat_ToLower, hk]
  rfl

/-- The lower case of an upper-cased text is the lower case of an ASCII text whenever its upper
case is that text; the text is that ASCII text itself, unless I or K is in it. -/
theorem ToLower_of_ToUpper_fixed (code name : String)
    (hfix : ∀ c ∈ code.data, unicode.ToUpper c = c)
    (hascii : ∀ c ∈ name.data, c.toNat < 0x80)
    (h : strings.ToUpper (strings.ToLower code) = name) :
    strings.ToLower code = strings.ToLower name
    ∧ ('I' ∉ name.data → 'K' ∉ name.data → code = name) := by
  have hchar : ∀ c ∈ code.data,
      unicode.ToLower c = unicode.ToLower (unicode.ToUpper (unicode.ToLower c))
      ∧ (unicode.ToUpper (unicode.ToLower c) ≠ 'I' → unicode.ToUpper (unicode.ToLower c) ≠ 'K'
          → c = unicode.ToUpper (unicode.ToLower c)) := by
    intro c hc
    have hmem : unicode.ToUpper (unicode.ToLower c) ∈ name.data := by
      rw [← h]
      simp only [strings.ToUpper, strings.ToLower, List.map_map, List.mem_map]
      exact ⟨c, hc, rfl⟩
    have hX := hascii _ hmem
    rw [unicode.toNat_ToUpper, unicode.toNat_ToLower] at hX
    have hf : unicode.upperRune c.toNat = c.toNat := by
      rw [← unicode.toNat_ToUpper, hfix c hc]
    obtain ⟨h1, h2⟩ := unicode.lowerRune_of_upperRune_fixed c.toNat hf hX
    refine ⟨?_, ?_⟩
    · apply unicode.Char_eq_of_toNat
      rw [unicode.toNat_ToLower, unicode.toNat_ToLower, unicode.toNat_ToUpper,
        unicode.toNat_ToLower]
      exact h1
    · intro hI hK
      apply unicode.Char_eq_of_toNat
      rw [unicode.toNat_ToUpper, unicode.toNat_ToLower]
      apply h2
      · intro hx
        apply hI
        apply unicode.Char_eq_of_toNat
        rw [unicode.toNat_ToUpper, unicode.toNat_ToLower, hx]
        rfl
      · intro hx
        apply hK
        apply unicode.Char_eq_of_toNat
        rw [unicode.toNat_ToUpper, unicode.toNat_ToLower, hx]
        rfl
  constructor
  · rw [← h]
    simp only [strings.ToUpper, strings.ToLower, List.map_map]
    congr 1
    apply List.map_congr_left
    intro c hc
    simp only [Function.comp_apply]
    exact (hchar c hc).1
  · intro hI hK
    apply String.ext
    rw [← h]
    simp only [strings.ToUpper, strings.ToLower, List.map_map]
    have : code.data.map (unicode.ToUpper ∘ unicode.ToLower) = code.data.map id := by
      apply List.map_congr_left
      intro c hc
      have hmem : unicode.ToUpper (unicode.ToLower c) ∈ name.data := by
        rw [← h]
        simp only [strings.ToUpper, strings.ToLower, List.map_map, List.mem_map]
        exact ⟨c, hc, rfl⟩
      simp only [Function.comp_apply, id_eq]
      exact ((hchar c hc).2 (fun hx => hI (hx ▸ hmem)) (fun hx => hK (hx ▸ hmem))).symm
    rw [this, List.map_id]

/-- Where `cabinCodeToName` is idempotent: everywhere, except on the texts whose trimmed form
has an upper case that is no cabin code or name, while the upper case of its lower case is
one and its lower case is none of the API names. -/
theorem cabinCodeToName_twice_iff (s : String) :
    cabinCodeToName (cabinCodeToName s) = cabinCodeToName s ↔
      ¬ (strings.ToUpper (strings.TrimSpace s)
            ∉ ["Y", "ECONOMY", "W", "PREMIUM", "J", "BUSINESS", "F", "FIRST"]
          ∧ strings.ToUpper (strings.ToLower (strings.TrimSpace s))
            ∈ ["Y", "ECONOMY", "W", "PREMIUM", "J", "BUSINESS", "F", "FIRST"]
          ∧ strings.ToLower (strings.TrimSpace s)
            ∉ ["economy", "premium", "business", "first"]) := by
  by_cases h0 : strings.TrimSpace s = ""
  · have hl : cabinCodeToName (cabinCodeToName s) = cabinCodeToName s := by
      rw [cabinCodeToName_eq_ite s, if_pos h0]
      decide
    refine ⟨fun _ => ?_, fun _ => hl⟩
    rw [h0]
    decide
  by_cases hA : strings.ToUpper (strings.TrimSpace s)
      ∈ ["Y", "ECONOMY", "W", "PREMIUM", "J", "BUSINESS", "F", "FIRST"]
  · have hl : cabinCodeToName (cabinCodeToName s) = cabinCodeToName s := by
      rw [cabinCodeToName_eq_ite s, if_neg h0]
      split_ifs with h1 h2 h3 h4
      · decide
      · decide
      · decide
      · decide
      · exfalso
        simp only [List.mem_cons, List.mem_singleton, List.not_mem_nil, or_false] at hA
        tauto
    exact ⟨fun _ h => h.1 hA, fun _ => hl⟩
  have hA' := hA
  simp only [List.mem_cons, List.mem_singleton, List.not_mem_nil, or_false, not_or] at hA'
  obtain ⟨a1, a2, a3, a4, a5, a6, a7, a8⟩ := hA'
  have hs : cabinCodeToName s = strings.ToLower (strings.TrimSpace s) := by
    rw [cabinCodeToName_eq_ite s, if_neg h0, if_neg (not_or.mpr ⟨a1, a2⟩),
      if_neg (not_or.mpr ⟨a3, a4⟩), if_neg (not_or.mpr ⟨a5, a6⟩),
      if_neg (not_or.mpr ⟨a7, a8⟩)]
  have hne : strings.ToLower (strings.TrimSpace s) ≠ "" :=
    fun h => h0 (ToLower_eq_empty _ h)
  rw [hs, cabinCodeToName_eq_ite (strings.ToLower (strings.TrimSpace s)),
    TrimSpace_ToLower_TrimSpace, if_neg hne, ToLower_ToLower]
  by_cases hB : strings.ToUpper (strings.ToLower (strings.TrimSpace s))
      ∈ ["Y", "ECONOMY", "W", "PREMIUM", "J", "BUSINESS", "F", "FIRST"]
  · constructor
    · intro h hcon
      apply hcon.2.2
      simp only [List.mem_cons, List.mem_singleton, List.not_mem_nil, or_false]
      split_ifs at h with h1 h2 h3 h4
      · exact Or.inl h.symm
      · exact Or.inr (Or.inl h.symm)
      · exact Or.inr (Or.inr (Or.inl h.symm))
      · exact Or.inr (Or.inr (Or.inr h.symm))
      · exfalso
        simp only [List.mem_cons, List.mem_singleton, List.not_mem_nil, or_false] at hB
        tauto
    · intro h
      have hC : strings.ToLower (strings.TrimSpace s)
          ∈ ["economy", "premium", "business", "first"] := by
        by_contra hC
        exact h ⟨hA, hB, hC⟩
      simp only [List.mem_cons, List.mem_singleton, List.not_mem_nil, or_false] at hC
      rcases hC with hC | hC | hC | hC <;> rw [hC] <;> decide
  · have hB' := hB
    simp only [List.mem_cons, List.mem_singleton, List.not_mem_nil, or_false, not_or] at hB'
    obtain ⟨b1, b2, b3, b4, b5, b6, b7, b8⟩ := hB'
    rw [if_neg (not_or.mpr ⟨b1, b2⟩), if_neg (not_or.mpr ⟨b3, b4⟩),
      if_neg (not_or.mpr ⟨b5, b6⟩), if_neg (not_or.mpr ⟨b7, b8⟩)]
    exact ⟨fun _ h => hB h.2.1, fun _ => rfl⟩

/-- Every character of an upper-cased text is its own upper case, also after trimming. -/
theorem ToUpper_fixed_of_TrimSpace_ToUpper (x : String) :
    ∀ c ∈ (strings.TrimSpace (strings.ToUpper x)).data, unicode.ToUpper c = c := by
  intro c hc
  have h1 := strings.mem_of_mem_TrimSpace _ c hc
  simp only [strings.ToUpper, List.mem_map] at h1
  obtain ⟨d, _, hd⟩ := h1
  rw [← hd, unicode.ToUpper_idem]

end cli

end SeatsAero
